import Mathlib

/-! # Gauss Algorithms: peak lists and calibration equations

A shallow embedding of the pure C routines of `GaussAlgsLib.c`
(`GL_add_chanpeak`, `GL_add_egypeak`, `GL_add_peak`, `GL_chan_to_e`,
`GL_chan_to_w`, `GL_e_to_chan`, `GL_get_regnpks`, `GL_update_peaklist`) and of
the C side of the JNI wrappers (`GL_peaksearch` with `set_peak_results`,
`GL_regnsearch` with `set_regions`, `GL_exceeds_width`, `GL_fitregn` with
`set_fit_list`, `set_fit_record`, `set_cycle_return` and `set_curve`,
`get_jfitparms`, `GL_prune_rqdpks` with `set_peak_list`, `GL_ecalib` with
`set_equation`), together with the types of `GaussAlgsLib.h` they work on.
The Java engine behind the wrappers is not part of the C sources; where a
property depends on what it computes, the engine is a parameter of the
wrapper and a definition marked as modelled from the spec stands for it.

Modelling conventions.

* A C `double` is an element of a linearly ordered field `F`; the theorems
  that speak about square roots are stated over the reals with `Real.sqrt`.
  The `sqrt` of `math.h` is passed to the routines as a parameter, so the
  definitions stay executable (for instance over the rationals).
* A C `int` is an `Int`; the arithmetic done on them here (`i + 1`,
  `npeaks++`, `last - first + 1`, `(nchannels - 1) * nplots_per_chan + 1`) is
  read without overflow.
* An `enum` is an inductive type with the enumerators of the header.
* `GLPeak *peak` is the memory behind the pointer, a map from the index to
  the peak stored there; a write to `peak[i]` is `Function.update`.
* An output parameter `double *out` is modelled by passing the value stored
  at `out` before the call and returning the value stored there afterwards.
-/

namespace GaussAlgs

/-- Boolean logic of `GaussAlgsLib.h`: `GL_FALSE = 0`, `GL_TRUE = 1`. -/
inductive GLboolean where
  | GL_FALSE
  | GL_TRUE
  deriving DecidableEq, Repr

/-- Energy equation modes. -/
inductive GLEgyEqnMode where
  | GL_EGY_LINEAR
  | GL_EGY_QUADRATIC
  deriving DecidableEq, Repr

/-- Width equation modes. -/
inductive GLWidEqnMode where
  | GL_WID_LINEAR
  | GL_WID_SQRT
  deriving DecidableEq, Repr

/-- Which data form was used to add or define the peak. -/
inductive GLPeakType where
  | GL_PEAK_CHANNEL
  | GL_PEAK_ENERGY
  deriving DecidableEq, Repr

/-- Return codes from the C subroutines in Gauss Algorithms. -/
inductive GLRtnCode where
  | GL_SUCCESS
  | GL_FAILURE
  | GL_BADMALLOC
  | GL_OVRLMT
  | GL_NOJVM
  | GL_JNIERROR
  | GL_JEXCEPTION
  deriving DecidableEq, Repr

open GLboolean GLEgyEqnMode GLWidEqnMode GLPeakType GLRtnCode

/-- Definition of a fitting range: first and last channel. -/
structure GLChanRange where
  first : Int
  last : Int
  deriving DecidableEq, Repr

/-- Coefficients of the energy equation `e(x) = a + b*x + c*x**2` and the chi
squared of the calibration that produced them. -/
structure GLEnergyEqn (F : Type) where
  a : F
  b : F
  c : F
  chi_sq : F
  mode : GLEgyEqnMode

/-- Coefficients of the width equation, `w(x) = alpha + beta*x` (linear) or
`w(x) = (alpha + beta*x)**1/2` (sqrt). -/
structure GLWidthEqn (F : Type) where
  alpha : F
  beta : F
  chi_sq : F
  mode : GLWidEqnMode

/-- All information about a single peak. -/
structure GLPeak (F : Type) where
  type : GLPeakType
  channel_valid : GLboolean
  channel : F
  energy_valid : GLboolean
  energy : F
  sige : F
  fixed_centroid : GLboolean

/-- A list of peaks: `listlength` is the array size of `peak`, `npeaks` the
number of peaks in use, `peak` the array itself (indexed memory). -/
structure GLPeakList (F : Type) where
  listlength : Int
  npeaks : Int
  peak : Int → GLPeak F

section PeakLists

variable {F : Type}

/-- `GL_add_chanpeak`: add a peak in terms of channel. Returns the code and
the list as it stands after the call. -/
def GL_add_chanpeak (channel : F) (peaks : GLPeakList F) : GLRtnCode × GLPeakList F :=
  let i := peaks.npeaks
  if i + 1 > peaks.listlength then
    (GL_OVRLMT, peaks)
  else
    (GL_SUCCESS,
      { peaks with
        peak := Function.update peaks.peak i
          { peaks.peak i with
            type := GL_PEAK_CHANNEL
            channel_valid := GL_TRUE
            channel := channel
            energy_valid := GL_FALSE
            fixed_centroid := GL_FALSE }
        npeaks := peaks.npeaks + 1 })

/-- `GL_add_egypeak`: add a peak in terms of energy. -/
def GL_add_egypeak (energy sige : F) (peaks : GLPeakList F) : GLRtnCode × GLPeakList F :=
  let i := peaks.npeaks
  if i + 1 > peaks.listlength then
    (GL_OVRLMT, peaks)
  else
    (GL_SUCCESS,
      { peaks with
        peak := Function.update peaks.peak i
          { peaks.peak i with
            type := GL_PEAK_ENERGY
            channel_valid := GL_FALSE
            energy_valid := GL_TRUE
            energy := energy
            sige := sige
            fixed_centroid := GL_TRUE }
        npeaks := peaks.npeaks + 1 })

/-- `GL_add_peak`: add a copy of `peak`, field by field. -/
def GL_add_peak (peak : GLPeak F) (peaks : GLPeakList F) : GLRtnCode × GLPeakList F :=
  let i := peaks.npeaks
  if i + 1 > peaks.listlength then
    (GL_OVRLMT, peaks)
  else
    (GL_SUCCESS,
      { peaks with
        peak := Function.update peaks.peak i
          { peaks.peak i with
            type := peak.type
            channel_valid := peak.channel_valid
            channel := peak.channel
            energy_valid := peak.energy_valid
            energy := peak.energy
            sige := peak.sige
            fixed_centroid := peak.fixed_centroid }
        npeaks := peaks.npeaks + 1 })

/-- The loop `for (i = 0; i < npeaks; i++) peak[i] = body(peak[i])`: the
bounds are fixed during the loop, so it is a fold over `0 .. npeaks-1`
(no iteration at all when `npeaks <= 0`). -/
def for_each_peak (body : GLPeak F → GLPeak F) (npeaks : Int) (peak : Int → GLPeak F) :
    Int → GLPeak F :=
  (List.range npeaks.toNat).foldl
    (fun (pk : Int → GLPeak F) (i : Nat) => Function.update pk (i : Int) (body (pk (i : Int))))
    peak

end PeakLists

section Macros

variable {α : Type} [LinearOrder α]

/-- The macro `GAP_max(a,b)`, `(a<b ? b : a)`; it is applied to `double` and
to `int` arguments alike. -/
def GAP_max (a b : α) : α := if a < b then b else a

/-- The macro `GAP_min(a,b)`, `(a>b ? b : a)`. -/
def GAP_min (a b : α) : α := if a > b then b else a

end Macros

section Equations

variable {F : Type} [LinearOrderedField F]

/-- `GL_chan_to_e`: convert a channel number to energy; the value returned is
the one written to `*energy`. -/
def GL_chan_to_e (ex : GLEnergyEqn F) (channel : F) : F :=
  match ex.mode with
  | GL_EGY_LINEAR => ex.a + (ex.b * channel)
  | GL_EGY_QUADRATIC => ex.a + (ex.b * channel) + (ex.c * channel * channel)

/-- `GL_chan_to_w`: the peak width at the indicated channel. `width` is the
value stored at `*width` before the call; the second component of the result
is the value stored there after it. -/
def GL_chan_to_w (sqrt : F → F) (wx : GLWidthEqn F) (channel : F) (width : F) :
    GLRtnCode × F :=
  let temp := wx.alpha + (wx.beta * channel)
  match wx.mode with
  | GL_WID_LINEAR => (GL_SUCCESS, temp)
  | GL_WID_SQRT =>
    if temp < 0 then
      (GL_FAILURE, width)
    else
      (GL_SUCCESS, sqrt temp)

/-- `GL_e_to_chan`: convert energy to channel. `channel` is the value stored
at `*channel` before the call; the second component of the result is the value
stored there after it. -/
def GL_e_to_chan (sqrt : F → F) (ex : GLEnergyEqn F) (energy : F) (channel : F) :
    GLRtnCode × F :=
  if ex.mode = GL_EGY_LINEAR ∨ ex.c = 0 then
    if ex.b = 0 then
      (GL_FAILURE, channel)
    else
      (GL_SUCCESS, (energy - ex.a) / ex.b)
  else
    let bsqr_4ac := (ex.b * ex.b) - (4 * ex.c * (ex.a - energy))
    if bsqr_4ac < 0 then
      (GL_FAILURE, channel)
    else
      (GL_SUCCESS, GAP_max 0 ((-ex.b + sqrt bsqr_4ac) / (2 * ex.c)))

/-- The body of the loop of `GL_update_peaklist` when `ex != NULL`: the
`switch` on the type of `peak[i]`. The return code of `GL_e_to_chan` is
dropped, as in the source. -/
def update_peak_with (sqrt : F → F) (ex : GLEnergyEqn F) (p : GLPeak F) : GLPeak F :=
  match p.type with
  | GL_PEAK_CHANNEL =>
    { p with
      energy := GL_chan_to_e ex p.channel
      sige := 0
      energy_valid := GL_TRUE }
  | GL_PEAK_ENERGY =>
    { p with
      channel := (GL_e_to_chan sqrt ex p.energy p.channel).2
      channel_valid := GL_TRUE }

/-- The body of the loop of `GL_update_peaklist` when `ex == NULL`. -/
def update_peak_without (p : GLPeak F) : GLPeak F :=
  match p.type with
  | GL_PEAK_CHANNEL => { p with energy_valid := GL_FALSE }
  | GL_PEAK_ENERGY => { p with channel_valid := GL_FALSE }

/-- `GL_update_peaklist`: update a peak list with the specified energy
calibration; `ex = none` is the `NULL` pointer. -/
def GL_update_peaklist (sqrt : F → F) (ex : Option (GLEnergyEqn F)) (peaks : GLPeakList F) :
    GLPeakList F :=
  match ex with
  | some ex =>
    { peaks with peak := for_each_peak (update_peak_with sqrt ex) peaks.npeaks peaks.peak }
  | none =>
    { peaks with peak := for_each_peak update_peak_without peaks.npeaks peaks.peak }

/-- The test of `GL_get_regnpks` on one peak: `channel_valid == GL_TRUE`,
`channel >= region->first` and `channel <= region->last` (the `int` bounds
are converted to `double` for the comparison). -/
def in_region (region : GLChanRange) (p : GLPeak F) : Bool :=
  decide (p.channel_valid = GL_TRUE ∧ p.channel ≥ (region.first : F) ∧
    p.channel ≤ (region.last : F))

/-- The loop of `GL_get_regnpks` over the indices still to visit: a peak in
the region is added with `GL_add_peak`, and the loop is left with
`GL_OVRLMT` as soon as an add reports it. -/
def get_regnpks_loop (region : GLChanRange) (peaks : GLPeakList F) :
    List Nat → GLPeakList F → GLRtnCode × GLPeakList F
  | [], pks_in_rgn => (GL_SUCCESS, pks_in_rgn)
  | i :: rest, pks_in_rgn =>
    if in_region region (peaks.peak (i : Int)) then
      if (GL_add_peak (peaks.peak (i : Int)) pks_in_rgn).1 = GL_OVRLMT then
        (GL_OVRLMT, (GL_add_peak (peaks.peak (i : Int)) pks_in_rgn).2)
      else
        get_regnpks_loop region peaks rest (GL_add_peak (peaks.peak (i : Int)) pks_in_rgn).2
    else
      get_regnpks_loop region peaks rest pks_in_rgn

/-- `GL_get_regnpks`: the peaks of `peaks` that are within `region`, written
to the caller's list `pks_in_rgn` (a list distinct from `peaks`). Returns the
code and `pks_in_rgn` as it stands after the call. -/
def GL_get_regnpks (region : GLChanRange) (peaks : GLPeakList F) (pks_in_rgn : GLPeakList F) :
    GLRtnCode × GLPeakList F :=
  if pks_in_rgn.listlength ≤ 0 then
    (GL_OVRLMT, pks_in_rgn)
  else
    get_regnpks_loop region peaks (List.range peaks.npeaks.toNat)
      { pks_in_rgn with npeaks := 0 }

/-- The peaks in use of a list, `peak[0] .. peak[npeaks-1]`, in order. -/
def GLPeakList.toList (peaks : GLPeakList F) : List (GLPeak F) :=
  (List.range peaks.npeaks.toNat).map (fun (i : Nat) => peaks.peak (i : Int))

end Equations

/-! ## The JNI wrappers

The searching and fitting engine is Java code reached through JNI; it is not
part of these sources. A Java object is modelled by what the JNI calls made
on it return (`none` for a `NULL` reference, a flag for a class, field or
method lookup), and each wrapper takes those objects as arguments. -/

section Wrappers

variable {F : Type} [LinearOrderedField F]

/-- The results of a peak refinement. -/
structure GLPeakRefinement (F : Type) where
  raw_channel : F
  refine_region : GLChanRange
  net_area : F
  background : F
  refined_channel : F
  use_refinement : GLboolean

/-- The results of a peak search: the found peaks, the array of peak
refinements, and the cross-correlations with the size of their array. -/
structure GLPeakSearchResults (F : Type) where
  peaklist : GLPeakList F
  refinements : Int → GLPeakRefinement F
  listlength : Int
  crosscorrs : Int → Int

/-- A list of region coordinates. -/
structure GLRegions where
  listlength : Int
  nregions : Int
  chanrange : Int → GLChanRange

/-- A Java `ChannelRange` object seen through JNI: `lookups_found` tells
whether `GetObjectClass` and the two `GetFieldID` calls of
`GAP_set_chanrange` all return non-NULL. -/
structure JChannelRange where
  lookups_found : Bool
  m_firstChannel : Int
  m_lastChannel : Int

/-- A Java `TreeSet`: `array` is what `GAP_get_array_from_jtreeset` makes of
it, `none` when the routine returns `NULL` (a JNI step or `calloc` failed)
and otherwise the elements in iteration order, whose number is
`*array_length`. -/
structure JTreeSet (α : Type) where
  array : Option (List α)

/-- `GAP_get_array_from_jtreeset`: an array of Java objects extracted from a
Java TreeSet, or `NULL`. -/
def GAP_get_array_from_jtreeset {α : Type} (tree_object : JTreeSet α) : Option (List α) :=
  tree_object.array

/-- `GAP_set_chanrange`: set the `GLChanRange` with the values extracted from
the Java object; every failure returns `GL_JNIERROR` before anything is
written. -/
def GAP_set_chanrange (jchanrange : JChannelRange) (chanrange : GLChanRange) :
    GLRtnCode × GLChanRange :=
  if jchanrange.lookups_found then
    (GL_SUCCESS,
      { chanrange with
        first := jchanrange.m_firstChannel
        last := jchanrange.m_lastChannel })
  else
    (GL_JNIERROR, chanrange)

/-- A Java `SearchPeak` object seen through its getters. -/
structure JSearchPeak (F : Type) where
  getRawCentroid : Int
  getRefineRegion : Option JChannelRange
  getArea : F
  getBackground : F
  getRefinedCentroid : F
  useRefinement : Bool

/-- A Java `PeakSearchResults` object seen through JNI, in the order in which
`set_peak_results` and `set_cross_correlations` question it. The two
`searchPeak` flags stand for `GetObjectClass` on the first search peak and for
the six `GetMethodID` calls on that class. -/
structure JPeakSearchResults (F : Type) where
  class_found : Bool
  getSearchPeakList_found : Bool
  getSearchPeakList : Option (JTreeSet (JSearchPeak F))
  searchPeak_class_found : Bool
  searchPeak_methods_found : Bool
  getCrossProducts_found : Bool
  getCrossProducts : Option (List Int)

/-- `set_search_peak`: decode one Java search peak into
`results->refinements[index]` and `results->peaklist->peak[index]`. -/
def set_search_peak (searchPeakObject : JSearchPeak F) (index : Int)
    (results : GLPeakSearchResults F) : GLRtnCode × GLPeakSearchResults F :=
  let results1 : GLPeakSearchResults F :=
    { results with
      refinements := Function.update results.refinements index
        { results.refinements index with
          raw_channel := (searchPeakObject.getRawCentroid : F) } }
  match searchPeakObject.getRefineRegion with
  | none => (GL_JNIERROR, results1)
  | some jregion =>
    let ret := GAP_set_chanrange jregion (results1.refinements index).refine_region
    let results2 : GLPeakSearchResults F :=
      { results1 with
        refinements := Function.update results1.refinements index
          { results1.refinements index with refine_region := ret.2 } }
    if ret.1 ≠ GL_SUCCESS then
      (ret.1, results2)
    else
      let refinement : GLPeakRefinement F :=
        { results2.refinements index with
          net_area := searchPeakObject.getArea
          background := searchPeakObject.getBackground
          refined_channel := searchPeakObject.getRefinedCentroid
          use_refinement := if searchPeakObject.useRefinement then GL_TRUE else GL_FALSE }
      (GL_SUCCESS,
        { results2 with
          refinements := Function.update results2.refinements index refinement
          peaklist :=
            { results2.peaklist with
              peak := Function.update results2.peaklist.peak index
                { results2.peaklist.peak index with
                  type := GL_PEAK_CHANNEL
                  channel :=
                    if refinement.use_refinement = GL_TRUE then refinement.refined_channel
                    else refinement.raw_channel
                  channel_valid := GL_TRUE
                  energy := 0
                  sige := 0
                  energy_valid := GL_FALSE
                  fixed_centroid := GL_FALSE } } })

/-- The peak that `set_search_peak` has written to the list when it returns
`GL_SUCCESS`: all seven fields are assigned. -/
def decoded_peak (searchPeakObject : JSearchPeak F) : GLPeak F :=
  { type := GL_PEAK_CHANNEL
    channel_valid := GL_TRUE
    channel :=
      if searchPeakObject.useRefinement then searchPeakObject.getRefinedCentroid
      else (searchPeakObject.getRawCentroid : F)
    energy_valid := GL_FALSE
    energy := 0
    sige := 0
    fixed_centroid := GL_FALSE }

/-- The refinement that `set_search_peak` has written when it returns
`GL_SUCCESS`, `jregion` being the refine region of the search peak. -/
def decoded_refinement (searchPeakObject : JSearchPeak F) (jregion : JChannelRange) :
    GLPeakRefinement F :=
  { raw_channel := (searchPeakObject.getRawCentroid : F)
    refine_region := { first := jregion.m_firstChannel, last := jregion.m_lastChannel }
    net_area := searchPeakObject.getArea
    background := searchPeakObject.getBackground
    refined_channel := searchPeakObject.getRefinedCentroid
    use_refinement := if searchPeakObject.useRefinement then GL_TRUE else GL_FALSE }

/-- `set_cross_correlations`: copy the Java cross products to the C array
`cross_products`, at most `listlength` of them. The result holds the code and
the array after the call. -/
def set_cross_correlations (peakResultsObject : JPeakSearchResults F)
    (cross_products : Int → Int) (listlength : Int) : GLRtnCode × (Int → Int) :=
  if !peakResultsObject.getCrossProducts_found then
    (GL_JNIERROR, cross_products)
  else
    match peakResultsObject.getCrossProducts with
    | none => (GL_JNIERROR, cross_products)
    | some prdsArray =>
      let prds_count : Int := (prdsArray.length : Int)
      let top := GAP_min listlength prds_count
      (GL_SUCCESS,
        fun i => if 0 ≤ i ∧ i < top then prdsArray.getD i.toNat 0 else cross_products i)

/-- The loop `for (i = ...; i < top; i++)` of `set_peak_results` over the
search peaks still to decode: it is left with the code of `set_search_peak`
as soon as that is not `GL_SUCCESS`, and counts a peak otherwise. -/
def set_peak_results_loop :
    List (JSearchPeak F) → Int → GLPeakSearchResults F → GLRtnCode × GLPeakSearchResults F
  | [], _, results => (GL_SUCCESS, results)
  | searchPeakObject :: rest, i, results =>
    if (set_search_peak searchPeakObject i results).1 ≠ GL_SUCCESS then
      set_search_peak searchPeakObject i results
    else
      set_peak_results_loop rest (i + 1)
        { (set_search_peak searchPeakObject i results).2 with
          peaklist :=
            { (set_search_peak searchPeakObject i results).2.peaklist with
              npeaks := (set_search_peak searchPeakObject i results).2.peaklist.npeaks + 1 } }

/-- `set_peak_results`: copy the Java results of a peak search into C. -/
def set_peak_results (peakResultsObject : JPeakSearchResults F)
    (results : GLPeakSearchResults F) : GLRtnCode × GLPeakSearchResults F :=
  if !peakResultsObject.class_found then
    (GL_JNIERROR, results)
  else if !peakResultsObject.getSearchPeakList_found then
    (GL_JNIERROR, results)
  else
    match peakResultsObject.getSearchPeakList with
    | none => (GL_JNIERROR, results)
    | some srchPkTreeObject =>
      match GAP_get_array_from_jtreeset srchPkTreeObject with
      | none => (GL_JNIERROR, results)
      | some jsrchpkArray =>
        let jsrchpk_count : Int := (jsrchpkArray.length : Int)
        let results1 : GLPeakSearchResults F :=
          { results with peaklist := { results.peaklist with npeaks := 0 } }
        if 0 = jsrchpk_count then
          (GL_SUCCESS, results1)
        else if !peakResultsObject.searchPeak_class_found then
          (GL_JNIERROR, results1)
        else if !peakResultsObject.searchPeak_methods_found then
          (GL_JNIERROR, results1)
        else
          let top := GAP_min results1.peaklist.listlength jsrchpk_count
          let decoded := set_peak_results_loop (jsrchpkArray.take top.toNat) 0 results1
          if decoded.1 ≠ GL_SUCCESS then
            decoded
          else
            let ret := set_cross_correlations peakResultsObject decoded.2.crosscorrs
              decoded.2.peaklist.listlength
            (ret.1, { decoded.2 with crosscorrs := ret.2 })

/-- The Java side of one call of `GL_peaksearch`: whether a JVM is found,
whether every Java input, class and method needed for the call is obtained
(each missing one returns `GL_JNIERROR`), whether the search throws, and the
object it returns. The spectrum, range, width equation and threshold go into
that call and reach the C side only through this outcome. -/
structure JPeakSearchCall (F : Type) where
  jvm_found : Bool
  inputs_built : Bool
  exception_thrown : Bool
  peakResultsObject : Option (JPeakSearchResults F)

/-- `GL_peaksearch`: search for peaks in the spectrum and copy the Java
results into `results`. -/
def GL_peaksearch (call : JPeakSearchCall F) (results : GLPeakSearchResults F) :
    GLRtnCode × GLPeakSearchResults F :=
  if !call.jvm_found then
    (GL_NOJVM, results)
  else if !call.inputs_built then
    (GL_JNIERROR, results)
  else if call.exception_thrown then
    (GL_JEXCEPTION, results)
  else
    match call.peakResultsObject with
    | none => (GL_JNIERROR, results)
    | some peakResultsObject => set_peak_results peakResultsObject results

/-- The loop of `set_regions` over the Java regions still to copy, `i` being
the index of the next one and `ret_code` the value of the local variable. -/
def set_regions_loop :
    List JChannelRange → Int → GLRtnCode → GLRegions → GLRtnCode × GLRegions
  | [], _, ret_code, regions => (ret_code, regions)
  | jregion :: rest, i, _, regions =>
    if (GAP_set_chanrange jregion (regions.chanrange i)).1 = GL_SUCCESS then
      set_regions_loop rest (i + 1) (GAP_set_chanrange jregion (regions.chanrange i)).1
        { regions with
          chanrange := Function.update regions.chanrange i
            (GAP_set_chanrange jregion (regions.chanrange i)).2
          nregions := regions.nregions + 1 }
    else
      ((GAP_set_chanrange jregion (regions.chanrange i)).1,
        { regions with
          chanrange := Function.update regions.chanrange i
            (GAP_set_chanrange jregion (regions.chanrange i)).2
          nregions := 0 })

/-- `set_regions`: decode the Java region TreeSet into the caller's region
list. The local `ret_code` is not initialised in the source; `ret_code` is
the value it happens to hold, returned as such when no region is found. -/
def set_regions (regionsTreeObject : JTreeSet JChannelRange) (ret_code : GLRtnCode)
    (regions : GLRegions) : GLRtnCode × GLRegions :=
  match GAP_get_array_from_jtreeset regionsTreeObject with
  | none => (GL_JNIERROR, { regions with nregions := 0 })
  | some jregions => set_regions_loop jregions 0 ret_code { regions with nregions := 0 }

end Wrappers

/-! ## Fit records -/

/-- Legal values of the `pkwd_mode` fit parameter. -/
inductive GLPkwdMode where
  | GL_PKWD_VARIES
  | GL_PKWD_FIXED
  deriving DecidableEq, Repr

/-- Types for the `cc_type` fit parameter. -/
inductive GLCCType where
  | GL_CC_LARGER
  | GL_CC_SMALLER
  | GL_CC_LARGER_INC
  deriving DecidableEq, Repr

/-- Fit cycle return code. -/
inductive GLCycleReturn where
  | GL_CYCLE_DONE
  | GL_CYCLE_DELETE
  | GL_CYCLE_ADD
  | GL_CYCLE_CONTINUE
  deriving DecidableEq, Repr

open GLPkwdMode GLCCType GLCycleReturn

/-- The counts per channel of a spectrum; `count = none` is the `NULL`
pointer. -/
structure GLSpectrum where
  listlength : Int
  nchannels : Int
  firstchannel : Int
  count : Option (Int → Int)

/-- Fit parameters (`max_resid` is a `float`). -/
structure GLFitParms (F : Type) where
  ncycle : Int
  nout : Int
  max_npeaks : Int
  pkwd_mode : GLPkwdMode
  cc_type : GLCCType
  max_resid : F

/-- A linear fit background. -/
structure GLFitBackLin (F : Type) where
  intercept : F
  sigi : F
  slope : F
  sigs : F

/-- Fit information of each peak. -/
structure GLSummary (F : Type) where
  listlength : Int
  npeaks : Int
  ratio : F
  fixed : Int → GLboolean
  channel : Int → F
  sigc : Int → F
  height : Int → F
  sigh : Int → F
  wid : Int → F
  sigw : Int → F
  area : Int → F
  siga : Int → F
  energy : Int → F
  sige : Int → F
  negpeak_alarm : Int → GLboolean
  outsidepeak_alarm : Int → GLboolean
  posnegpeakpair_alarm : Int → GLboolean

/-- Coordinates for the fit, background and residual at each channel in the
region; `fitpeak` holds one component curve per peak. -/
structure GLCurve (F : Type) where
  listlength : Int
  chanrange : GLChanRange
  nplots_per_chan : Int
  npoints : Int
  npeaks : Int
  x_offset : Int → F
  fitpeak : Int → Int → F
  fitcurve : Int → F
  back : Int → F
  resid : Int → F

/-- Fit information corresponding to one fit cycle; `none` is `NULL` for the
three pointers `cycle_exception`, `summary` and `curve`. -/
structure GLFitRecord (F : Type) where
  cycle_number : Int
  used_chanrange : GLChanRange
  used_parms : GLFitParms F
  used_ex : GLEnergyEqn F
  used_wx : GLWidthEqn F
  used_spectrum : GLSpectrum
  input_peaks : GLPeakList F
  chi_sq : F
  cycle_return : GLCycleReturn
  cycle_exception : Option String
  back_linear : GLFitBackLin F
  summary : Option (GLSummary F)
  curve : Option (GLCurve F)

/-- A Java `Fit` object seen through its getters; `JRc`, `JExc`, `JBack`,
`JSumm` and `JCurve` are the Java objects it hands out, `none` being a `NULL`
reference, and `getCurve` takes `nplots_per_chan`. -/
structure JFit (F JRc JExc JBack JSumm JCurve : Type) where
  getCycleNumber : Int
  getChiSquared : F
  getCycleReturnCode : Option JRc
  getCycleException : Option JExc
  getBackground : Option JBack
  getSummary : Option JSumm
  getCurve : Int → Option JCurve

/-- The routines that `set_fit_record` calls on the Java objects of a fit,
each with the one output it is given a pointer to: the value stored there
before the call goes in, the code and the value stored afterwards come out.
`GAP_get_exception_message` fills its message buffer. -/
structure FitDecoders (F JRc JExc JBack JSumm JCurve : Type) where
  set_cycle_return : JRc → GLCycleReturn → GLRtnCode × GLCycleReturn
  GAP_get_exception_message : JExc → GLRtnCode × String
  set_background : JBack → GLFitBackLin F → GLRtnCode × GLFitBackLin F
  set_summary : JSumm → Option (GLSummary F) → GLRtnCode × Option (GLSummary F)
  set_curve : JCurve → GLChanRange → Option (GLCurve F) → GLRtnCode × Option (GLCurve F)

/-- Whether the allocator has memory for the three allocations made while one
fit record is set. -/
structure FitMemory where
  spectrum_available : Bool
  peaks_available : Bool
  exception_available : Bool

/-- What `set_fit_list` finds on the heap: whether the `i`-th call of
`alloc_fitreclist_item` gets its two blocks, what the record block holds when
`malloc` hands it out, and the memory available while record `i` is set. -/
structure FitHeap (F : Type) where
  item_available : Nat → Bool
  garbage : Nat → GLFitRecord F
  record_memory : Nat → FitMemory

/-- A Java `Vector` of fits seen through JNI: `array` is what
`get_array_from_jvector` makes of it (`none` for `NULL`), the flags tell
whether the class of a fit, its seven getters, the class `Peak` and its
`getChannel` method are found. -/
structure JFitVector (F JRc JExc JBack JSumm JCurve : Type) where
  array : Option (List (JFit F JRc JExc JBack JSumm JCurve))
  fit_class_found : Bool
  fit_methods_found : Bool
  peak_class_found : Bool
  getChannel_found : Bool

/-- The Java side of one call of `GL_fitregn`: whether a JVM is found,
whether every Java input, class and method needed for the call is obtained,
whether `fitRegion` throws, and the vector it returns. -/
structure JFitCall (F JRc JExc JBack JSumm JCurve : Type) where
  jvm_found : Bool
  inputs_built : Bool
  exception_thrown : Bool
  fitVectorObject : Option (JFitVector F JRc JExc JBack JSumm JCurve)

/-- The array handed out by `GL_peaks_alloc`: `calloc` zeroes every entry. -/
def calloc_peaks (F : Type) [LinearOrderedField F] : Int → GLPeak F := fun _ =>
  { type := GL_PEAK_CHANNEL
    channel_valid := GL_FALSE
    channel := 0
    energy_valid := GL_FALSE
    energy := 0
    sige := 0
    fixed_centroid := GL_FALSE }

section FitRecords

variable {F JRc JExc JBack JSumm JCurve : Type} [LinearOrderedField F]

/-- `calloc(count, size)` with an `int` count: `NULL` when the count is
negative (its conversion to `size_t` makes the product overflow) or when no
memory is available, and otherwise the zeroed array `zeroed`. -/
def calloc_array {α : Type} (zeroed : Int → α) (available : Bool) (count : Int) :
    Option (Int → α) :=
  if count < 0 then none else if available then some zeroed else none

/-- `GL_spectrum_counts_alloc`: allocate space in the `GLSpectrum` structure
for the count array. -/
def GL_spectrum_counts_alloc (available : Bool) (spectrum : GLSpectrum) (listlength : Int) :
    GLRtnCode × GLSpectrum :=
  match calloc_array (fun _ => (0 : Int)) available listlength with
  | none => (GL_BADMALLOC, { spectrum with count := none, listlength := 0, nchannels := 0 })
  | some counts =>
    (GL_SUCCESS, { spectrum with count := some counts, listlength := listlength, nchannels := 0 })

/-- `memcpy_s` of `n` counts from `src` to `dest`; a `NULL` source leaves the
(zeroed) destination as it is. -/
def memcpy_counts (dest : Int → Int) (src : Option (Int → Int)) (n : Int) : Int → Int :=
  match src with
  | none => dest
  | some counts => fun i => if 0 ≤ i ∧ i < n then counts i else dest i

/-- `fitrec_alloc`: a fresh fit record, `garbage` being the content of the
block handed out by `malloc`. -/
def fitrec_alloc (garbage : GLFitRecord F) : GLFitRecord F :=
  { garbage with
    used_spectrum := { garbage.used_spectrum with count := none, listlength := 0, nchannels := 0 }
    input_peaks := { garbage.input_peaks with listlength := 0, npeaks := 0 }
    cycle_exception := none
    summary := none
    curve := none }

/-- `alloc_fitreclist_item`: a list item with a fresh record (the `next`
pointer of the item is the tail of the Lean list), or `NULL`. -/
def alloc_fitreclist_item (available : Bool) (garbage : GLFitRecord F) :
    Option (GLFitRecord F) :=
  if available then some (fitrec_alloc garbage) else none

/-- The sequencing `ret_code = step; if (GL_SUCCESS != ret_code) return(ret_code);`
followed by the rest of the routine. -/
def and_then {R : Type} (first : GLRtnCode × R) (rest : R → GLRtnCode × R) : GLRtnCode × R :=
  if first.1 ≠ GL_SUCCESS then first else rest first.2

/-- The first part of `set_fit_record`, "set the used fields": the copies of
the region, parameters and equations, of the spectrum and of the peaks. -/
def set_used_fields (mem : FitMemory) (chanrange : GLChanRange) (spectrum : GLSpectrum)
    (peaks : GLPeakList F) (fitparms : GLFitParms F) (ex : GLEnergyEqn F) (wx : GLWidthEqn F)
    (fitRecord : GLFitRecord F) : GLRtnCode × GLFitRecord F :=
  let fitRecord1 : GLFitRecord F :=
    { fitRecord with
      used_chanrange :=
        { fitRecord.used_chanrange with first := chanrange.first, last := chanrange.last }
      used_parms :=
        { fitRecord.used_parms with
          cc_type := fitparms.cc_type
          max_npeaks := fitparms.max_npeaks
          max_resid := fitparms.max_resid
          ncycle := fitparms.ncycle
          nout := fitparms.nout
          pkwd_mode := fitparms.pkwd_mode }
      used_ex :=
        { fitRecord.used_ex with
          a := ex.a, b := ex.b, c := ex.c, chi_sq := ex.chi_sq, mode := ex.mode }
      used_wx :=
        { fitRecord.used_wx with
          alpha := wx.alpha, beta := wx.beta, chi_sq := wx.chi_sq, mode := wx.mode } }
  let alloc := GL_spectrum_counts_alloc mem.spectrum_available fitRecord1.used_spectrum
    spectrum.nchannels
  if alloc.1 ≠ GL_SUCCESS then
    (alloc.1, { fitRecord1 with used_spectrum := alloc.2 })
  else
    let fitRecord2 : GLFitRecord F :=
      { fitRecord1 with
        used_spectrum :=
          { alloc.2 with
            firstchannel := spectrum.firstchannel
            nchannels := spectrum.nchannels
            count := alloc.2.count.map
              (fun dest => memcpy_counts dest spectrum.count spectrum.nchannels) } }
    match calloc_array (calloc_peaks F) mem.peaks_available peaks.npeaks with
    | none => (GL_BADMALLOC, fitRecord2)
    | some storage =>
      (GL_SUCCESS,
        { fitRecord2 with
          input_peaks :=
            (List.range peaks.npeaks.toNat).foldl
              (fun (input_peaks : GLPeakList F) (i : Nat) =>
                (GL_add_peak (peaks.peak (i : Int)) input_peaks).2)
              { listlength := peaks.npeaks, npeaks := 0, peak := storage } })

/-- `set_fit_record`, "set results", first step: cycle number, chi squared
and cycle return code. -/
def set_cycle_fields (dec : FitDecoders F JRc JExc JBack JSumm JCurve)
    (fitObject : JFit F JRc JExc JBack JSumm JCurve) (fitRecord : GLFitRecord F) :
    GLRtnCode × GLFitRecord F :=
  let fitRecord1 : GLFitRecord F :=
    { fitRecord with
      cycle_number := fitObject.getCycleNumber
      chi_sq := fitObject.getChiSquared }
  match fitObject.getCycleReturnCode with
  | none => (GL_JNIERROR, fitRecord1)
  | some jcycleReturnCode =>
    ((dec.set_cycle_return jcycleReturnCode fitRecord1.cycle_return).1,
      { fitRecord1 with
        cycle_return := (dec.set_cycle_return jcycleReturnCode fitRecord1.cycle_return).2 })

/-- `set_fit_record`, next step: the message of the cycle exception. -/
def set_cycle_exception (dec : FitDecoders F JRc JExc JBack JSumm JCurve) (mem : FitMemory)
    (fitObject : JFit F JRc JExc JBack JSumm JCurve) (fitRecord : GLFitRecord F) :
    GLRtnCode × GLFitRecord F :=
  match fitObject.getCycleException with
  | none => (GL_SUCCESS, { fitRecord with cycle_exception := none })
  | some jcycleException =>
    if !mem.exception_available then
      (GL_BADMALLOC, { fitRecord with cycle_exception := none })
    else if (dec.GAP_get_exception_message jcycleException).1 ≠ GL_SUCCESS then
      (GL_SUCCESS,
        { fitRecord with
          cycle_exception := some "failed to retrieve exception message from Java\n" })
    else
      (GL_SUCCESS,
        { fitRecord with
          cycle_exception := some (dec.GAP_get_exception_message jcycleException).2 })

/-- `set_fit_record`, "set the background". -/
def set_back_linear (dec : FitDecoders F JRc JExc JBack JSumm JCurve)
    (fitObject : JFit F JRc JExc JBack JSumm JCurve) (fitRecord : GLFitRecord F) :
    GLRtnCode × GLFitRecord F :=
  match fitObject.getBackground with
  | none => (GL_JNIERROR, fitRecord)
  | some jbackground =>
    ((dec.set_background jbackground fitRecord.back_linear).1,
      { fitRecord with back_linear := (dec.set_background jbackground fitRecord.back_linear).2 })

/-- `set_fit_record`, "set the summary". -/
def set_summary_field (dec : FitDecoders F JRc JExc JBack JSumm JCurve)
    (fitObject : JFit F JRc JExc JBack JSumm JCurve) (fitRecord : GLFitRecord F) :
    GLRtnCode × GLFitRecord F :=
  match fitObject.getSummary with
  | none => (GL_JNIERROR, fitRecord)
  | some jsummary =>
    ((dec.set_summary jsummary fitRecord.summary).1,
      { fitRecord with summary := (dec.set_summary jsummary fitRecord.summary).2 })

/-- `set_fit_record`, "set the curve". -/
def set_curve_field (dec : FitDecoders F JRc JExc JBack JSumm JCurve)
    (chanrange : GLChanRange) (nplots_per_chan : Int)
    (fitObject : JFit F JRc JExc JBack JSumm JCurve) (fitRecord : GLFitRecord F) :
    GLRtnCode × GLFitRecord F :=
  match fitObject.getCurve nplots_per_chan with
  | none => (GL_JNIERROR, fitRecord)
  | some jcurve =>
    ((dec.set_curve jcurve chanrange fitRecord.curve).1,
      { fitRecord with curve := (dec.set_curve jcurve chanrange fitRecord.curve).2 })

/-- `set_fit_record`: set one fit record from the inputs of the call and from
the Java fit. -/
def set_fit_record (dec : FitDecoders F JRc JExc JBack JSumm JCurve) (mem : FitMemory)
    (chanrange : GLChanRange) (spectrum : GLSpectrum) (peaks : GLPeakList F)
    (fitparms : GLFitParms F) (ex : GLEnergyEqn F) (wx : GLWidthEqn F) (nplots_per_chan : Int)
    (fitObject : JFit F JRc JExc JBack JSumm JCurve) (fitRecord : GLFitRecord F) :
    GLRtnCode × GLFitRecord F :=
  and_then (set_used_fields mem chanrange spectrum peaks fitparms ex wx fitRecord)
    fun fitRecord1 =>
  and_then (set_cycle_fields dec fitObject fitRecord1) fun fitRecord2 =>
  and_then (set_cycle_exception dec mem fitObject fitRecord2) fun fitRecord3 =>
  and_then (set_back_linear dec fitObject fitRecord3) fun fitRecord4 =>
  and_then (set_summary_field dec fitObject fitRecord4) fun fitRecord5 =>
  set_curve_field dec chanrange nplots_per_chan fitObject fitRecord5

/-- The loop of `set_fit_list` over the fits still to decode: `i` is the
index of the current list item, `done` the records already set, in order,
and `curr_record` the fresh record of the current item. After the loop the
current item, which is unused, is freed and the list ends after `done`. -/
def set_fit_list_loop (dec : FitDecoders F JRc JExc JBack JSumm JCurve) (heap : FitHeap F)
    (chanrange : GLChanRange) (spectrum : GLSpectrum) (peaks : GLPeakList F)
    (fitparms : GLFitParms F) (ex : GLEnergyEqn F) (wx : GLWidthEqn F) (nplots_per_chan : Int) :
    List (JFit F JRc JExc JBack JSumm JCurve) → Nat → List (GLFitRecord F) → GLFitRecord F →
      GLRtnCode × List (GLFitRecord F)
  | [], _, done, _ => (GL_SUCCESS, done)
  | fitObject :: rest, i, done, curr_record =>
    if (set_fit_record dec (heap.record_memory i) chanrange spectrum peaks fitparms ex wx
        nplots_per_chan fitObject curr_record).1 ≠ GL_SUCCESS then
      ((set_fit_record dec (heap.record_memory i) chanrange spectrum peaks fitparms ex wx
        nplots_per_chan fitObject curr_record).1, [])
    else
      match alloc_fitreclist_item (heap.item_available (i + 1)) (heap.garbage (i + 1)) with
      | none => (GL_BADMALLOC, [])
      | some next_record =>
        set_fit_list_loop dec heap chanrange spectrum peaks fitparms ex wx nplots_per_chan
          rest (i + 1)
          (done ++ [(set_fit_record dec (heap.record_memory i) chanrange spectrum peaks
            fitparms ex wx nplots_per_chan fitObject curr_record).2])
          next_record

/-- `set_fit_list`: decode the Java vector of fits into the C list of fit
records; the empty list is the `NULL` list. -/
def set_fit_list (dec : FitDecoders F JRc JExc JBack JSumm JCurve) (heap : FitHeap F)
    (chanrange : GLChanRange) (spectrum : GLSpectrum) (peaks : GLPeakList F)
    (fitparms : GLFitParms F) (ex : GLEnergyEqn F) (wx : GLWidthEqn F) (nplots_per_chan : Int)
    (fitVectorObject : JFitVector F JRc JExc JBack JSumm JCurve) :
    GLRtnCode × List (GLFitRecord F) :=
  match fitVectorObject.array with
  | none => (GL_JNIERROR, [])
  | some jfits =>
    if (0 : Int) ≥ (jfits.length : Int) then
      (GL_SUCCESS, [])
    else if !fitVectorObject.fit_class_found then
      (GL_JNIERROR, [])
    else if !fitVectorObject.fit_methods_found then
      (GL_JNIERROR, [])
    else if !fitVectorObject.peak_class_found then
      (GL_JNIERROR, [])
    else if !fitVectorObject.getChannel_found then
      (GL_JNIERROR, [])
    else
      match alloc_fitreclist_item (heap.item_available 0) (heap.garbage 0) with
      | none => (GL_BADMALLOC, [])
      | some curr_record =>
        set_fit_list_loop dec heap chanrange spectrum peaks fitparms ex wx nplots_per_chan
          jfits 0 [] curr_record

/-- `GL_fitregn`: fit the region and decode the fit vector into the list of
fit records; `fitlist` is the caller's `*fitlist` before the call. -/
def GL_fitregn (call : JFitCall F JRc JExc JBack JSumm JCurve)
    (dec : FitDecoders F JRc JExc JBack JSumm JCurve) (heap : FitHeap F)
    (region : GLChanRange) (spectrum : GLSpectrum) (peaks : GLPeakList F)
    (fitparms : GLFitParms F) (ex : GLEnergyEqn F) (wx : GLWidthEqn F) (nplots_per_chan : Int)
    (fitlist : List (GLFitRecord F)) : GLRtnCode × List (GLFitRecord F) :=
  if !call.jvm_found then
    (GL_NOJVM, fitlist)
  else if !call.inputs_built then
    (GL_JNIERROR, [])
  else if call.exception_thrown then
    (GL_JEXCEPTION, [])
  else
    match call.fitVectorObject with
    | none => (GL_JNIERROR, [])
    | some fitVectorObject =>
      set_fit_list dec heap region spectrum peaks fitparms ex wx nplots_per_chan fitVectorObject

/-- The record `r` carries a snapshot of the inputs of a fit: region,
parameters and equations are equal to the inputs, the spectrum has the same
`firstchannel`, `nchannels` and first `nchannels` counts, and the peak list
has the same `npeaks` and the same peaks in the same order. -/
def is_snapshot (region : GLChanRange) (spectrum : GLSpectrum) (peaks : GLPeakList F)
    (fitparms : GLFitParms F) (ex : GLEnergyEqn F) (wx : GLWidthEqn F) (r : GLFitRecord F) :
    Prop :=
  r.used_chanrange = region ∧ r.used_parms = fitparms ∧ r.used_ex = ex ∧ r.used_wx = wx ∧
  r.used_spectrum.firstchannel = spectrum.firstchannel ∧
  r.used_spectrum.nchannels = spectrum.nchannels ∧
  (∀ counts : Int → Int, spectrum.count = some counts →
    ∃ used : Int → Int, r.used_spectrum.count = some used ∧
      ∀ i : Int, 0 ≤ i → i < spectrum.nchannels → used i = counts i) ∧
  r.input_peaks.npeaks = peaks.npeaks ∧
  ∀ i : Int, 0 ≤ i → i < peaks.npeaks → r.input_peaks.peak i = peaks.peak i

end FitRecords

/-! ## Fixtures taken from `testGauss.c` -/

/-- The list `fit_peaks` of `main`: `GL_peaks_alloc(2)` followed by
`fit_peaks->npeaks = 0`. -/
def fit_peaks_empty (F : Type) [LinearOrderedField F] : GLPeakList F :=
  { listlength := 2, npeaks := 0, peak := calloc_peaks F }

/-- The list `fit_peaks` of `main` after its two calls of `GL_add_chanpeak`. -/
def fit_peaks (F : Type) [LinearOrderedField F] : GLPeakList F :=
  (GL_add_chanpeak 1600.88 (GL_add_chanpeak 1592.08 (fit_peaks_empty F)).2).2

/-- The list `curr_rqd` of `test_prune_pks`, `GL_peaks_alloc(10)` with
`npeaks = 0`, after its first two calls of `GL_add_egypeak`. -/
def curr_rqd (F : Type) [LinearOrderedField F] : GLPeakList F :=
  (GL_add_egypeak 511 0
    (GL_add_egypeak 400 0 { listlength := 10, npeaks := 0, peak := calloc_peaks F }).2).2

/-- The calibration line of `test_ecalib`, energy `= -17 + 1.6 * channel`. -/
def test_line (F : Type) [LinearOrderedField F] : GLEnergyEqn F :=
  { a := -17, b := 1.6, c := 0, chi_sq := 0, mode := GL_EGY_LINEAR }

/-- An all-zero energy equation, as in a zero-initialised `GLEnergyEqn`. -/
def zero_eqn (F : Type) [LinearOrderedField F] : GLEnergyEqn F :=
  { a := 0, b := 0, c := 0, chi_sq := 0, mode := GL_EGY_LINEAR }

/-- A search peak found at raw channel 1592 whose refined centroid 1592.08 is
to be used. -/
def search_peak_refined (F : Type) [LinearOrderedField F] : JSearchPeak F :=
  { getRawCentroid := 1592
    getRefineRegion := some { lookups_found := true, m_firstChannel := 1588, m_lastChannel := 1596 }
    getArea := 1000
    getBackground := 10
    getRefinedCentroid := 1592.08
    useRefinement := true }

/-- A search peak found at raw channel 1601 whose refinement is not to be
used. -/
def search_peak_raw (F : Type) [LinearOrderedField F] : JSearchPeak F :=
  { getRawCentroid := 1601
    getRefineRegion := some { lookups_found := true, m_firstChannel := 1597, m_lastChannel := 1605 }
    getArea := -5
    getBackground := 10
    getRefinedCentroid := 1611.5
    useRefinement := false }

/-- The Java results of a search that found the two search peaks above and
computed three cross products, every JNI lookup succeeding. -/
def jresults_two (F : Type) [LinearOrderedField F] : JPeakSearchResults F :=
  { class_found := true
    getSearchPeakList_found := true
    getSearchPeakList := some { array := some [search_peak_refined F, search_peak_raw F] }
    searchPeak_class_found := true
    searchPeak_methods_found := true
    getCrossProducts_found := true
    getCrossProducts := some [5, 6, 7] }

/-- The Java results of a search that found no peak and computed three cross
products. -/
def jresults_none (F : Type) [LinearOrderedField F] : JPeakSearchResults F :=
  { class_found := true
    getSearchPeakList_found := true
    getSearchPeakList := some { array := some [] }
    searchPeak_class_found := true
    searchPeak_methods_found := true
    getCrossProducts_found := true
    getCrossProducts := some [5, 6, 7] }

/-- A call of `GL_peaksearch` in which the JVM is found, the inputs are built,
nothing is thrown and the search returns `obj`. -/
def search_call (F : Type) [LinearOrderedField F] (obj : JPeakSearchResults F) :
    JPeakSearchCall F :=
  { jvm_found := true
    inputs_built := true
    exception_thrown := false
    peakResultsObject := some obj }

/-- The structure made by `GL_peak_results_alloc(peak_listlength, 3)`: the
peaks, refinements and cross-correlations are zeroed by `calloc`. -/
def peak_results (F : Type) [LinearOrderedField F] (peak_listlength : Int) :
    GLPeakSearchResults F :=
  { peaklist := { listlength := peak_listlength, npeaks := 0, peak := calloc_peaks F }
    refinements := fun _ =>
      { raw_channel := 0
        refine_region := { first := 0, last := 0 }
        net_area := 0
        background := 0
        refined_channel := 0
        use_refinement := GL_FALSE }
    listlength := 3
    crosscorrs := fun _ => 0 }

/-- The spectrum of a three-channel test: counts 4, 9, 2 from channel 0. -/
def test_spectrum : GLSpectrum :=
  { listlength := 3
    nchannels := 3
    firstchannel := 0
    count := some (fun i => if i = 0 then 4 else if i = 1 then 9 else if i = 2 then 2 else 0) }

/-- The fit parameters set by `main` before its call of `test_fit`. -/
def test_fitparms (F : Type) [LinearOrderedField F] : GLFitParms F :=
  { ncycle := 10
    nout := 1
    max_npeaks := 10
    pkwd_mode := GL_PKWD_VARIES
    cc_type := GL_CC_LARGER
    max_resid := 20 }

/-- A width equation `w = 2 + 0.001 x` in linear mode. -/
def test_width (F : Type) [LinearOrderedField F] : GLWidthEqn F :=
  { alpha := 2, beta := 0.001, chi_sq := 0, mode := GL_WID_LINEAR }

/-- A block of memory as `malloc` may hand it out for a fit record. -/
def blank_record (F : Type) [LinearOrderedField F] : GLFitRecord F :=
  { cycle_number := 0
    used_chanrange := { first := 0, last := 0 }
    used_parms :=
      { ncycle := 0, nout := 0, max_npeaks := 0, pkwd_mode := GL_PKWD_VARIES
        cc_type := GL_CC_LARGER, max_resid := 0 }
    used_ex := zero_eqn F
    used_wx := { alpha := 0, beta := 0, chi_sq := 0, mode := GL_WID_LINEAR }
    used_spectrum := { listlength := 0, nchannels := 0, firstchannel := 0, count := none }
    input_peaks := { listlength := 0, npeaks := 0, peak := calloc_peaks F }
    chi_sq := 0
    cycle_return := GL_CYCLE_DONE
    cycle_exception := none
    back_linear := { intercept := 0, sigi := 0, slope := 0, sigs := 0 }
    summary := none
    curve := none }

/-- A heap with memory for every allocation. -/
def ample_heap (F : Type) [LinearOrderedField F] : FitHeap F :=
  { item_available := fun _ => true
    garbage := fun _ => blank_record F
    record_memory := fun _ =>
      { spectrum_available := true, peaks_available := true, exception_available := true } }

/-- Decoders that succeed and leave their output as it is, for Java objects
without content. -/
def idle_decoders (F : Type) [LinearOrderedField F] : FitDecoders F Unit Unit Unit Unit Unit :=
  { set_cycle_return := fun _ cycle_return => (GL_SUCCESS, cycle_return)
    GAP_get_exception_message := fun _ => (GL_SUCCESS, "")
    set_background := fun _ back => (GL_SUCCESS, back)
    set_summary := fun _ summary => (GL_SUCCESS, summary)
    set_curve := fun _ _ curve => (GL_SUCCESS, curve) }

/-- A Java fit of cycle 1 without cycle exception. -/
def jfit_one (F : Type) [LinearOrderedField F] : JFit F Unit Unit Unit Unit Unit :=
  { getCycleNumber := 1
    getChiSquared := 1
    getCycleReturnCode := some ()
    getCycleException := none
    getBackground := some ()
    getSummary := some ()
    getCurve := fun _ => some () }

/-- A call of `GL_fitregn` in which every JNI step succeeds and `fitRegion`
returns a vector with the one fit above. -/
def fit_call (F : Type) [LinearOrderedField F] : JFitCall F Unit Unit Unit Unit Unit :=
  { jvm_found := true
    inputs_built := true
    exception_thrown := false
    fitVectorObject := some
      { array := some [jfit_one F]
        fit_class_found := true
        fit_methods_found := true
        peak_class_found := true
        getChannel_found := true } }

/-! ## Decoding a fit: cycle return code and curve -/

/-- `strncmp(s, t, n)` of `string.h` on two NUL-terminated strings, given by
their characters before the terminator: the sign of the first difference
within the first `n` characters, the terminator counting as the smallest
character, and 0 when there is none. -/
def strncmp : List Char → List Char → Nat → Int
  | _, _, 0 => 0
  | [], [], _ + 1 => 0
  | [], _ :: _, _ + 1 => -1
  | _ :: _, [], _ + 1 => 1
  | c :: s, d :: t, n + 1 => if c = d then strncmp s t n else if c < d then -1 else 1

/-- A Java `Fit.CycleReturnCode` object seen through JNI, in the order in
which `set_cycle_return` questions it: `GetObjectClass`, `GetMethodID` for
`name`, the string that `name()` returns (`none` for `NULL`), and whether
`GetStringUTFChars` hands out its characters. -/
structure JCycleReturnCode where
  class_found : Bool
  name_found : Bool
  name : Option String
  chars_decoded : Bool

/-- `set_cycle_return`: decode the Java cycle return code by the leading
characters of its name. -/
def set_cycle_return (jcycleReturnCode : JCycleReturnCode) (cycle_return : GLCycleReturn) :
    GLRtnCode × GLCycleReturn :=
  if !jcycleReturnCode.class_found then
    (GL_JNIERROR, cycle_return)
  else if !jcycleReturnCode.name_found then
    (GL_JNIERROR, cycle_return)
  else
    match jcycleReturnCode.name with
    | none => (GL_JNIERROR, cycle_return)
    | some codeLabel =>
      if !jcycleReturnCode.chars_decoded then
        (GL_JNIERROR, cycle_return)
      else if 0 = strncmp codeLabel.toList "DONE".toList 4 then
        (GL_SUCCESS, GL_CYCLE_DONE)
      else if 0 = strncmp codeLabel.toList "DEL".toList 3 then
        (GL_SUCCESS, GL_CYCLE_DELETE)
      else if 0 = strncmp codeLabel.toList "ADD".toList 3 then
        (GL_SUCCESS, GL_CYCLE_ADD)
      else
        (GL_SUCCESS, GL_CYCLE_CONTINUE)

/-- `get_cycle_return_string` of `testGauss.c`: the name printed for a cycle
return code. The `default` case of the `switch`, `"UNKNOWN"`, is for values
outside the enumeration. -/
def get_cycle_return_string (cycle_return : GLCycleReturn) : String :=
  match cycle_return with
  | GL_CYCLE_DONE => "DONE"
  | GL_CYCLE_DELETE => "DELETE"
  | GL_CYCLE_ADD => "ADD"
  | GL_CYCLE_CONTINUE => "CONTINUE"

/-- A Java `Point2D.Double` seen through `getX` and `getY`. -/
structure JPoint (F : Type) where
  getX : F
  getY : F

/-- A Java `Vector` of points: `array` is what `get_array_from_jvector` makes
of it, `none` for `NULL` and otherwise the array of the objects as the memory
behind the pointer; `set_curve` reads it at the indices of the curve,
whatever the size of the vector. -/
structure JPointVector (F : Type) where
  array : Option (Int → JPoint F)

/-- `get_array_from_jvector`: an array of Java objects extracted from a Java
Vector, or `NULL`. -/
def get_array_from_jvector {F : Type} (vector_object : JPointVector F) :
    Option (Int → JPoint F) :=
  vector_object.array

/-- A Java `Curve` object seen through JNI, in the order in which `set_curve`
questions it; each `_found` flag is the `GetMethodID` (or class lookup) that
precedes the call, and a vector is `none` when the getter returns `NULL`.
`getComponentPoints` takes the index of the peak. -/
structure JCurveObject (F : Type) where
  class_found : Bool
  getNpeaks_found : Bool
  getNpeaks : Int
  getNPlotsPerChannel_found : Bool
  getNPlotsPerChannel : Int
  getNumPlottedPoints_found : Bool
  getNumPlottedPoints : Int
  getComponentPoints_found : Bool
  getComponentPoints : Int → Option (JPointVector F)
  getCurvePoints_found : Bool
  getCurvePoints : Option (JPointVector F)
  getBackPoints_found : Bool
  getBackPoints : Option (JPointVector F)
  getResiduals_found : Bool
  getResiduals : Option (JPointVector F)
  point_class_found : Bool
  getX_found : Bool
  getY_found : Bool

/-- Whether the allocator has memory for each block asked for while a curve
is set: the `malloc` of the `GLCurve` and the six `calloc`s of
`GAP_curve_alloc`, and the `calloc` of `peakFitArrayObjects` in `set_curve`. -/
structure CurveMemory where
  curve_available : Bool
  x_offset_available : Bool
  fitpeak_available : Bool
  storage_available : Bool
  fitcurve_available : Bool
  back_available : Bool
  resid_available : Bool
  peakfit_available : Bool

section Decoders

variable {F : Type} [LinearOrderedField F]

/-- `GAP_curve_alloc`: a curve with zeroed arrays for `nchannels` channels,
or `NULL` when one of its allocations fails. Row `i` of `fitpeak` points into
the zeroed block `storage`. -/
def GAP_curve_alloc (mem : CurveMemory) (nchannels nplots_per_chan npeaks : Int) :
    Option (GLCurve F) :=
  if !mem.curve_available then
    none
  else
    let npoints := ((nchannels - 1) * nplots_per_chan) + 1
    match calloc_array (fun _ => (0 : F)) mem.x_offset_available npoints with
    | none => none
    | some x_offset =>
      match calloc_array (fun _ => (0 : Int)) mem.fitpeak_available npeaks with
      | none => none
      | some _ =>
        match calloc_array (fun _ => (0 : F)) mem.storage_available (npoints * npeaks) with
        | none => none
        | some storage =>
          match calloc_array (fun _ => (0 : F)) mem.fitcurve_available npoints with
          | none => none
          | some fitcurve =>
            match calloc_array (fun _ => (0 : F)) mem.back_available npoints with
            | none => none
            | some back =>
              match calloc_array (fun _ => (0 : F)) mem.resid_available nchannels with
              | none => none
              | some resid =>
                some
                  { listlength := npoints
                    chanrange := { first := 0, last := 0 }
                    nplots_per_chan := nplots_per_chan
                    npoints := npoints
                    npeaks := npeaks
                    x_offset := x_offset
                    fitpeak := fun i j => storage (i * npoints + j)
                    fitcurve := fitcurve
                    back := back
                    resid := resid }

/-- The loop of `set_curve` over the peaks still to visit, which fetches the
vector of component points of each and converts it to an array;
`peakFitArrayObjects` is the array of arrays so far (`none` is the `NULL` it
is initialised with). The result is `none` when the routine leaves with
`GL_JNIERROR`: a vector or its array is `NULL`. -/
def get_peakfit_arrays (jcurve : JCurveObject F) :
    List Nat → (Int → Option (Int → JPoint F)) → Option (Int → Option (Int → JPoint F))
  | [], peakFitArrayObjects => some peakFitArrayObjects
  | i :: rest, peakFitArrayObjects =>
    match jcurve.getComponentPoints (i : Int) with
    | none => none
    | some peakFitVectorObject =>
      match get_array_from_jvector peakFitVectorObject with
      | none => none
      | some points =>
        get_peakfit_arrays jcurve rest
          (Function.update peakFitArrayObjects (i : Int) (some points))

/-- The last part of `set_curve`, "loop over arrays, setting curve fields":
the two loops over `j < npoints` (with the inner loop over the peaks) and
`j < nchannels`. An entry of `peakFitArrayObjects` that is still `NULL` cannot
occur for `i < npeaks` here; the model leaves `fitpeak[i]` as it is for it. -/
def copy_curve_points (curve : GLCurve F) (nchannels : Int)
    (peakFitArrayObjects : Int → Option (Int → JPoint F))
    (fitCurveArrayObject fitBackArrayObject fitResidArrayObject : Int → JPoint F) :
    GLCurve F :=
  { curve with
    fitpeak := fun i j =>
      if 0 ≤ j ∧ j < curve.npoints ∧ 0 ≤ i ∧ i < curve.npeaks then
        match peakFitArrayObjects i with
        | some points => (points j).getY
        | none => curve.fitpeak i j
      else curve.fitpeak i j
    x_offset := fun j =>
      if 0 ≤ j ∧ j < curve.npoints then (fitCurveArrayObject j).getX else curve.x_offset j
    fitcurve := fun j =>
      if 0 ≤ j ∧ j < curve.npoints then (fitCurveArrayObject j).getY else curve.fitcurve j
    back := fun j =>
      if 0 ≤ j ∧ j < curve.npoints then (fitBackArrayObject j).getY else curve.back j
    resid := fun j =>
      if 0 ≤ j ∧ j < nchannels then (fitResidArrayObject j).getY else curve.resid j }

/-- The part of `set_curve` after the storage is allocated and checked: fetch
the point vectors of the Java curve and copy their coordinates. Every failure
frees the curve and sets `*curve` to `NULL`. -/
def set_curve_points (mem : CurveMemory) (jcurve : JCurveObject F) (nchannels : Int)
    (curve : GLCurve F) : GLRtnCode × Option (GLCurve F) :=
  if !jcurve.getComponentPoints_found then
    (GL_JNIERROR, none)
  else
    match calloc_array (fun _ => (none : Option (Int → JPoint F))) mem.peakfit_available
        curve.npeaks with
    | none => (GL_BADMALLOC, none)
    | some nulls =>
      match get_peakfit_arrays jcurve (List.range curve.npeaks.toNat) nulls with
      | none => (GL_JNIERROR, none)
      | some peakFitArrayObjects =>
        if !jcurve.getCurvePoints_found then
          (GL_JNIERROR, none)
        else
          match jcurve.getCurvePoints.bind get_array_from_jvector with
          | none => (GL_JNIERROR, none)
          | some fitCurveArrayObject =>
            if !jcurve.getBackPoints_found then
              (GL_JNIERROR, none)
            else
              match jcurve.getBackPoints.bind get_array_from_jvector with
              | none => (GL_JNIERROR, none)
              | some fitBackArrayObject =>
                if !jcurve.getResiduals_found then
                  (GL_JNIERROR, none)
                else
                  match jcurve.getResiduals.bind get_array_from_jvector with
                  | none => (GL_JNIERROR, none)
                  | some fitResidArrayObject =>
                    if !jcurve.point_class_found then
                      (GL_JNIERROR, none)
                    else if !jcurve.getX_found then
                      (GL_JNIERROR, none)
                    else if !jcurve.getY_found then
                      (GL_JNIERROR, none)
                    else
                      (GL_SUCCESS,
                        some (copy_curve_points curve nchannels peakFitArrayObjects
                          fitCurveArrayObject fitBackArrayObject fitResidArrayObject))

/-- `set_curve`: decode the Java curve of a fit into a freshly allocated
`GLCurve`. `curve` is the caller's `*curve` before the call; the result holds
the code and `*curve` after it. -/
def set_curve (mem : CurveMemory) (jcurve : JCurveObject F) (chanrange : GLChanRange)
    (curve : Option (GLCurve F)) : GLRtnCode × Option (GLCurve F) :=
  if !jcurve.class_found then
    (GL_JNIERROR, curve)
  else if !jcurve.getNpeaks_found then
    (GL_JNIERROR, curve)
  else if !jcurve.getNPlotsPerChannel_found then
    (GL_JNIERROR, curve)
  else if !jcurve.getNumPlottedPoints_found then
    (GL_JNIERROR, curve)
  else
    let npeaks := jcurve.getNpeaks
    let nplots_per_chan := jcurve.getNPlotsPerChannel
    let npoints := jcurve.getNumPlottedPoints
    let nchannels := chanrange.last - chanrange.first + 1
    match (GAP_curve_alloc mem nchannels nplots_per_chan npeaks : Option (GLCurve F)) with
    | none => (GL_BADMALLOC, none)
    | some storage =>
      if storage.npoints ≠ npoints then
        (GL_JNIERROR, none)
      else
        set_curve_points mem jcurve nchannels
          { storage with
            chanrange :=
              { storage.chanrange with first := chanrange.first, last := chanrange.last } }

end Decoders

/-- A Java cycle return code named `name`, every JNI step on it succeeding. -/
def jcycle_named (name : String) : JCycleReturnCode :=
  { class_found := true, name_found := true, name := some name, chars_decoded := true }

/-- A Java vector of points whose array holds the point `(j, y)` at index
`j`. -/
def jpoints_level (F : Type) [LinearOrderedField F] (y : F) : JPointVector F :=
  { array := some (fun j => { getX := (j : F), getY := y }) }

/-- The Java curve of a fit of the region 1579..1610 of `main` with two peaks
and 10 plots per channel, reporting `npoints` plotted points; every JNI
lookup succeeds. -/
def jcurve_test (F : Type) [LinearOrderedField F] (npoints : Int) : JCurveObject F :=
  { class_found := true
    getNpeaks_found := true
    getNpeaks := 2
    getNPlotsPerChannel_found := true
    getNPlotsPerChannel := 10
    getNumPlottedPoints_found := true
    getNumPlottedPoints := npoints
    getComponentPoints_found := true
    getComponentPoints := fun i => some (jpoints_level F (i : F))
    getCurvePoints_found := true
    getCurvePoints := some (jpoints_level F 7)
    getBackPoints_found := true
    getBackPoints := some (jpoints_level F 3)
    getResiduals_found := true
    getResiduals := some (jpoints_level F 0)
    point_class_found := true
    getX_found := true
    getY_found := true }

/-- An allocator with memory for every block of a curve. -/
def ample_curve_memory : CurveMemory :=
  { curve_available := true
    x_offset_available := true
    fitpeak_available := true
    storage_available := true
    fitcurve_available := true
    back_available := true
    resid_available := true
    peakfit_available := true }

/-- An allocator whose `malloc` of the `GLCurve` itself fails. -/
def no_curve_memory : CurveMemory :=
  { ample_curve_memory with curve_available := false }

/-! ## Pruning the required peaks -/

/-- A Java `Peak.TYPE` object seen through JNI by `get_type_c`: `FindClass`,
`GetMethodID` for `label`, the string that `label()` returns (`none` for
`NULL`), and whether `GetStringUTFChars` hands out its characters. -/
structure JPeakType where
  class_found : Bool
  label_found : Bool
  label : Option String
  chars_decoded : Bool

/-- A Java `Peak` object seen through its field `m_type` (`none` when
`GetObjectField` returns `NULL`) and its getters. -/
structure JPeak (F : Type) where
  m_type : Option JPeakType
  getChannel : F
  isChannelValid : Bool
  getEnergy : F
  isEnergyValid : Bool
  getSige : F
  isCentroidFixed : Bool

/-- A Java `TreeSet` of peaks seen through JNI by `set_peak_list`: `tree` is
the set itself, `peak_class_found` stands for `GetObjectClass` on its first
peak and `peak_members_found` for the `GetFieldID` of `m_type` and the six
`GetMethodID` calls on that class. -/
structure JPeakTreeSet (F : Type) where
  tree : JTreeSet (JPeak F)
  peak_class_found : Bool
  peak_members_found : Bool

/-- The JNI steps of `GL_prune_rqdpks` before the call of `pruneRqdPks`:
whether a JVM is found, whether the Java width equation and the two Java
peak sets are obtained (a set is `NULL` when a peak cannot be constructed or
`add` refuses it), and whether the class `PeakSearching` and its method
`pruneRqdPks` are found. -/
structure JPruneLookups where
  jvm_found : Bool
  jwx_built : Bool
  jsrchPksTree_built : Bool
  jrqdPksTree_built : Bool
  class_found : Bool
  pruneRqdPks_found : Bool

section Pruning

variable {F : Type} [LinearOrderedField F]

/-- `get_type_c`: decode the Java peak type by the first character of its
label. `typec` is the value stored at `*typec` before the call. -/
def get_type_c (typej : JPeakType) (typec : GLPeakType) : GLRtnCode × GLPeakType :=
  if !typej.class_found then
    (GL_JNIERROR, typec)
  else if !typej.label_found then
    (GL_JNIERROR, typec)
  else
    match typej.label with
    | none => (GL_JNIERROR, typec)
    | some typeLabel =>
      if !typej.chars_decoded then
        (GL_JNIERROR, typec)
      else if 0 = strncmp typeLabel.toList "C".toList 1 then
        (GL_SUCCESS, GL_PEAK_CHANNEL)
      else
        (GL_SUCCESS, GL_PEAK_ENERGY)

/-- The loop of `set_peak_list` over the Java peaks still to decode, `i`
being the index of the next one: it is left by `break` with `GL_JNIERROR` when
the type of a peak is `NULL` and with the code of `get_type_c` when that is
not `GL_SUCCESS`; a decoded peak is counted. The loop is entered with at
least one peak, so when it runs to its end `ret_code` holds the `GL_SUCCESS`
of the last `get_type_c`. -/
def set_peak_list_loop :
    List (JPeak F) → Int → GLPeakList F → GLRtnCode × GLPeakList F
  | [], _, peaklist => (GL_SUCCESS, peaklist)
  | jpeak :: rest, i, peaklist =>
    match jpeak.m_type with
    | none => (GL_JNIERROR, peaklist)
    | some jtype =>
      if (get_type_c jtype (peaklist.peak i).type).1 ≠ GL_SUCCESS then
        ((get_type_c jtype (peaklist.peak i).type).1,
          { peaklist with
            peak := Function.update peaklist.peak i
              { peaklist.peak i with type := (get_type_c jtype (peaklist.peak i).type).2 } })
      else
        set_peak_list_loop rest (i + 1)
          { peaklist with
            peak := Function.update peaklist.peak i
              { peaklist.peak i with
                type := (get_type_c jtype (peaklist.peak i).type).2
                channel := jpeak.getChannel
                channel_valid := if jpeak.isChannelValid then GL_TRUE else GL_FALSE
                energy := jpeak.getEnergy
                energy_valid := if jpeak.isEnergyValid then GL_TRUE else GL_FALSE
                sige := jpeak.getSige
                fixed_centroid := if jpeak.isCentroidFixed then GL_TRUE else GL_FALSE }
            npeaks := peaklist.npeaks + 1 }

/-- `set_peak_list`: decode a Java set of peaks into the caller's peak
list. -/
def set_peak_list (peakTreeSet : JPeakTreeSet F) (peaklist : GLPeakList F) :
    GLRtnCode × GLPeakList F :=
  match GAP_get_array_from_jtreeset peakTreeSet.tree with
  | none => (GL_JNIERROR, peaklist)
  | some jpeakArray =>
    let npeaks : Int := (jpeakArray.length : Int)
    if peaklist.listlength < npeaks then
      (GL_FAILURE, peaklist)
    else if 0 = npeaks then
      (GL_SUCCESS, { peaklist with npeaks := 0 })
    else if !peakTreeSet.peak_class_found then
      (GL_JNIERROR, peaklist)
    else if !peakTreeSet.peak_members_found then
      (GL_JNIERROR, peaklist)
    else
      set_peak_list_loop jpeakArray 0 { peaklist with npeaks := 0 }

/-- `GL_prune_rqdpks`: have the engine prune the required peaks and decode
its answer into `new_rqd`. `pruneRqdPks` is the Java method of that name; it
gets the width equation and, as Java peak sets, the peaks in use of the two
lists, and returns a set of peaks (`none` for `NULL`). -/
def GL_prune_rqdpks (lookups : JPruneLookups)
    (pruneRqdPks : GLWidthEqn F → List (GLPeak F) → List (GLPeak F) → Option (JPeakTreeSet F))
    (wx : GLWidthEqn F) (searchpks curr_rqd : GLPeakList F) (new_rqd : GLPeakList F) :
    GLRtnCode × GLPeakList F :=
  if !lookups.jvm_found then
    (GL_NOJVM, new_rqd)
  else if !lookups.jwx_built ∨ !lookups.jsrchPksTree_built ∨ !lookups.jrqdPksTree_built then
    (GL_JNIERROR, new_rqd)
  else if !lookups.class_found then
    (GL_JNIERROR, new_rqd)
  else if !lookups.pruneRqdPks_found then
    (GL_JNIERROR, new_rqd)
  else
    match pruneRqdPks wx searchpks.toList curr_rqd.toList with
    | none => (GL_JNIERROR, new_rqd)
    | some jnewPksTree => set_peak_list jnewPksTree new_rqd

end Pruning

/-- The Java type object of an energy peak, every JNI step succeeding; the
label is the one the test of `get_type_c` does not take for a channel. -/
def jtype_energy : JPeakType :=
  { class_found := true, label_found := true, label := some "ENERGY", chars_decoded := true }

/-- A Java required peak at `energy` keV whose channel has been computed to
be `channel`. -/
def jpeak_required (F : Type) [LinearOrderedField F] (energy channel : F) : JPeak F :=
  { m_type := some jtype_energy
    getChannel := channel
    isChannelValid := true
    getEnergy := energy
    isEnergyValid := true
    getSige := 0
    isCentroidFixed := true }

/-- JNI steps of `GL_prune_rqdpks` that all succeed. -/
def prune_lookups_found : JPruneLookups :=
  { jvm_found := true
    jwx_built := true
    jsrchPksTree_built := true
    jrqdPksTree_built := true
    class_found := true
    pruneRqdPks_found := true }

/-- An engine that keeps the required peaks at 400 and 600 keV (channels
260.625 and 385.625 under the test calibration), whatever it is given. -/
def prune_keeps_two (F : Type) [LinearOrderedField F] :
    GLWidthEqn F → List (GLPeak F) → List (GLPeak F) → Option (JPeakTreeSet F) :=
  fun _ _ _ => some
    { tree := { array := some [jpeak_required F 400 260.625, jpeak_required F 600 385.625] }
      peak_class_found := true
      peak_members_found := true }

/-- The list made by `GL_peaks_alloc(listlength)` followed by `npeaks = 0`, as
`test_prune_pks` makes `new_rqd`. -/
def new_rqd_alloc (F : Type) [LinearOrderedField F] (listlength : Int) : GLPeakList F :=
  { listlength := listlength, npeaks := 0, peak := calloc_peaks F }

/-! ## The fit parameters handed to the engine -/

/-- The JNI steps of `get_jfitparms` and of the two routines it calls:
whether the class `FitParameters` and its constructor are found, whether
`get_jpeakwidth_mode` and `get_jcc_type` find their class and static field
and fetch a non-NULL constant, and whether `NewObject` returns an object. -/
structure JFitParmsLookups where
  parm_class_found : Bool
  init_found : Bool
  mode_constant_found : Bool
  type_constant_found : Bool
  object_constructed : Bool

/-- A Java `FitParameters` object, given by the arguments its constructor is
called with; the two enum constants are identified by the name of the static
field they are fetched from. -/
structure JFitParameters (F : Type) where
  ncycle : Int
  nout : Int
  max_npeaks : Int
  modeObject : String
  typeObject : String
  max_resid : F

section FitParameters

variable {F : Type} [LinearOrderedField F]

/-- `get_jpeakwidth_mode`: the constant of the Java enum `PeakWidthMode` named
after `mode`, or `NULL`. -/
def get_jpeakwidth_mode (lookups : JFitParmsLookups) (mode : GLPkwdMode) : Option String :=
  if !lookups.mode_constant_found then
    none
  else
    match mode with
    | GL_PKWD_VARIES => some "VARIES"
    | GL_PKWD_FIXED => some "FIXED"

/-- `get_jcc_type`: the constant of the Java enum `CCType` named after `type`,
or `NULL`. -/
def get_jcc_type (lookups : JFitParmsLookups) (type : GLCCType) : Option String :=
  if !lookups.type_constant_found then
    none
  else
    match type with
    | GL_CC_LARGER => some "LARGER"
    | GL_CC_SMALLER => some "SMALLER"
    | GL_CC_LARGER_INC => some "LARGER_INC"

/-- `get_jfitparms`: the Java `FitParameters` object built from the C fit
parameters, or `NULL`. -/
def get_jfitparms (lookups : JFitParmsLookups) (fitparms : GLFitParms F) :
    Option (JFitParameters F) :=
  if !lookups.parm_class_found then
    none
  else if !lookups.init_found then
    none
  else
    match get_jpeakwidth_mode lookups fitparms.pkwd_mode with
    | none => none
    | some modeObject =>
      match get_jcc_type lookups fitparms.cc_type with
      | none => none
      | some typeObject =>
        if !lookups.object_constructed then
          none
        else
          some
            { ncycle := fitparms.ncycle
              nout := fitparms.nout
              max_npeaks := fitparms.max_npeaks
              modeObject := modeObject
              typeObject := typeObject
              max_resid := fitparms.max_resid }

/-- Modelled from the spec: the convergence tolerances `(ftol, xtol)` that the
Java class `FitParameters` derives from its `CCType` and `PeakWidthMode`
constants. That class is not part of these sources; the table is the one of
the spec, which is also the comment on `GLCCType` in `GaussAlgsLib.h`. A
constant of another name has no row in the table. -/
def convergence_tolerances (parmObject : JFitParameters F) : Option (F × F) :=
  if parmObject.typeObject = "LARGER" then
    if parmObject.modeObject = "VARIES" then some (0.00001, 0.00003)
    else if parmObject.modeObject = "FIXED" then some (0.0001, 0.0001)
    else none
  else if parmObject.typeObject = "SMALLER" then
    if parmObject.modeObject = "VARIES" ∨ parmObject.modeObject = "FIXED" then
      some (0.00001, 0.00001)
    else none
  else if parmObject.typeObject = "LARGER_INC" then
    if parmObject.modeObject = "VARIES" ∨ parmObject.modeObject = "FIXED" then
      some (0.00001, 0.00003)
    else none
  else none

end FitParameters

/-- JNI lookups that all succeed. -/
def fitparms_lookups_found : JFitParmsLookups :=
  { parm_class_found := true
    init_found := true
    mode_constant_found := true
    type_constant_found := true
    object_constructed := true }

/-! ## Energy calibration -/

/-- A Java `EnergyEquation.MODE` object seen through JNI by `get_mode_c`:
`GetObjectClass`, `GetMethodID` for `label`, the string that `label()`
returns (`none` for `NULL`), and whether `GetStringUTFChars` hands out its
characters. -/
structure JEgyEqnMode where
  class_found : Bool
  label_found : Bool
  label : Option String
  chars_decoded : Bool

/-- A Java `EnergyEquation` object seen through JNI by `set_equation`: the
class lookup, and for each getter its `GetMethodID` and the value it
returns. -/
structure JEnergyEquation (F : Type) where
  class_found : Bool
  getConstantCoefficient_found : Bool
  getConstantCoefficient : F
  getLinearCoefficient_found : Bool
  getLinearCoefficient : F
  getQuadCoefficient_found : Bool
  getQuadCoefficient : F
  getChiSq_found : Bool
  getChiSq : F
  getMode_found : Bool
  getMode : Option JEgyEqnMode

/-- What a call of the Java method `calibrate` ends with: whether an
exception is pending after it, and the object it returned (`none` for
`NULL`). -/
structure JCalibrateOutcome (F : Type) where
  exception_thrown : Bool
  egyEqnObject : Option (JEnergyEquation F)

/-- The JNI steps of `GL_ecalib` before the call of `calibrate`: whether a JVM
is found, whether the three Java arrays and the Java mode constant are
obtained, and whether the class `EnergyCalibrating` and its method
`calibrate` are found. -/
structure JEcalibLookups where
  jvm_found : Bool
  arrays_built : Bool
  mode_built : Bool
  class_found : Bool
  calibrate_found : Bool

section EnergyCalibration

variable {F : Type} [LinearOrderedField F]

/-- `get_mode_c`: decode the Java mode by the first character of its label.
`modec` is the value stored at `*modec` before the call. -/
def get_mode_c (modej : JEgyEqnMode) (modec : GLEgyEqnMode) : GLRtnCode × GLEgyEqnMode :=
  if !modej.class_found then
    (GL_JNIERROR, modec)
  else if !modej.label_found then
    (GL_JNIERROR, modec)
  else
    match modej.label with
    | none => (GL_JNIERROR, modec)
    | some modeLabel =>
      if !modej.chars_decoded then
        (GL_JNIERROR, modec)
      else if 0 = strncmp modeLabel.toList "l".toList 1 then
        (GL_SUCCESS, GL_EGY_LINEAR)
      else
        (GL_SUCCESS, GL_EGY_QUADRATIC)

/-- `set_equation`: decode the Java energy equation into `*ex`, coefficient
by coefficient; a getter that is not found returns `GL_JNIERROR` with the
fields before it already written. -/
def set_equation (egyEqnObject : JEnergyEquation F) (ex : GLEnergyEqn F) :
    GLRtnCode × GLEnergyEqn F :=
  if !egyEqnObject.class_found then
    (GL_JNIERROR, ex)
  else if !egyEqnObject.getConstantCoefficient_found then
    (GL_JNIERROR, ex)
  else
    let ex1 : GLEnergyEqn F := { ex with a := egyEqnObject.getConstantCoefficient }
    if !egyEqnObject.getLinearCoefficient_found then
      (GL_JNIERROR, ex1)
    else
      let ex2 : GLEnergyEqn F := { ex1 with b := egyEqnObject.getLinearCoefficient }
      if !egyEqnObject.getQuadCoefficient_found then
        (GL_JNIERROR, ex2)
      else
        let ex3 : GLEnergyEqn F := { ex2 with c := egyEqnObject.getQuadCoefficient }
        if !egyEqnObject.getChiSq_found then
          (GL_JNIERROR, ex3)
        else
          let ex4 : GLEnergyEqn F := { ex3 with chi_sq := egyEqnObject.getChiSq }
          if !egyEqnObject.getMode_found then
            (GL_JNIERROR, ex4)
          else
            match egyEqnObject.getMode with
            | none => (GL_JNIERROR, ex4)
            | some answerMode =>
              ((get_mode_c answerMode ex4.mode).1,
                { ex4 with mode := (get_mode_c answerMode ex4.mode).2 })

/-- `GAP_get_jdouble_array`: the Java array holding the first `numDataItems`
entries of `data`. -/
def GAP_get_jdouble_array (data : Int → F) (numDataItems : Int) : List F :=
  (List.range numDataItems.toNat).map (fun (i : Nat) => data (i : Int))

/-- `GL_ecalib`: calibrate the energy equation. `calibrate` is the Java
method of that name, which gets the three arrays, the Java constant named
after `mode` and the flag `weighted`; `ex` is the caller's `*ex` before the
call. -/
def GL_ecalib (lookups : JEcalibLookups)
    (calibrate : List F → List F → List F → GLEgyEqnMode → Bool → JCalibrateOutcome F)
    (count : Int) (channel energy sige : Int → F) (mode : GLEgyEqnMode) (weighted : GLboolean)
    (ex : GLEnergyEqn F) : GLRtnCode × GLEnergyEqn F :=
  if !lookups.jvm_found then
    (GL_NOJVM, ex)
  else if !lookups.arrays_built then
    (GL_JNIERROR, ex)
  else if !lookups.mode_built then
    (GL_JNIERROR, ex)
  else if !lookups.class_found then
    (GL_JNIERROR, ex)
  else if !lookups.calibrate_found then
    (GL_JNIERROR, ex)
  else
    let outcome := calibrate (GAP_get_jdouble_array channel count)
      (GAP_get_jdouble_array energy count) (GAP_get_jdouble_array sige count) mode
      (decide (weighted = GL_TRUE))
    if outcome.exception_thrown then
      (GL_JEXCEPTION, ex)
    else
      match outcome.egyEqnObject with
      | none => (GL_JNIERROR, ex)
      | some egyEqnObject => set_equation egyEqnObject ex

/-- Modelled from the spec: the samples of a calibration as triples of
channel, energy and the weight of the sample, its sigma when the calibration
is weighted and 1 otherwise. -/
def calibration_samples (channel energy sige : List F) (weighted : Bool) : List (F × F × F) :=
  (channel.zip (energy.zip sige)).map
    (fun p => (p.1, p.2.1, if weighted then p.2.2 else 1))

/-- Modelled from the spec: the sum of `x^k / w^2` over the samples, an entry
of the matrix of the normal equations of the regression. -/
def power_sum (samples : List (F × F × F)) (k : Nat) : F :=
  (samples.map (fun s => s.1 ^ k / (s.2.2 * s.2.2))).sum

/-- Modelled from the spec: the sum of `e * x^k / w^2` over the samples, an
entry of the right-hand side of the normal equations of the regression. -/
def moment_sum (samples : List (F × F × F)) (k : Nat) : F :=
  (samples.map (fun s => s.2.1 * s.1 ^ k / (s.2.2 * s.2.2))).sum

/-- Modelled from the spec: the chi squared of the regression, the sum of
`((e - (a + b x + c x^2)) / w)^2` over the samples. -/
def chi_squared (samples : List (F × F × F)) (a b c : F) : F :=
  (samples.map (fun s => ((s.2.1 - (a + b * s.1 + c * s.1 * s.1)) / s.2.2) ^ 2)).sum

/-- Modelled from the spec: the Java `EnergyEquation` with the given
coefficients, chi squared and mode, every JNI lookup on it succeeding. The
class and the labels of its two modes are not in these sources; the labels
are taken to be `linear` and `quadratic`, which `get_mode_c` tells apart by
the first character. -/
def jenergy_equation (a b c chi_sq : F) (mode : GLEgyEqnMode) : JEnergyEquation F :=
  { class_found := true
    getConstantCoefficient_found := true
    getConstantCoefficient := a
    getLinearCoefficient_found := true
    getLinearCoefficient := b
    getQuadCoefficient_found := true
    getQuadCoefficient := c
    getChiSq_found := true
    getChiSq := chi_sq
    getMode_found := true
    getMode := some
      { class_found := true
        label_found := true
        label := some (match mode with
          | GL_EGY_LINEAR => "linear"
          | GL_EGY_QUADRATIC => "quadratic")
        chars_decoded := true } }

/-- Modelled from the spec: the Java method `EnergyCalibrating.calibrate`,
which is not part of these sources. It is the least-squares polynomial
regression of the spec (`calibrateEnergy`), of degree 1 for the linear mode
and of degree 2 for the quadratic mode, minimising the sum of
`((energy_i - model(channel_i)) / w_i)^2` with `w_i = sigma_i` if weighted and
1 otherwise: the coefficients solve the normal equations (by Cramer's rule)
and the chi squared is that sum at the solution. It fails, here by throwing,
if there are fewer data points than free parameters or if the matrix of the
normal equations is singular. -/
def calibrate (channel energy sige : List F) (mode : GLEgyEqnMode) (weighted : Bool) :
    JCalibrateOutcome F :=
  let samples := calibration_samples channel energy sige weighted
  let s := power_sum samples
  let t := moment_sum samples
  match mode with
  | GL_EGY_LINEAR =>
    let det := s 0 * s 2 - s 1 * s 1
    if samples.length < 2 ∨ det = 0 then
      { exception_thrown := true, egyEqnObject := none }
    else
      let a := (t 0 * s 2 - s 1 * t 1) / det
      let b := (s 0 * t 1 - s 1 * t 0) / det
      { exception_thrown := false
        egyEqnObject := some (jenergy_equation a b 0 (chi_squared samples a b 0) mode) }
  | GL_EGY_QUADRATIC =>
    let det := s 0 * (s 2 * s 4 - s 3 * s 3) - s 1 * (s 1 * s 4 - s 3 * s 2)
      + s 2 * (s 1 * s 3 - s 2 * s 2)
    if samples.length < 3 ∨ det = 0 then
      { exception_thrown := true, egyEqnObject := none }
    else
      let a := (t 0 * (s 2 * s 4 - s 3 * s 3) - s 1 * (t 1 * s 4 - s 3 * t 2)
        + s 2 * (t 1 * s 3 - s 2 * t 2)) / det
      let b := (s 0 * (t 1 * s 4 - t 2 * s 3) - t 0 * (s 1 * s 4 - s 3 * s 2)
        + s 2 * (s 1 * t 2 - s 2 * t 1)) / det
      let c := (s 0 * (s 2 * t 2 - s 3 * t 1) - s 1 * (s 1 * t 2 - s 2 * t 1)
        + t 0 * (s 1 * s 3 - s 2 * s 2)) / det
      { exception_thrown := false
        egyEqnObject := some (jenergy_equation a b c (chi_squared samples a b c) mode) }

end EnergyCalibration

/-- The ten channels of `test_ecalib`, 20 to 110 in steps of 10 (entries
outside the array read as 0). -/
def ecalib_channel (F : Type) [LinearOrderedField F] : Int → F := fun i =>
  [20, 30, 40, 50, 60, 70, 80, 90, 100, 110].getD i.toNat 0

/-- The ten energies of `test_ecalib`, 15 to 159 in steps of 16. -/
def ecalib_energy (F : Type) [LinearOrderedField F] : Int → F := fun i =>
  [15, 31, 47, 63, 79, 95, 111, 127, 143, 159].getD i.toNat 0

/-- The ten sigmas of `test_ecalib`, all 0. -/
def ecalib_sige (F : Type) [LinearOrderedField F] : Int → F := fun _ => 0

/-- JNI steps of `GL_ecalib` that all succeed. -/
def ecalib_lookups_found : JEcalibLookups :=
  { jvm_found := true
    arrays_built := true
    mode_built := true
    class_found := true
    calibrate_found := true }

/-! ## The pruning rule of the engine -/

section PruningRule

variable {F : Type} [LinearOrderedField F]

/-- Modelled from the spec: the Java constant of `Peak.TYPE` for a C peak
type. The enum is not part of these sources; its label is taken to be the
name of the constant that `get_jpeak_type` fetches, `CHANNEL` or `ENERGY`,
which `get_type_c` tells apart by the first character. -/
def jpeak_type (type : GLPeakType) : JPeakType :=
  { class_found := true
    label_found := true
    label := some (match type with
      | GL_PEAK_CHANNEL => "CHANNEL"
      | GL_PEAK_ENERGY => "ENERGY")
    chars_decoded := true }

/-- Modelled from the spec: the Java `Peak` that carries the fields of a C
peak, as `get_jpeak` constructs it (type constant, channel, energy and sigma,
and the three flags converted by `GAP_get_jboolean`); the class `Peak` is not
part of these sources, its getters are taken to return what the constructor
was given. -/
def jpeak_of (p : GLPeak F) : JPeak F :=
  { m_type := some (jpeak_type p.type)
    getChannel := p.channel
    isChannelValid := decide (p.channel_valid = GL_TRUE)
    getEnergy := p.energy
    isEnergyValid := decide (p.energy_valid = GL_TRUE)
    getSige := p.sige
    isCentroidFixed := decide (p.fixed_centroid = GL_TRUE) }

/-- Modelled from the spec: whether the channel of the required peak `p` lies
within one local peak width of the defined channel of a searched peak, the
width being that of the width equation at the channel of `p` (as
`GL_chan_to_w` computes it). A distance equal to the width counts as
within. -/
def too_close (sqrt : F → F) (wx : GLWidthEqn F) (searchPeaks : List (GLPeak F))
    (p : GLPeak F) : Bool :=
  searchPeaks.any (fun s =>
    decide (s.channel_valid = GL_TRUE ∧
      abs (p.channel - s.channel) ≤ (GL_chan_to_w sqrt wx p.channel 0).2))

/-- Modelled from the spec: the Java method `PeakSearching.pruneRqdPks`, which
is not part of these sources (`pruneRequired` in the spec). A required peak
without a defined channel is dropped; a required peak whose defined channel
lies within one local peak width of the defined channel of any searched peak
is removed; the surviving peaks are returned in the order of their channels.
A width equation that cannot be evaluated at the channel of a tested peak is
an error, for which the method has no answer. -/
def pruneRqdPks (sqrt : F → F) (wx : GLWidthEqn F) (searchPeaks requiredPeaks : List (GLPeak F)) :
    Option (JPeakTreeSet F) :=
  let tested := requiredPeaks.filter (fun p => decide (p.channel_valid = GL_TRUE))
  if tested.all (fun p => decide ((GL_chan_to_w sqrt wx p.channel 0).1 = GL_SUCCESS)) then
    some
      { tree :=
          { array := some
              (((tested.filter (fun p => !too_close sqrt wx searchPeaks p)).insertionSort
                (fun p q => p.channel ≤ q.channel)).map jpeak_of) }
        peak_class_found := true
        peak_members_found := true }
  else
    none

end PruningRule

/-- The list `curr_rqd` of `test_prune_pks` with its first two required
energies, after `GL_update_peaklist` with the test calibration: the channels
are 260.625 and 330. -/
def curr_rqd_updated (F : Type) [LinearOrderedField F] : GLPeakList F :=
  GL_update_peaklist (fun x => x) (some (test_line F)) (curr_rqd F)

/-- A searched peak list with one peak, found at channel 330.5. -/
def searchpks_one (F : Type) [LinearOrderedField F] : GLPeakList F :=
  (GL_add_chanpeak 330.5 { listlength := 10, npeaks := 0, peak := calloc_peaks F }).2

/-! ## Region search -/

/-- Region search modes. -/
inductive GLRgnSrchMode where
  | GL_RGNSRCH_ALL
  | GL_RGNSRCH_FORPKS
  deriving DecidableEq, Repr

open GLRgnSrchMode

/-- A Java `RegionSearchParameters` object, given by the arguments its
constructor is called with in `get_jrgn_srch_parms`. -/
structure JRegionSearchParameters (F : Type) where
  mode : GLRgnSrchMode
  threshold : F
  irw : Int
  irch : Int
  maxrgnwid : Int
  maxNumReturned : Int

/-- What a call of the Java method `RegionSearching.search` ends with: whether
an exception is pending after it, and the set of regions it returned (`none`
for `NULL`). -/
structure JRegionSearchOutcome where
  exception_thrown : Bool
  jregions : Option (JTreeSet JChannelRange)

/-- The JNI steps of `GL_regnsearch` before the call of `search`: whether a
JVM is found, whether each of the five Java inputs is obtained, and whether
the class `RegionSearching` and its method `search` are found. -/
structure JRegnSearchLookups where
  jvm_found : Bool
  jspectrum_built : Bool
  jchanrange_built : Bool
  jwx_built : Bool
  jpeaks_built : Bool
  jparms_built : Bool
  class_found : Bool
  search_found : Bool

/-- The JNI steps of `GL_exceeds_width` before the call of `exceedsWidth`:
whether a JVM is found, whether the Java set of regions is obtained (it is
`NULL` when a region cannot be constructed or `add` refuses it), and whether
the class `RegionSearching` and its method `exceedsWidth` are found. -/
structure JExceedsWidthLookups where
  jvm_found : Bool
  rgnTreeSet_built : Bool
  class_found : Bool
  exceedsWidth_found : Bool

/-- The regions in use of a list, `chanrange[0] .. chanrange[nregions-1]`, in
order. -/
def GLRegions.toList (regions : GLRegions) : List GLChanRange :=
  (List.range regions.nregions.toNat).map (fun (i : Nat) => regions.chanrange (i : Int))

/-- `GAP_set_boolean`: the `GLboolean` for a Java boolean. -/
def GAP_set_boolean (jvalue : Bool) : GLboolean :=
  if jvalue then GL_TRUE else GL_FALSE

/-- `GL_exceeds_width`: ask the engine whether a region of the list exceeds
the maximum width. `exceedsWidth` is the Java method of that name, which gets
the regions in use as a Java set; `answer` is the caller's `*answer` before
the call. -/
def GL_exceeds_width (lookups : JExceedsWidthLookups)
    (exceedsWidth : List GLChanRange → Int → Bool) (regions : GLRegions)
    (max_width_channels : Int) (answer : GLboolean) : GLRtnCode × GLboolean :=
  if !lookups.jvm_found then
    (GL_NOJVM, answer)
  else if !lookups.rgnTreeSet_built then
    (GL_JNIERROR, answer)
  else if !lookups.class_found then
    (GL_JNIERROR, answer)
  else if !lookups.exceedsWidth_found then
    (GL_JNIERROR, answer)
  else
    (GL_SUCCESS, GAP_set_boolean (exceedsWidth regions.toList max_width_channels))

section RegionSearch

variable {F : Type} [LinearOrderedField F]

/-- `GL_regnsearch`: search for regions in the spectrum and decode the Java
set of regions into `regions`. `search` is the Java method of that name; it
gets the spectrum, the channel range, the width equation, the peaks in use
and the parameters, among them `regions->listlength` as the maximum number of
regions to return. `ret_code` is what the uninitialised local of
`set_regions` happens to hold. -/
def GL_regnsearch (lookups : JRegnSearchLookups)
    (search : GLSpectrum → GLChanRange → GLWidthEqn F → List (GLPeak F) →
      JRegionSearchParameters F → JRegionSearchOutcome)
    (ret_code : GLRtnCode) (chanrange : GLChanRange) (wx : GLWidthEqn F) (threshold : F)
    (irw irch : Int) (spectrum : GLSpectrum) (peaks : GLPeakList F) (mode : GLRgnSrchMode)
    (maxrgnwid : Int) (regions : GLRegions) : GLRtnCode × GLRegions :=
  if !lookups.jvm_found then
    (GL_NOJVM, regions)
  else if !lookups.jspectrum_built then
    (GL_JNIERROR, regions)
  else if !lookups.jchanrange_built then
    (GL_JNIERROR, regions)
  else if !lookups.jwx_built then
    (GL_JNIERROR, regions)
  else if !lookups.jpeaks_built then
    (GL_JNIERROR, regions)
  else if !lookups.jparms_built then
    (GL_JNIERROR, regions)
  else if !lookups.class_found then
    (GL_JNIERROR, regions)
  else if !lookups.search_found then
    (GL_JNIERROR, regions)
  else
    let outcome := search spectrum chanrange wx peaks.toList
      { mode := mode
        threshold := threshold
        irw := irw
        irch := irch
        maxrgnwid := maxrgnwid
        maxNumReturned := regions.listlength }
    if outcome.exception_thrown then
      (GL_JEXCEPTION, regions)
    else
      match outcome.jregions with
      | none => (GL_JNIERROR, regions)
      | some jregions => set_regions jregions ret_code regions

/-- Modelled from the spec: the Java method `RegionSearching.exceedsWidth`,
which is not part of these sources: true if and only if the channel span
`last - first + 1` of some region exceeds `maxWidth`. -/
def exceedsWidth (regions : List GLChanRange) (maxWidth : Int) : Bool :=
  regions.any (fun r => decide (r.last - r.first + 1 > maxWidth))

/-- Modelled from the spec: coalescing overlapping spans, the current span
`cur` absorbing each following span that starts at or before its last
channel. -/
def merge_from (cur : GLChanRange) : List GLChanRange → List GLChanRange
  | [] => [cur]
  | s :: rest =>
    if s.first ≤ cur.last then
      merge_from { cur with last := max cur.last s.last } rest
    else
      cur :: merge_from s rest

/-- Modelled from the spec: "overlapping padded spans coalesce into one
region", on the spans in the order of their first channels. -/
def coalesce : List GLChanRange → List GLChanRange
  | [] => []
  | r :: rest => merge_from r rest

/-- Modelled from the spec: the intensity of a channel for the region search,
the count of the spectrum at that channel number (0 without a count
array). -/
def count_at (spectrum : GLSpectrum) (channel : Int) : Int :=
  match spectrum.count with
  | some count => count (channel - spectrum.firstchannel)
  | none => 0

/-- Modelled from the spec: the weakest internal point of a region, the
channel of lowest count (the first of them) among `first .. last - 1`, after
which the region is cut. -/
def weakest_channel (spectrum : GLSpectrum) (r : GLChanRange) : Int :=
  (List.range (r.last - r.first).toNat).foldl
    (fun (best : Int) (k : Nat) =>
      if count_at spectrum (r.first + (k : Int)) < count_at spectrum best then
        r.first + (k : Int)
      else best)
    r.first

/-- Modelled from the spec: "any resulting region wider than `maxrgnwid`
channels is split at its weakest internal point into two sub-regions,
repeated until all satisfy the width cap". `fuel` bounds the depth of the
repetition; the width of the region is enough of it. -/
def split_region (spectrum : GLSpectrum) (maxrgnwid : Int) : Nat → GLChanRange → List GLChanRange
  | 0, r => [r]
  | fuel + 1, r =>
    if r.last - r.first + 1 ≤ maxrgnwid then
      [r]
    else
      split_region spectrum maxrgnwid fuel
          { first := r.first, last := weakest_channel spectrum r }
        ++ split_region spectrum maxrgnwid fuel
          { first := weakest_channel spectrum r + 1, last := r.last }

/-- Modelled from the spec: the Java method `RegionSearching.search`, which is
not part of these sources. The spec leaves the numeric kernel open (which
spans of channels are significant for the threshold, and by how much `irw`
and `irch` pad them); `padded_spans` stands for it and yields the found spans
after padding. From there the model follows the spec: overlapping spans
coalesce into one region, a region wider than `maxrgnwid` is split at its
weakest internal point until all satisfy the cap, in mode `FORPKS` a region
that contains no defined channel of a peak is discarded, the regions are
returned in ascending order of `first`, and no more of them than
`maxNumReturned`. With a cap below one channel the splitting cannot come to
an end and the method has no answer (here: it throws). -/
def search
    (padded_spans : GLSpectrum → GLChanRange → GLWidthEqn F → F → Int → Int →
      List GLChanRange)
    (spectrum : GLSpectrum) (chanrange : GLChanRange) (wx : GLWidthEqn F)
    (peaks : List (GLPeak F)) (parms : JRegionSearchParameters F) : JRegionSearchOutcome :=
  if parms.maxrgnwid < 1 then
    { exception_thrown := true, jregions := none }
  else
    let spans := (padded_spans spectrum chanrange wx parms.threshold parms.irw parms.irch).filter
      (fun r => decide (r.first ≤ r.last))
    let merged := coalesce (spans.insertionSort (fun a b => a.first ≤ b.first))
    let capped := (merged.map
      (fun r => split_region spectrum parms.maxrgnwid (r.last - r.first).toNat r)).flatten
    let kept :=
      match parms.mode with
      | GL_RGNSRCH_ALL => capped
      | GL_RGNSRCH_FORPKS => capped.filter (fun r => peaks.any (fun p => in_region r p))
    { exception_thrown := false
      jregions := some
        { array := some ((kept.take parms.maxNumReturned.toNat).map
            (fun r =>
              { lookups_found := true, m_firstChannel := r.first, m_lastChannel := r.last })) } }

end RegionSearch

/-- JNI steps of `GL_regnsearch` that all succeed. -/
def regnsearch_lookups_found : JRegnSearchLookups :=
  { jvm_found := true
    jspectrum_built := true
    jchanrange_built := true
    jwx_built := true
    jpeaks_built := true
    jparms_built := true
    class_found := true
    search_found := true }

/-- JNI steps of `GL_exceeds_width` that all succeed. -/
def exceeds_lookups_found : JExceedsWidthLookups :=
  { jvm_found := true
    rgnTreeSet_built := true
    class_found := true
    exceedsWidth_found := true }

/-- A kernel that finds the padded spans 105..110, 100..106 and 120..122,
whatever it is given. -/
def spans_three (F : Type) [LinearOrderedField F] :
    GLSpectrum → GLChanRange → GLWidthEqn F → F → Int → Int → List GLChanRange :=
  fun _ _ _ _ _ _ => [⟨105, 110⟩, ⟨100, 106⟩, ⟨120, 122⟩]

/-- The region list made by `GL_regions_alloc(10)`, with `nregions = 0`. -/
def regions_ten : GLRegions :=
  { listlength := 10, nregions := 0, chanrange := fun _ => { first := 0, last := 0 } }

/-- The region list made by `GL_regions_alloc(2)`, with `nregions = 0`. -/
def regions_two : GLRegions :=
  { listlength := 2, nregions := 0, chanrange := fun _ => { first := 0, last := 0 } }

/-- The region list made by `GL_regions_alloc(3)`, with `nregions = 0`. -/
def regions_three : GLRegions :=
  { listlength := 3, nregions := 0, chanrange := fun _ => { first := 0, last := 0 } }

/-! ## Adding peaks -/

/-- C1: on a list at capacity (`npeaks >= listlength`) each of
`GL_add_chanpeak`, `GL_add_egypeak` and `GL_add_peak` returns `GL_OVRLMT` and
hands back the very same list (same `npeaks`, same stored peaks); on a list
with `npeaks < listlength` each of them returns `GL_SUCCESS`. -/
theorem GL_add_overflow_discipline {F : Type} (peaks : GLPeakList F)
    (channel energy sige : F) (peak : GLPeak F) :
    (peaks.npeaks ≥ peaks.listlength →
      GL_add_chanpeak channel peaks = (GL_OVRLMT, peaks) ∧
      GL_add_egypeak energy sige peaks = (GL_OVRLMT, peaks) ∧
      GL_add_peak peak peaks = (GL_OVRLMT, peaks)) ∧
    (peaks.npeaks < peaks.listlength →
      (GL_add_chanpeak channel peaks).1 = GL_SUCCESS ∧
      (GL_add_egypeak energy sige peaks).1 = GL_SUCCESS ∧
      (GL_add_peak peak peaks).1 = GL_SUCCESS) := by
  constructor
  · intro h
    have hfull : peaks.npeaks + 1 > peaks.listlength := by omega
    simp only [GL_add_chanpeak, GL_add_egypeak, GL_add_peak, if_pos hfull, and_self]
  · intro h
    have hroom : ¬ (peaks.npeaks + 1 > peaks.listlength) := by omega
    simp only [GL_add_chanpeak, GL_add_egypeak, GL_add_peak, if_neg hroom, and_self]

/-- C1 at the lists of `main`: the third add on the full two-entry list
overflows, the first add on the empty one succeeds. -/
theorem GL_add_overflow_discipline_witness :
    ((fit_peaks ℚ).npeaks ≥ (fit_peaks ℚ).listlength ∧
      GL_add_chanpeak 1 (fit_peaks ℚ) = (GL_OVRLMT, fit_peaks ℚ) ∧
      GL_add_egypeak 511 0 (fit_peaks ℚ) = (GL_OVRLMT, fit_peaks ℚ) ∧
      GL_add_peak (calloc_peaks ℚ 0) (fit_peaks ℚ) = (GL_OVRLMT, fit_peaks ℚ)) ∧
    ((fit_peaks_empty ℚ).npeaks < (fit_peaks_empty ℚ).listlength ∧
      (GL_add_chanpeak 1 (fit_peaks_empty ℚ)).1 = GL_SUCCESS ∧
      (GL_add_egypeak 511 0 (fit_peaks_empty ℚ)).1 = GL_SUCCESS ∧
      (GL_add_peak (calloc_peaks ℚ 0) (fit_peaks_empty ℚ)).1 = GL_SUCCESS) :=
  ⟨⟨by decide,
      (GL_add_overflow_discipline (fit_peaks ℚ) 1 511 0 (calloc_peaks ℚ 0)).1 (by decide)⟩,
    ⟨by decide,
      (GL_add_overflow_discipline (fit_peaks_empty ℚ) 1 511 0 (calloc_peaks ℚ 0)).2
        (by decide)⟩⟩

/-! ## Channel to energy -/

/-- C7: `GL_chan_to_e` is a total function (it has no return code and always
produces an energy); in `GL_EGY_LINEAR` mode the energy is `a + b*channel`,
whatever the value of `c`, and in `GL_EGY_QUADRATIC` mode it is
`a + b*channel + c*channel^2`. -/
theorem GL_chan_to_e_value {F : Type} [LinearOrderedField F] (ex : GLEnergyEqn F)
    (channel : F) :
    (ex.mode = GL_EGY_LINEAR →
      GL_chan_to_e ex channel = ex.a + ex.b * channel ∧
      ∀ c : F, GL_chan_to_e { ex with c := c } channel = GL_chan_to_e ex channel) ∧
    (ex.mode = GL_EGY_QUADRATIC →
      GL_chan_to_e ex channel = ex.a + ex.b * channel + ex.c * channel ^ 2) := by
  constructor
  · intro h
    simp only [GL_chan_to_e, h, implies_true, and_self]
  · intro h
    simp only [GL_chan_to_e, h]
    ring

/-- C7 at the equations `e = -17 + 1.6 x` (linear, with a stray `c = 9`) and
`e = 1 + 2 x + 3 x^2`, both at channel 10. -/
theorem GL_chan_to_e_value_witness :
    (GL_chan_to_e (⟨-17, 1.6, 9, 0, GL_EGY_LINEAR⟩ : GLEnergyEqn ℚ) 10 = -17 + 1.6 * 10 ∧
      ∀ c : ℚ, GL_chan_to_e ({ (⟨-17, 1.6, 9, 0, GL_EGY_LINEAR⟩ : GLEnergyEqn ℚ) with c := c }) 10
        = GL_chan_to_e (⟨-17, 1.6, 9, 0, GL_EGY_LINEAR⟩ : GLEnergyEqn ℚ) 10) ∧
    GL_chan_to_e (⟨1, 2, 3, 0, GL_EGY_QUADRATIC⟩ : GLEnergyEqn ℚ) 10 = 1 + 2 * 10 + 3 * 10 ^ 2 :=
  ⟨(GL_chan_to_e_value (⟨-17, 1.6, 9, 0, GL_EGY_LINEAR⟩ : GLEnergyEqn ℚ) 10).1 rfl,
    (GL_chan_to_e_value (⟨1, 2, 3, 0, GL_EGY_QUADRATIC⟩ : GLEnergyEqn ℚ) 10).2 rfl⟩

/-! ## Channel to width -/

/-- C3, the claim refuted: a `GL_WID_LINEAR` equation with
`alpha + beta*channel = -1 < 0` does not fail, `GL_chan_to_w` returns
`GL_SUCCESS` and writes the width `-1`. -/
theorem GL_chan_to_w_linear_negative_succeeds :
    (-1 : ℝ) + 0 * 5 < 0 ∧
    GL_chan_to_w Real.sqrt (⟨-1, 0, 0, GL_WID_LINEAR⟩ : GLWidthEqn ℝ) 5 7 = (GL_SUCCESS, -1) := by
  constructor
  · norm_num
  · simp [GL_chan_to_w]

/-- C3 as amended: in `GL_WID_SQRT` mode, at every channel with
`alpha + beta*channel < 0`, `GL_chan_to_w` returns `GL_FAILURE` and leaves
`*width` as it was; in `GL_WID_LINEAR` mode it returns `GL_SUCCESS` at such a
channel too. -/
theorem GL_chan_to_w_negative_radicand {F : Type} [LinearOrderedField F] (sqrt : F → F)
    (wx : GLWidthEqn F) (channel width : F) (hneg : wx.alpha + wx.beta * channel < 0) :
    (wx.mode = GL_WID_SQRT →
      GL_chan_to_w sqrt wx channel width = (GL_FAILURE, width)) ∧
    (wx.mode = GL_WID_LINEAR →
      (GL_chan_to_w sqrt wx channel width).1 = GL_SUCCESS) := by
  constructor
  · intro h
    simp only [GL_chan_to_w, h, if_pos hneg]
  · intro h
    simp only [GL_chan_to_w, h]

/-- C3 as amended, at `w(x)^2 = 4 - x` and channel 5 (radicand `-1`). -/
theorem GL_chan_to_w_negative_radicand_witness :
    (4 : ℝ) + (-1) * 5 < 0 ∧
    GL_chan_to_w Real.sqrt (⟨4, -1, 0, GL_WID_SQRT⟩ : GLWidthEqn ℝ) 5 7 = (GL_FAILURE, 7) :=
  ⟨by norm_num,
    (GL_chan_to_w_negative_radicand Real.sqrt (⟨4, -1, 0, GL_WID_SQRT⟩ : GLWidthEqn ℝ) 5 7
      (by norm_num)).1 rfl⟩

/-- C4: in `GL_WID_LINEAR` mode `GL_chan_to_w` always returns `GL_SUCCESS` with
exactly `alpha + beta*channel`; in `GL_WID_SQRT` mode it returns `GL_FAILURE`
exactly when `alpha + beta*channel < 0`, then leaving `*width` unwritten, and
otherwise returns `GL_SUCCESS` with the non-negative square root of
`alpha + beta*channel`. -/
theorem GL_chan_to_w_value (wx : GLWidthEqn ℝ) (channel width : ℝ) :
    (wx.mode = GL_WID_LINEAR →
      GL_chan_to_w Real.sqrt wx channel width = (GL_SUCCESS, wx.alpha + wx.beta * channel)) ∧
    (wx.mode = GL_WID_SQRT →
      ((GL_chan_to_w Real.sqrt wx channel width).1 = GL_FAILURE ↔
        wx.alpha + wx.beta * channel < 0) ∧
      (wx.alpha + wx.beta * channel < 0 →
        GL_chan_to_w Real.sqrt wx channel width = (GL_FAILURE, width)) ∧
      (¬ wx.alpha + wx.beta * channel < 0 →
        (GL_chan_to_w Real.sqrt wx channel width).1 = GL_SUCCESS ∧
        0 ≤ (GL_chan_to_w Real.sqrt wx channel width).2 ∧
        (GL_chan_to_w Real.sqrt wx channel width).2 * (GL_chan_to_w Real.sqrt wx channel width).2
          = wx.alpha + wx.beta * channel)) := by
  constructor
  · intro h
    simp only [GL_chan_to_w, h]
  · intro h
    by_cases hneg : wx.alpha + wx.beta * channel < 0
    · simp [GL_chan_to_w, h, hneg]
    · have hnn : 0 ≤ wx.alpha + wx.beta * channel := not_lt.mp hneg
      have hval : GL_chan_to_w Real.sqrt wx channel width
          = (GL_SUCCESS, Real.sqrt (wx.alpha + wx.beta * channel)) := by
        simp only [GL_chan_to_w, h, if_neg hneg]
      rw [hval]
      refine ⟨⟨fun hf => ?_, fun hlt => absurd hlt hneg⟩, fun hlt => absurd hlt hneg, fun _ => ?_⟩
      · exact GLRtnCode.noConfusion hf
      · exact ⟨rfl, Real.sqrt_nonneg _, Real.mul_self_sqrt hnn⟩

/-- C4 at `w = 2 + 3 x` (linear, channel 5), at `w^2 = 4 - x` (sqrt,
channel 5, radicand `-1`) and at `w^2 = 4` (sqrt, radicand 4). -/
theorem GL_chan_to_w_value_witness :
    GL_chan_to_w Real.sqrt (⟨2, 3, 0, GL_WID_LINEAR⟩ : GLWidthEqn ℝ) 5 7
      = (GL_SUCCESS, (2 : ℝ) + 3 * 5) ∧
    ((4 : ℝ) + (-1) * 5 < 0 ∧
      GL_chan_to_w Real.sqrt (⟨4, -1, 0, GL_WID_SQRT⟩ : GLWidthEqn ℝ) 5 7 = (GL_FAILURE, 7)) ∧
    (¬ ((4 : ℝ) + 0 * 5 < 0) ∧
      (GL_chan_to_w Real.sqrt (⟨4, 0, 0, GL_WID_SQRT⟩ : GLWidthEqn ℝ) 5 7).1 = GL_SUCCESS ∧
      0 ≤ (GL_chan_to_w Real.sqrt (⟨4, 0, 0, GL_WID_SQRT⟩ : GLWidthEqn ℝ) 5 7).2 ∧
      (GL_chan_to_w Real.sqrt (⟨4, 0, 0, GL_WID_SQRT⟩ : GLWidthEqn ℝ) 5 7).2
          * (GL_chan_to_w Real.sqrt (⟨4, 0, 0, GL_WID_SQRT⟩ : GLWidthEqn ℝ) 5 7).2
        = (4 : ℝ) + 0 * 5) :=
  ⟨(GL_chan_to_w_value (⟨2, 3, 0, GL_WID_LINEAR⟩ : GLWidthEqn ℝ) 5 7).1 rfl,
    ⟨by norm_num,
      ((GL_chan_to_w_value (⟨4, -1, 0, GL_WID_SQRT⟩ : GLWidthEqn ℝ) 5 7).2 rfl).2.1
        (by norm_num)⟩,
    ⟨by norm_num,
      ((GL_chan_to_w_value (⟨4, 0, 0, GL_WID_SQRT⟩ : GLWidthEqn ℝ) 5 7).2 rfl).2.2
        (by norm_num)⟩⟩

/-! ## Energy to channel -/

/-- C5: `GL_e_to_chan` returns `GL_FAILURE` in exactly two cases, namely
(`mode` is `GL_EGY_LINEAR` or `c == 0`) and `b == 0`, or `mode` is
`GL_EGY_QUADRATIC`, `c != 0` and `b^2 - 4*c*(a - energy) < 0`; in those cases
`*channel` keeps its value, and on every other input the code is
`GL_SUCCESS`. -/
theorem GL_e_to_chan_failure {F : Type} [LinearOrderedField F] (sqrt : F → F)
    (ex : GLEnergyEqn F) (energy channel : F) :
    ((GL_e_to_chan sqrt ex energy channel).1 = GL_FAILURE ↔
      (((ex.mode = GL_EGY_LINEAR ∨ ex.c = 0) ∧ ex.b = 0) ∨
        (ex.mode = GL_EGY_QUADRATIC ∧ ex.c ≠ 0 ∧
          ex.b ^ 2 - 4 * ex.c * (ex.a - energy) < 0))) ∧
    ((GL_e_to_chan sqrt ex energy channel).1 = GL_FAILURE →
      (GL_e_to_chan sqrt ex energy channel).2 = channel) ∧
    ((GL_e_to_chan sqrt ex energy channel).1 ≠ GL_FAILURE →
      (GL_e_to_chan sqrt ex energy channel).1 = GL_SUCCESS) := by
  have hsq : ex.b * ex.b = ex.b ^ 2 := (sq ex.b).symm
  by_cases hlin : ex.mode = GL_EGY_LINEAR ∨ ex.c = 0
  · by_cases hb : ex.b = 0
    · have hval : GL_e_to_chan sqrt ex energy channel = (GL_FAILURE, channel) := by
        simp only [GL_e_to_chan, if_pos hlin, if_pos hb]
      rw [hval]
      exact ⟨⟨fun _ => Or.inl ⟨hlin, hb⟩, fun _ => rfl⟩, fun _ => rfl, fun h => absurd rfl h⟩
    · have hval : GL_e_to_chan sqrt ex energy channel = (GL_SUCCESS, (energy - ex.a) / ex.b) := by
        simp only [GL_e_to_chan, if_pos hlin, if_neg hb]
      rw [hval]
      refine ⟨⟨fun h => GLRtnCode.noConfusion h, fun h => ?_⟩,
        fun h => GLRtnCode.noConfusion h, fun _ => rfl⟩
      rcases h with ⟨_, hb0⟩ | ⟨hq, hc, _⟩
      · exact absurd hb0 hb
      · rcases hlin with hl | hc0
        · rw [hl] at hq
          exact GLEgyEqnMode.noConfusion hq
        · exact absurd hc0 hc
  · have hq : ex.mode = GL_EGY_QUADRATIC := by
      cases hm : ex.mode with
      | GL_EGY_LINEAR => exact absurd (Or.inl hm) hlin
      | GL_EGY_QUADRATIC => rfl
    have hc : ex.c ≠ 0 := fun h => hlin (Or.inr h)
    by_cases hd : ex.b * ex.b - 4 * ex.c * (ex.a - energy) < 0
    · have hval : GL_e_to_chan sqrt ex energy channel = (GL_FAILURE, channel) := by
        simp only [GL_e_to_chan, if_neg hlin, if_pos hd]
      rw [hval]
      exact ⟨⟨fun _ => Or.inr ⟨hq, hc, hsq ▸ hd⟩, fun _ => rfl⟩, fun _ => rfl,
        fun h => absurd rfl h⟩
    · have hval : GL_e_to_chan sqrt ex energy channel
          = (GL_SUCCESS, GAP_max 0
              ((-ex.b + sqrt (ex.b * ex.b - 4 * ex.c * (ex.a - energy))) / (2 * ex.c))) := by
        simp only [GL_e_to_chan, if_neg hlin, if_neg hd]
      rw [hval]
      refine ⟨⟨fun h => GLRtnCode.noConfusion h, fun h => ?_⟩,
        fun h => GLRtnCode.noConfusion h, fun _ => rfl⟩
      rcases h with ⟨hl, _⟩ | ⟨_, _, hd0⟩
      · exact absurd hl hlin
      · exact absurd (hsq ▸ hd0) hd

/-- C5 at the degenerate line `e = 3` (slope `b = 0`) and at the parabola
`e = 10 + x^2` asked for the energy 5 below its minimum: both calls fail and
hand back the old `*channel = 7`. -/
theorem GL_e_to_chan_failure_witness :
    (GL_e_to_chan Real.sqrt (⟨3, 0, 0, 0, GL_EGY_LINEAR⟩ : GLEnergyEqn ℝ) 511 7).1 = GL_FAILURE ∧
    (GL_e_to_chan Real.sqrt (⟨3, 0, 0, 0, GL_EGY_LINEAR⟩ : GLEnergyEqn ℝ) 511 7).2 = 7 ∧
    (GL_e_to_chan Real.sqrt (⟨10, 0, 1, 0, GL_EGY_QUADRATIC⟩ : GLEnergyEqn ℝ) 5 7).1
      = GL_FAILURE ∧
    (GL_e_to_chan Real.sqrt (⟨10, 0, 1, 0, GL_EGY_QUADRATIC⟩ : GLEnergyEqn ℝ) 5 7).2 = 7 :=
  have h1 := (GL_e_to_chan_failure Real.sqrt (⟨3, 0, 0, 0, GL_EGY_LINEAR⟩ : GLEnergyEqn ℝ)
    511 7).1.2 (Or.inl ⟨Or.inl rfl, rfl⟩)
  have h2 := (GL_e_to_chan_failure Real.sqrt (⟨10, 0, 1, 0, GL_EGY_QUADRATIC⟩ : GLEnergyEqn ℝ)
    5 7).1.2 (Or.inr ⟨rfl, by norm_num, by norm_num⟩)
  ⟨h1,
    (GL_e_to_chan_failure Real.sqrt (⟨3, 0, 0, 0, GL_EGY_LINEAR⟩ : GLEnergyEqn ℝ) 511 7).2.1 h1,
    h2,
    (GL_e_to_chan_failure Real.sqrt (⟨10, 0, 1, 0, GL_EGY_QUADRATIC⟩ : GLEnergyEqn ℝ) 5 7).2.1 h2⟩

/-- C6: whenever `GL_e_to_chan` returns `GL_SUCCESS`, the channel it writes is
`(energy - a)/b` if `mode` is `GL_EGY_LINEAR` or `c == 0`, and otherwise
`max(0, (-b + sqrt(b^2 - 4*c*(a - energy))) / (2*c))`, which is never
negative. -/
theorem GL_e_to_chan_value {F : Type} [LinearOrderedField F] (sqrt : F → F)
    (ex : GLEnergyEqn F) (energy channel : F)
    (hok : (GL_e_to_chan sqrt ex energy channel).1 = GL_SUCCESS) :
    ((ex.mode = GL_EGY_LINEAR ∨ ex.c = 0) →
      (GL_e_to_chan sqrt ex energy channel).2 = (energy - ex.a) / ex.b) ∧
    (¬ (ex.mode = GL_EGY_LINEAR ∨ ex.c = 0) →
      (GL_e_to_chan sqrt ex energy channel).2
        = max 0 ((-ex.b + sqrt (ex.b ^ 2 - 4 * ex.c * (ex.a - energy))) / (2 * ex.c)) ∧
      0 ≤ (GL_e_to_chan sqrt ex energy channel).2) := by
  have hsq : ex.b * ex.b = ex.b ^ 2 := (sq ex.b).symm
  have hmax : ∀ r : F, GAP_max 0 r = max 0 r := by
    intro r
    unfold GAP_max
    split_ifs with h
    · exact (max_eq_right h.le).symm
    · exact (max_eq_left (not_lt.mp h)).symm
  constructor
  · intro hlin
    by_cases hb : ex.b = 0
    · simp only [GL_e_to_chan, if_pos hlin, if_pos hb] at hok
      exact GLRtnCode.noConfusion hok
    · simp only [GL_e_to_chan, if_pos hlin, if_neg hb]
  · intro hlin
    by_cases hd : ex.b * ex.b - 4 * ex.c * (ex.a - energy) < 0
    · simp only [GL_e_to_chan, if_neg hlin, if_pos hd] at hok
      exact GLRtnCode.noConfusion hok
    · have hval : GL_e_to_chan sqrt ex energy channel
          = (GL_SUCCESS, GAP_max 0
              ((-ex.b + sqrt (ex.b * ex.b - 4 * ex.c * (ex.a - energy))) / (2 * ex.c))) := by
        simp only [GL_e_to_chan, if_neg hlin, if_neg hd]
      rw [hval, hmax, hsq]
      exact ⟨rfl, le_max_left _ _⟩

/-- C6 at the line `e = -17 + 1.6 x` asked for `e = 15` (channel 20) and at
the parabola `e = 2 x + x^2` asked for `e = -1` (discriminant 0, root `-1`,
clamped). -/
theorem GL_e_to_chan_value_witness :
    (GL_e_to_chan Real.sqrt (⟨-17, 1.6, 0, 0, GL_EGY_LINEAR⟩ : GLEnergyEqn ℝ) 15 7).2
      = (15 - (-17)) / 1.6 ∧
    0 ≤ (GL_e_to_chan Real.sqrt (⟨0, 2, 1, 0, GL_EGY_QUADRATIC⟩ : GLEnergyEqn ℝ) (-1) 7).2 :=
  ⟨(GL_e_to_chan_value Real.sqrt (⟨-17, 1.6, 0, 0, GL_EGY_LINEAR⟩ : GLEnergyEqn ℝ) 15 7
      (by norm_num [GL_e_to_chan])).1 (Or.inl rfl),
    ((GL_e_to_chan_value Real.sqrt (⟨0, 2, 1, 0, GL_EGY_QUADRATIC⟩ : GLEnergyEqn ℝ) (-1) 7
      (by simp [GL_e_to_chan]; norm_num)).2 (by simp)).2⟩

/-! ## Round trip channel, energy, channel -/

/-- C2, the claim refuted: for the non-degenerate parabola `e = 2 x + x^2`
(`mode` quadratic, `c = 1`) and the channel `x = -1` the energy is `-1`;
`GL_e_to_chan` succeeds on it, but the root `-1` it selects is clamped to the
channel 0, and `GL_chan_to_e` of that channel is `0`, not `-1`. -/
theorem GL_chan_to_e_roundtrip_clamped :
    GL_chan_to_e (⟨0, 2, 1, 0, GL_EGY_QUADRATIC⟩ : GLEnergyEqn ℝ) (-1) = -1 ∧
    GL_e_to_chan Real.sqrt (⟨0, 2, 1, 0, GL_EGY_QUADRATIC⟩ : GLEnergyEqn ℝ)
      (GL_chan_to_e (⟨0, 2, 1, 0, GL_EGY_QUADRATIC⟩ : GLEnergyEqn ℝ) (-1)) 7 = (GL_SUCCESS, 0) ∧
    GL_chan_to_e (⟨0, 2, 1, 0, GL_EGY_QUADRATIC⟩ : GLEnergyEqn ℝ)
      (GL_e_to_chan Real.sqrt (⟨0, 2, 1, 0, GL_EGY_QUADRATIC⟩ : GLEnergyEqn ℝ)
        (GL_chan_to_e (⟨0, 2, 1, 0, GL_EGY_QUADRATIC⟩ : GLEnergyEqn ℝ) (-1)) 7).2
      ≠ GL_chan_to_e (⟨0, 2, 1, 0, GL_EGY_QUADRATIC⟩ : GLEnergyEqn ℝ) (-1) := by
  have hE : GL_chan_to_e (⟨0, 2, 1, 0, GL_EGY_QUADRATIC⟩ : GLEnergyEqn ℝ) (-1) = -1 := by
    norm_num [GL_chan_to_e]
  have hC : GL_e_to_chan Real.sqrt (⟨0, 2, 1, 0, GL_EGY_QUADRATIC⟩ : GLEnergyEqn ℝ) (-1) 7
      = (GL_SUCCESS, 0) := by
    simp [GL_e_to_chan, GAP_max]
    norm_num
  rw [hE, hC]
  refine ⟨rfl, rfl, ?_⟩
  norm_num [GL_chan_to_e]

/-- C2 as amended: for every non-degenerate energy equation (`mode` linear or
`c = 0`, with `b != 0`; or `mode` quadratic with `c != 0`) and every channel
`x`, `GL_e_to_chan` succeeds on `E = GL_chan_to_e(x)`. `GL_chan_to_e` applied
to the channel it returns gives `E` again in the linear case, and in the
quadratic case whenever the root `(-b + sqrt(b^2 - 4c(a - E))) / (2c)` that
the code selects is not negative; when that root is negative the channel is
clamped to 0 and `GL_chan_to_e` gives `a`. Arithmetic over the reals. -/
theorem GL_chan_to_e_roundtrip (ex : GLEnergyEqn ℝ) (x channel : ℝ)
    (hnd : ((ex.mode = GL_EGY_LINEAR ∨ ex.c = 0) ∧ ex.b ≠ 0) ∨
      (ex.mode = GL_EGY_QUADRATIC ∧ ex.c ≠ 0)) :
    (GL_e_to_chan Real.sqrt ex (GL_chan_to_e ex x) channel).1 = GL_SUCCESS ∧
    ((ex.mode = GL_EGY_LINEAR ∨ ex.c = 0) →
      GL_chan_to_e ex (GL_e_to_chan Real.sqrt ex (GL_chan_to_e ex x) channel).2
        = GL_chan_to_e ex x) ∧
    (ex.mode = GL_EGY_QUADRATIC → ex.c ≠ 0 →
      (0 ≤ (-ex.b + Real.sqrt (ex.b ^ 2 - 4 * ex.c * (ex.a - GL_chan_to_e ex x))) / (2 * ex.c) →
        GL_chan_to_e ex (GL_e_to_chan Real.sqrt ex (GL_chan_to_e ex x) channel).2
          = GL_chan_to_e ex x) ∧
      ((-ex.b + Real.sqrt (ex.b ^ 2 - 4 * ex.c * (ex.a - GL_chan_to_e ex x))) / (2 * ex.c) < 0 →
        GL_chan_to_e ex (GL_e_to_chan Real.sqrt ex (GL_chan_to_e ex x) channel).2 = ex.a)) := by
  have hsq : ex.b * ex.b = ex.b ^ 2 := (sq ex.b).symm
  by_cases hlin : ex.mode = GL_EGY_LINEAR ∨ ex.c = 0
  · have hb : ex.b ≠ 0 := by
      rcases hnd with ⟨_, hb⟩ | ⟨hq, hc⟩
      · exact hb
      · rcases hlin with hl | hc0
        · rw [hl] at hq
          exact GLEgyEqnMode.noConfusion hq
        · exact absurd hc0 hc
    have hval : GL_e_to_chan Real.sqrt ex (GL_chan_to_e ex x) channel
        = (GL_SUCCESS, (GL_chan_to_e ex x - ex.a) / ex.b) := by
      simp only [GL_e_to_chan, if_pos hlin, if_neg hb]
    have hback : (GL_chan_to_e ex x - ex.a) / ex.b = x := by
      rcases hlin with hl | hc0
      · simp only [GL_chan_to_e, hl]
        field_simp
      · cases hm : ex.mode with
        | GL_EGY_LINEAR =>
          simp only [GL_chan_to_e, hm]
          field_simp
        | GL_EGY_QUADRATIC =>
          simp only [GL_chan_to_e, hm, hc0]
          field_simp
    rw [hval]
    refine ⟨rfl, fun _ => ?_, fun hq hc => ?_⟩
    · show GL_chan_to_e ex ((GL_chan_to_e ex x - ex.a) / ex.b) = GL_chan_to_e ex x
      rw [hback]
    · rcases hlin with hl | hc0
      · rw [hl] at hq
        exact GLEgyEqnMode.noConfusion hq
      · exact absurd hc0 hc
  · have hq : ex.mode = GL_EGY_QUADRATIC := by
      cases hm : ex.mode with
      | GL_EGY_LINEAR => exact absurd (Or.inl hm) hlin
      | GL_EGY_QUADRATIC => rfl
    have hc : ex.c ≠ 0 := fun h => hlin (Or.inr h)
    have hE : GL_chan_to_e ex x = ex.a + ex.b * x + ex.c * x * x := by
      simp only [GL_chan_to_e, hq]
    have hdisc : ex.b * ex.b - 4 * ex.c * (ex.a - GL_chan_to_e ex x)
        = (ex.b + 2 * ex.c * x) ^ 2 := by
      rw [hE]
      ring
    have hd : ¬ ex.b * ex.b - 4 * ex.c * (ex.a - GL_chan_to_e ex x) < 0 := by
      rw [hdisc]
      exact not_lt.mpr (sq_nonneg _)
    have hval : GL_e_to_chan Real.sqrt ex (GL_chan_to_e ex x) channel
        = (GL_SUCCESS, GAP_max 0
            ((-ex.b + Real.sqrt (ex.b ^ 2 - 4 * ex.c * (ex.a - GL_chan_to_e ex x)))
              / (2 * ex.c))) := by
      simp only [GL_e_to_chan, if_neg hlin, if_neg hd]
      rw [hsq]
    rw [hval]
    refine ⟨rfl, fun hl => absurd hl hlin, fun _ _ => ⟨fun hroot => ?_, fun hroot => ?_⟩⟩
    · have hmax : GAP_max 0
            ((-ex.b + Real.sqrt (ex.b ^ 2 - 4 * ex.c * (ex.a - GL_chan_to_e ex x)))
              / (2 * ex.c))
          = (-ex.b + Real.sqrt (ex.b ^ 2 - 4 * ex.c * (ex.a - GL_chan_to_e ex x)))
              / (2 * ex.c) := by
        unfold GAP_max
        split_ifs with h
        · rfl
        · exact le_antisymm hroot (not_lt.mp h)
      show GL_chan_to_e ex (GAP_max 0 _) = GL_chan_to_e ex x
      rw [hmax]
      have hnn : 0 ≤ ex.b ^ 2 - 4 * ex.c * (ex.a - GL_chan_to_e ex x) := by
        rw [← hsq]
        exact not_lt.mp hd
      have hs := Real.mul_self_sqrt hnn
      generalize Real.sqrt (ex.b ^ 2 - 4 * ex.c * (ex.a - GL_chan_to_e ex x)) = s at hs
      rw [hE] at hs ⊢
      simp only [GL_chan_to_e, hq]
      field_simp
      linear_combination (2 * ex.c ^ 2) * hs
    · have hmax : GAP_max 0
            ((-ex.b + Real.sqrt (ex.b ^ 2 - 4 * ex.c * (ex.a - GL_chan_to_e ex x)))
              / (2 * ex.c)) = 0 := by
        unfold GAP_max
        rw [if_neg (not_lt.mpr hroot.le)]
      show GL_chan_to_e ex (GAP_max 0 _) = ex.a
      rw [hmax]
      simp only [GL_chan_to_e, hq]
      ring

/-- C2 as amended, at the test calibration `e = -17 + 1.6 x` and channel 20,
and at the parabola `e = x^2` and channel 3 (root `(0 + sqrt 36)/2 >= 0`). -/
theorem GL_chan_to_e_roundtrip_witness :
    ((GL_e_to_chan Real.sqrt (⟨-17, 1.6, 0, 0, GL_EGY_LINEAR⟩ : GLEnergyEqn ℝ)
        (GL_chan_to_e (⟨-17, 1.6, 0, 0, GL_EGY_LINEAR⟩ : GLEnergyEqn ℝ) 20) 7).1 = GL_SUCCESS ∧
      GL_chan_to_e (⟨-17, 1.6, 0, 0, GL_EGY_LINEAR⟩ : GLEnergyEqn ℝ)
        (GL_e_to_chan Real.sqrt (⟨-17, 1.6, 0, 0, GL_EGY_LINEAR⟩ : GLEnergyEqn ℝ)
          (GL_chan_to_e (⟨-17, 1.6, 0, 0, GL_EGY_LINEAR⟩ : GLEnergyEqn ℝ) 20) 7).2
        = GL_chan_to_e (⟨-17, 1.6, 0, 0, GL_EGY_LINEAR⟩ : GLEnergyEqn ℝ) 20) ∧
    ((GL_e_to_chan Real.sqrt (⟨0, 0, 1, 0, GL_EGY_QUADRATIC⟩ : GLEnergyEqn ℝ)
        (GL_chan_to_e (⟨0, 0, 1, 0, GL_EGY_QUADRATIC⟩ : GLEnergyEqn ℝ) 3) 7).1 = GL_SUCCESS ∧
      GL_chan_to_e (⟨0, 0, 1, 0, GL_EGY_QUADRATIC⟩ : GLEnergyEqn ℝ)
        (GL_e_to_chan Real.sqrt (⟨0, 0, 1, 0, GL_EGY_QUADRATIC⟩ : GLEnergyEqn ℝ)
          (GL_chan_to_e (⟨0, 0, 1, 0, GL_EGY_QUADRATIC⟩ : GLEnergyEqn ℝ) 3) 7).2
        = GL_chan_to_e (⟨0, 0, 1, 0, GL_EGY_QUADRATIC⟩ : GLEnergyEqn ℝ) 3) :=
  have h1 := GL_chan_to_e_roundtrip (⟨-17, 1.6, 0, 0, GL_EGY_LINEAR⟩ : GLEnergyEqn ℝ) 20 7
    (Or.inl ⟨Or.inl rfl, by norm_num⟩)
  have h2 := GL_chan_to_e_roundtrip (⟨0, 0, 1, 0, GL_EGY_QUADRATIC⟩ : GLEnergyEqn ℝ) 3 7
    (Or.inr ⟨rfl, by norm_num⟩)
  ⟨⟨h1.1, h1.2.1 (Or.inl rfl)⟩,
    ⟨h2.1, (h2.2.2 rfl (by norm_num)).1
      (div_nonneg (by simp) (by norm_num))⟩⟩

/-! ## Updating a peak list -/

/-- The loop of `GL_update_peaklist` over the first `n` entries rewrites
exactly the entries `0 .. n-1`, each with the loop body applied once to the
entry found there. -/
theorem foldl_range_update_apply {F : Type} (body : GLPeak F → GLPeak F)
    (peak : Int → GLPeak F) (j : Int) (n : Nat) :
    (List.range n).foldl
        (fun (pk : Int → GLPeak F) (i : Nat) =>
          Function.update pk (i : Int) (body (pk (i : Int)))) peak j
      = if 0 ≤ j ∧ j < (n : Int) then body (peak j) else peak j := by
  induction n with
  | zero =>
    have hj : ¬ (0 ≤ j ∧ j < ((0 : Nat) : Int)) := by omega
    rw [if_neg hj]
    rfl
  | succ n ih =>
    rw [List.range_succ, List.foldl_append]
    simp only [List.foldl_cons, List.foldl_nil]
    by_cases hjn : j = (n : Int)
    · subst hjn
      rw [Function.update_same, ih]
      have h1 : ¬ (0 ≤ (n : Int) ∧ (n : Int) < (n : Int)) := by omega
      have h2 : 0 ≤ (n : Int) ∧ (n : Int) < ((n + 1 : Nat) : Int) := by omega
      rw [if_neg h1, if_pos h2]
    · rw [Function.update_noteq hjn, ih]
      by_cases hr : 0 ≤ j ∧ j < (n : Int)
      · have h2 : 0 ≤ j ∧ j < ((n + 1 : Nat) : Int) := by omega
        rw [if_pos hr, if_pos h2]
      · have h2 : ¬ (0 ≤ j ∧ j < ((n + 1 : Nat) : Int)) := by omega
        rw [if_neg hr, if_neg h2]

/-- After the loop `for (i = 0; i < npeaks; i++)`, entry `j` holds the body
applied to the old entry when `0 <= j < npeaks` and is untouched otherwise. -/
theorem for_each_peak_apply {F : Type} (body : GLPeak F → GLPeak F) (npeaks : Int)
    (peak : Int → GLPeak F) (j : Int) :
    for_each_peak body npeaks peak j
      = if 0 ≤ j ∧ j < npeaks then body (peak j) else peak j := by
  unfold for_each_peak
  rw [foldl_range_update_apply]
  by_cases hr : 0 ≤ j ∧ j < npeaks
  · have h2 : 0 ≤ j ∧ j < ((npeaks.toNat : Nat) : Int) := by omega
    rw [if_pos hr, if_pos h2]
  · have h2 : ¬ (0 ≤ j ∧ j < ((npeaks.toNat : Nat) : Int)) := by omega
    rw [if_neg hr, if_neg h2]

/-- The code returned by `GL_e_to_chan` does not depend on the value found at
`*channel`, and neither does the channel written when the call succeeds. -/
theorem GL_e_to_chan_success_indep {F : Type} [LinearOrderedField F] (sqrt : F → F)
    (ex : GLEnergyEqn F) (energy channel channel2 : F)
    (hok : (GL_e_to_chan sqrt ex energy channel).1 = GL_SUCCESS) :
    GL_e_to_chan sqrt ex energy channel2 = GL_e_to_chan sqrt ex energy channel := by
  by_cases hlin : ex.mode = GL_EGY_LINEAR ∨ ex.c = 0
  · by_cases hb : ex.b = 0
    · simp only [GL_e_to_chan, if_pos hlin, if_pos hb] at hok
      exact GLRtnCode.noConfusion hok
    · simp only [GL_e_to_chan, if_pos hlin, if_neg hb]
  · by_cases hd : ex.b * ex.b - 4 * ex.c * (ex.a - energy) < 0
    · simp only [GL_e_to_chan, if_neg hlin, if_pos hd] at hok
      exact GLRtnCode.noConfusion hok
    · simp only [GL_e_to_chan, if_neg hlin, if_neg hd]

/-- C8, evaluated at a failing input: with the non-NULL all-zero linear
equation (`b = 0`) the `GL_PEAK_ENERGY` peak at index 1 of `curr_rqd`, one of
the first `npeaks`, comes out of `GL_update_peaklist` flagged `channel_valid`,
although `GL_e_to_chan` fails on its energy and returns no channel: the field
`channel` is left as it was before the call. With `ex == NULL` the same peak
is flagged invalid. -/
theorem GL_update_peaklist_energy_not_inverted :
    (0 : Int) ≤ 1 ∧ (1 : Int) < (curr_rqd ℝ).npeaks ∧
    ((GL_update_peaklist Real.sqrt (some (zero_eqn ℝ)) (curr_rqd ℝ)).peak 1).type
      = GL_PEAK_ENERGY ∧
    ((GL_update_peaklist Real.sqrt (some (zero_eqn ℝ)) (curr_rqd ℝ)).peak 1).channel_valid
      = GL_TRUE ∧
    (GL_e_to_chan Real.sqrt (zero_eqn ℝ)
      ((GL_update_peaklist Real.sqrt (some (zero_eqn ℝ)) (curr_rqd ℝ)).peak 1).energy
      ((GL_update_peaklist Real.sqrt (some (zero_eqn ℝ)) (curr_rqd ℝ)).peak 1).channel).1
      = GL_FAILURE ∧
    ((GL_update_peaklist Real.sqrt (some (zero_eqn ℝ)) (curr_rqd ℝ)).peak 1).channel
      = ((curr_rqd ℝ).peak 1).channel ∧
    ((GL_update_peaklist Real.sqrt none (curr_rqd ℝ)).peak 1).channel_valid = GL_FALSE := by
  refine ⟨by decide, by decide, ?_, ?_, ?_, ?_, ?_⟩
  · simp only [GL_update_peaklist, for_each_peak_apply]
    rw [if_pos ⟨by decide, by decide⟩]
    rfl
  · simp only [GL_update_peaklist, for_each_peak_apply]
    rw [if_pos ⟨by decide, by decide⟩]
    rfl
  · simp [GL_e_to_chan, zero_eqn]
  · simp only [GL_update_peaklist, for_each_peak_apply]
    rw [if_pos ⟨by decide, by decide⟩]
    have hty : ((curr_rqd ℝ).peak 1).type = GL_PEAK_ENERGY := rfl
    simp [update_peak_with, hty, GL_e_to_chan, zero_eqn]
  · simp only [GL_update_peaklist, for_each_peak_apply]
    rw [if_pos ⟨by decide, by decide⟩]
    rfl

/-- Where the inversion succeeds: for every non-NULL energy equation `ex`
and every peak list, each peak of type `GL_PEAK_ENERGY` among the first
`npeaks` whose energy `GL_e_to_chan` can invert with `ex` (the call made by
the update returns `GL_SUCCESS`) keeps its type and energy, has
`channel_valid` true after `GL_update_peaklist(ex, peaks)` and holds exactly
the channel of that inversion: `GL_e_to_chan(ex, energy)` returns `GL_SUCCESS`
with the stored channel. -/
theorem GL_update_peaklist_energy_peak {F : Type} [LinearOrderedField F] (sqrt : F → F)
    (ex : GLEnergyEqn F) (peaks : GLPeakList F) (i : Int)
    (hi : 0 ≤ i) (hlt : i < peaks.npeaks)
    (hty : (peaks.peak i).type = GL_PEAK_ENERGY)
    (hok : (GL_e_to_chan sqrt ex (peaks.peak i).energy (peaks.peak i).channel).1
      = GL_SUCCESS) :
    ((GL_update_peaklist sqrt (some ex) peaks).peak i).type = GL_PEAK_ENERGY ∧
    ((GL_update_peaklist sqrt (some ex) peaks).peak i).energy = (peaks.peak i).energy ∧
    ((GL_update_peaklist sqrt (some ex) peaks).peak i).channel_valid = GL_TRUE ∧
    ∀ channel : F,
      GL_e_to_chan sqrt ex ((GL_update_peaklist sqrt (some ex) peaks).peak i).energy channel
        = (GL_SUCCESS, ((GL_update_peaklist sqrt (some ex) peaks).peak i).channel) := by
  have hpk : (GL_update_peaklist sqrt (some ex) peaks).peak i
      = { peaks.peak i with
          channel := (GL_e_to_chan sqrt ex (peaks.peak i).energy (peaks.peak i).channel).2
          channel_valid := GL_TRUE } := by
    simp only [GL_update_peaklist, for_each_peak_apply]
    rw [if_pos ⟨hi, hlt⟩]
    simp only [update_peak_with, hty]
  rw [hpk]
  refine ⟨hty, rfl, rfl, fun channel => ?_⟩
  show GL_e_to_chan sqrt ex (peaks.peak i).energy channel
    = (GL_SUCCESS, (GL_e_to_chan sqrt ex (peaks.peak i).energy (peaks.peak i).channel).2)
  rw [GL_e_to_chan_success_indep sqrt ex _ _ channel hok, ← hok]

/-- The update at `curr_rqd` (energies 400 and 511) and the calibration line
`e = -17 + 1.6 x`: the peak at index 1 is inverted and flagged valid. -/
theorem GL_update_peaklist_energy_peak_witness :
    ((GL_update_peaklist Real.sqrt (some (test_line ℝ)) (curr_rqd ℝ)).peak 1).type
      = GL_PEAK_ENERGY ∧
    ((GL_update_peaklist Real.sqrt (some (test_line ℝ)) (curr_rqd ℝ)).peak 1).energy
      = ((curr_rqd ℝ).peak 1).energy ∧
    ((GL_update_peaklist Real.sqrt (some (test_line ℝ)) (curr_rqd ℝ)).peak 1).channel_valid
      = GL_TRUE ∧
    ∀ channel : ℝ,
      GL_e_to_chan Real.sqrt (test_line ℝ)
          ((GL_update_peaklist Real.sqrt (some (test_line ℝ)) (curr_rqd ℝ)).peak 1).energy
          channel
        = (GL_SUCCESS,
            ((GL_update_peaklist Real.sqrt (some (test_line ℝ)) (curr_rqd ℝ)).peak 1).channel) :=
  GL_update_peaklist_energy_peak Real.sqrt (test_line ℝ) (curr_rqd ℝ) 1 (by decide) (by decide)
    rfl (by norm_num [GL_e_to_chan, test_line])

/-- C9: for every non-NULL energy equation `ex`, after
`GL_update_peaklist(ex, peaks)` each peak of type `GL_PEAK_CHANNEL` among the
first `npeaks` has its channel as before, `energy` equal to
`GL_chan_to_e(ex, channel)`, `sige` equal to 0 and `energy_valid` true. -/
theorem GL_update_peaklist_channel_peak {F : Type} [LinearOrderedField F] (sqrt : F → F)
    (ex : GLEnergyEqn F) (peaks : GLPeakList F) (i : Int)
    (hi : 0 ≤ i) (hlt : i < peaks.npeaks)
    (hty : (peaks.peak i).type = GL_PEAK_CHANNEL) :
    ((GL_update_peaklist sqrt (some ex) peaks).peak i).type = GL_PEAK_CHANNEL ∧
    ((GL_update_peaklist sqrt (some ex) peaks).peak i).channel = (peaks.peak i).channel ∧
    ((GL_update_peaklist sqrt (some ex) peaks).peak i).energy
      = GL_chan_to_e ex ((GL_update_peaklist sqrt (some ex) peaks).peak i).channel ∧
    ((GL_update_peaklist sqrt (some ex) peaks).peak i).sige = 0 ∧
    ((GL_update_peaklist sqrt (some ex) peaks).peak i).energy_valid = GL_TRUE := by
  have hpk : (GL_update_peaklist sqrt (some ex) peaks).peak i
      = { peaks.peak i with
          energy := GL_chan_to_e ex (peaks.peak i).channel
          sige := 0
          energy_valid := GL_TRUE } := by
    simp only [GL_update_peaklist, for_each_peak_apply]
    rw [if_pos ⟨hi, hlt⟩]
    simp only [update_peak_with, hty]
  rw [hpk]
  exact ⟨hty, rfl, rfl, rfl, rfl⟩

/-- C9 at the two channel peaks of `fit_peaks` (1592.08 and 1600.88) and the
calibration line `e = -17 + 1.6 x`, for the peak at index 0. -/
theorem GL_update_peaklist_channel_peak_witness :
    ((GL_update_peaklist Real.sqrt (some (test_line ℝ)) (fit_peaks ℝ)).peak 0).type
      = GL_PEAK_CHANNEL ∧
    ((GL_update_peaklist Real.sqrt (some (test_line ℝ)) (fit_peaks ℝ)).peak 0).channel
      = ((fit_peaks ℝ).peak 0).channel ∧
    ((GL_update_peaklist Real.sqrt (some (test_line ℝ)) (fit_peaks ℝ)).peak 0).energy
      = GL_chan_to_e (test_line ℝ)
          ((GL_update_peaklist Real.sqrt (some (test_line ℝ)) (fit_peaks ℝ)).peak 0).channel ∧
    ((GL_update_peaklist Real.sqrt (some (test_line ℝ)) (fit_peaks ℝ)).peak 0).sige = 0 ∧
    ((GL_update_peaklist Real.sqrt (some (test_line ℝ)) (fit_peaks ℝ)).peak 0).energy_valid
      = GL_TRUE :=
  GL_update_peaklist_channel_peak Real.sqrt (test_line ℝ) (fit_peaks ℝ) 0 (by decide)
    (by decide) rfl

/-- C10: `GL_update_peaklist(NULL, peaks)` sets `energy_valid` to false on
every `GL_PEAK_CHANNEL` peak and `channel_valid` to false on every
`GL_PEAK_ENERGY` peak among the first `npeaks`, and computes nothing: every
`channel`, `energy` and `sige` value, every `type` and `fixed_centroid`, the
other validity flag of each peak, every entry outside the first `npeaks`,
and `npeaks` and `listlength` are left as they were. -/
theorem GL_update_peaklist_null {F : Type} [LinearOrderedField F] (sqrt : F → F)
    (peaks : GLPeakList F) :
    (GL_update_peaklist sqrt none peaks).npeaks = peaks.npeaks ∧
    (GL_update_peaklist sqrt none peaks).listlength = peaks.listlength ∧
    ∀ j : Int,
      ((GL_update_peaklist sqrt none peaks).peak j).type = (peaks.peak j).type ∧
      ((GL_update_peaklist sqrt none peaks).peak j).channel = (peaks.peak j).channel ∧
      ((GL_update_peaklist sqrt none peaks).peak j).energy = (peaks.peak j).energy ∧
      ((GL_update_peaklist sqrt none peaks).peak j).sige = (peaks.peak j).sige ∧
      ((GL_update_peaklist sqrt none peaks).peak j).fixed_centroid
        = (peaks.peak j).fixed_centroid ∧
      (0 ≤ j → j < peaks.npeaks → (peaks.peak j).type = GL_PEAK_CHANNEL →
        ((GL_update_peaklist sqrt none peaks).peak j).energy_valid = GL_FALSE ∧
        ((GL_update_peaklist sqrt none peaks).peak j).channel_valid
          = (peaks.peak j).channel_valid) ∧
      (0 ≤ j → j < peaks.npeaks → (peaks.peak j).type = GL_PEAK_ENERGY →
        ((GL_update_peaklist sqrt none peaks).peak j).channel_valid = GL_FALSE ∧
        ((GL_update_peaklist sqrt none peaks).peak j).energy_valid
          = (peaks.peak j).energy_valid) ∧
      (¬ (0 ≤ j ∧ j < peaks.npeaks) →
        (GL_update_peaklist sqrt none peaks).peak j = peaks.peak j) := by
  refine ⟨rfl, rfl, fun j => ?_⟩
  have hpk : (GL_update_peaklist sqrt none peaks).peak j
      = if 0 ≤ j ∧ j < peaks.npeaks then update_peak_without (peaks.peak j)
        else peaks.peak j := by
    simp only [GL_update_peaklist, for_each_peak_apply]
  rw [hpk]
  by_cases hr : 0 ≤ j ∧ j < peaks.npeaks
  · rw [if_pos hr]
    cases hty : (peaks.peak j).type with
    | GL_PEAK_CHANNEL =>
      have hb : update_peak_without (peaks.peak j)
          = { peaks.peak j with energy_valid := GL_FALSE } := by
        simp only [update_peak_without, hty]
      rw [hb]
      exact ⟨hty, rfl, rfl, rfl, rfl, fun _ _ _ => ⟨rfl, rfl⟩,
        fun _ _ h => GLPeakType.noConfusion h, fun h => absurd hr h⟩
    | GL_PEAK_ENERGY =>
      have hb : update_peak_without (peaks.peak j)
          = { peaks.peak j with channel_valid := GL_FALSE } := by
        simp only [update_peak_without, hty]
      rw [hb]
      exact ⟨hty, rfl, rfl, rfl, rfl, fun _ _ h => GLPeakType.noConfusion h,
        fun _ _ _ => ⟨rfl, rfl⟩, fun h => absurd hr h⟩
  · rw [if_neg hr]
    exact ⟨rfl, rfl, rfl, rfl, rfl, fun h0 h1 _ => absurd ⟨h0, h1⟩ hr,
      fun h0 h1 _ => absurd ⟨h0, h1⟩ hr, fun _ => rfl⟩

/-- C10 at `fit_peaks` (two channel peaks) and `curr_rqd` (two energy peaks):
the derived field of the peak at index 1 of each is flagged invalid, and the
entry at index 2, outside the first `npeaks`, is not written. -/
theorem GL_update_peaklist_null_witness :
    (((GL_update_peaklist Real.sqrt none (fit_peaks ℝ)).peak 1).energy_valid = GL_FALSE ∧
      ((GL_update_peaklist Real.sqrt none (fit_peaks ℝ)).peak 1).channel_valid
        = ((fit_peaks ℝ).peak 1).channel_valid) ∧
    (((GL_update_peaklist Real.sqrt none (curr_rqd ℝ)).peak 1).channel_valid = GL_FALSE ∧
      ((GL_update_peaklist Real.sqrt none (curr_rqd ℝ)).peak 1).energy_valid
        = ((curr_rqd ℝ).peak 1).energy_valid) ∧
    (GL_update_peaklist Real.sqrt none (curr_rqd ℝ)).peak 2 = (curr_rqd ℝ).peak 2 :=
  ⟨((GL_update_peaklist_null Real.sqrt (fit_peaks ℝ)).2.2 1).2.2.2.2.2.1 (by decide) (by decide)
      rfl,
    ((GL_update_peaklist_null Real.sqrt (curr_rqd ℝ)).2.2 1).2.2.2.2.2.2.1 (by decide)
      (by decide) rfl,
    ((GL_update_peaklist_null Real.sqrt (curr_rqd ℝ)).2.2 2).2.2.2.2.2.2.2 (by decide)⟩

/-! ## Peak lists: invariant and append -/

/-- The loop of `GL_get_regnpks` keeps `listlength`, and keeps
`0 <= npeaks <= listlength` once it holds. -/
theorem get_regnpks_loop_invariant {F : Type} [LinearOrderedField F] (region : GLChanRange)
    (peaks : GLPeakList F) (is : List Nat) :
    ∀ out : GLPeakList F, 0 ≤ out.npeaks → out.npeaks ≤ out.listlength →
      0 ≤ (get_regnpks_loop region peaks is out).2.npeaks ∧
      (get_regnpks_loop region peaks is out).2.npeaks
        ≤ (get_regnpks_loop region peaks is out).2.listlength := by
  induction is with
  | nil =>
    intro out h0 h1
    exact ⟨h0, h1⟩
  | cons i rest ih =>
    intro out h0 h1
    unfold get_regnpks_loop
    by_cases hin : in_region region (peaks.peak (i : Int)) = true
    · rw [if_pos hin]
      by_cases hfull : out.npeaks + 1 > out.listlength
      · have hadd : GL_add_peak (peaks.peak (i : Int)) out = (GL_OVRLMT, out) := by
          simp only [GL_add_peak, if_pos hfull]
        rw [hadd, if_pos rfl]
        exact ⟨h0, h1⟩
      · have hcode : (GL_add_peak (peaks.peak (i : Int)) out).1 = GL_SUCCESS := by
          simp only [GL_add_peak, if_neg hfull]
        have hn : (GL_add_peak (peaks.peak (i : Int)) out).2.npeaks = out.npeaks + 1 := by
          simp only [GL_add_peak, if_neg hfull]
        have hl : (GL_add_peak (peaks.peak (i : Int)) out).2.listlength = out.listlength := by
          simp only [GL_add_peak, if_neg hfull]
        have hne : ¬ (GL_add_peak (peaks.peak (i : Int)) out).1 = GL_OVRLMT := by
          rw [hcode]
          exact fun h => GLRtnCode.noConfusion h
        rw [if_neg hne]
        exact ih _ (by rw [hn]; omega) (by rw [hn, hl]; omega)
    · rw [if_neg hin]
      exact ih out h0 h1

/-- C11: the invariant `0 <= npeaks <= listlength` of a peak list is preserved
by `GL_add_chanpeak`, `GL_add_egypeak`, `GL_add_peak` and `GL_update_peaklist`
(with or without an equation) whatever the code returned, and it holds for the
output list of `GL_get_regnpks` after the call whenever that list satisfied it
before the call. -/
theorem GLPeakList_invariant_preserved {F : Type} [LinearOrderedField F] (sqrt : F → F)
    (peaks : GLPeakList F) (h0 : 0 ≤ peaks.npeaks) (h1 : peaks.npeaks ≤ peaks.listlength)
    (channel energy sige : F) (peak : GLPeak F) (ex : Option (GLEnergyEqn F))
    (region : GLChanRange) (input : GLPeakList F) :
    (0 ≤ (GL_add_chanpeak channel peaks).2.npeaks ∧
      (GL_add_chanpeak channel peaks).2.npeaks ≤ (GL_add_chanpeak channel peaks).2.listlength) ∧
    (0 ≤ (GL_add_egypeak energy sige peaks).2.npeaks ∧
      (GL_add_egypeak energy sige peaks).2.npeaks
        ≤ (GL_add_egypeak energy sige peaks).2.listlength) ∧
    (0 ≤ (GL_add_peak peak peaks).2.npeaks ∧
      (GL_add_peak peak peaks).2.npeaks ≤ (GL_add_peak peak peaks).2.listlength) ∧
    (0 ≤ (GL_update_peaklist sqrt ex peaks).npeaks ∧
      (GL_update_peaklist sqrt ex peaks).npeaks ≤ (GL_update_peaklist sqrt ex peaks).listlength) ∧
    (0 ≤ (GL_get_regnpks region input peaks).2.npeaks ∧
      (GL_get_regnpks region input peaks).2.npeaks
        ≤ (GL_get_regnpks region input peaks).2.listlength) := by
  refine ⟨?_, ?_, ?_, ?_, ?_⟩
  · by_cases hfull : peaks.npeaks + 1 > peaks.listlength
    · simp only [GL_add_chanpeak, if_pos hfull]
      exact ⟨h0, h1⟩
    · simp only [GL_add_chanpeak, if_neg hfull]
      constructor <;> omega
  · by_cases hfull : peaks.npeaks + 1 > peaks.listlength
    · simp only [GL_add_egypeak, if_pos hfull]
      exact ⟨h0, h1⟩
    · simp only [GL_add_egypeak, if_neg hfull]
      constructor <;> omega
  · by_cases hfull : peaks.npeaks + 1 > peaks.listlength
    · simp only [GL_add_peak, if_pos hfull]
      exact ⟨h0, h1⟩
    · simp only [GL_add_peak, if_neg hfull]
      constructor <;> omega
  · cases ex with
    | none => exact ⟨h0, h1⟩
    | some e => exact ⟨h0, h1⟩
  · unfold GL_get_regnpks
    by_cases hl : peaks.listlength ≤ 0
    · rw [if_pos hl]
      exact ⟨h0, h1⟩
    · rw [if_neg hl]
      exact get_regnpks_loop_invariant region input _ { peaks with npeaks := 0 }
        (le_refl _) (by show (0 : Int) ≤ peaks.listlength; omega)

/-- C11 at the full list `fit_peaks` (two of two entries in use), with
`curr_rqd` as the list searched by `GL_get_regnpks`. -/
theorem GLPeakList_invariant_preserved_witness :
    (0 ≤ (fit_peaks ℝ).npeaks ∧ (fit_peaks ℝ).npeaks ≤ (fit_peaks ℝ).listlength) ∧
    (0 ≤ (GL_add_chanpeak 1 (fit_peaks ℝ)).2.npeaks ∧
      (GL_add_chanpeak 1 (fit_peaks ℝ)).2.npeaks
        ≤ (GL_add_chanpeak 1 (fit_peaks ℝ)).2.listlength) ∧
    (0 ≤ (GL_get_regnpks ⟨0, 8191⟩ (curr_rqd ℝ) (fit_peaks ℝ)).2.npeaks ∧
      (GL_get_regnpks ⟨0, 8191⟩ (curr_rqd ℝ) (fit_peaks ℝ)).2.npeaks
        ≤ (GL_get_regnpks ⟨0, 8191⟩ (curr_rqd ℝ) (fit_peaks ℝ)).2.listlength) :=
  have h := GLPeakList_invariant_preserved Real.sqrt (fit_peaks ℝ) (by decide) (by decide)
    1 511 0 (calloc_peaks ℝ 0) (some (test_line ℝ)) ⟨0, 8191⟩ (curr_rqd ℝ)
  ⟨⟨by decide, by decide⟩, h.1, h.2.2.2.2⟩

/-- C12: on a list with `npeaks < listlength`, `GL_add_chanpeak` and
`GL_add_egypeak` append exactly one peak: `npeaks` grows by one, `listlength`
stays, every entry other than the one at the old `npeaks` (in particular
those below it) is unchanged, and the new last peak is, for
`GL_add_chanpeak(channel)`, of type `GL_PEAK_CHANNEL` with `channel_valid`
true, that channel, `energy_valid` false and `fixed_centroid` false, and, for
`GL_add_egypeak(energy, sige)`, of type `GL_PEAK_ENERGY` with `energy_valid`
true, that energy and sige, `channel_valid` false and `fixed_centroid`
true. -/
theorem GL_add_appends_one {F : Type} (peaks : GLPeakList F) (channel energy sige : F)
    (hroom : peaks.npeaks < peaks.listlength) :
    ((GL_add_chanpeak channel peaks).1 = GL_SUCCESS ∧
      (GL_add_chanpeak channel peaks).2.npeaks = peaks.npeaks + 1 ∧
      (GL_add_chanpeak channel peaks).2.listlength = peaks.listlength ∧
      (∀ j : Int, j ≠ peaks.npeaks →
        (GL_add_chanpeak channel peaks).2.peak j = peaks.peak j) ∧
      ((GL_add_chanpeak channel peaks).2.peak peaks.npeaks).type = GL_PEAK_CHANNEL ∧
      ((GL_add_chanpeak channel peaks).2.peak peaks.npeaks).channel_valid = GL_TRUE ∧
      ((GL_add_chanpeak channel peaks).2.peak peaks.npeaks).channel = channel ∧
      ((GL_add_chanpeak channel peaks).2.peak peaks.npeaks).energy_valid = GL_FALSE ∧
      ((GL_add_chanpeak channel peaks).2.peak peaks.npeaks).fixed_centroid = GL_FALSE) ∧
    ((GL_add_egypeak energy sige peaks).1 = GL_SUCCESS ∧
      (GL_add_egypeak energy sige peaks).2.npeaks = peaks.npeaks + 1 ∧
      (GL_add_egypeak energy sige peaks).2.listlength = peaks.listlength ∧
      (∀ j : Int, j ≠ peaks.npeaks →
        (GL_add_egypeak energy sige peaks).2.peak j = peaks.peak j) ∧
      ((GL_add_egypeak energy sige peaks).2.peak peaks.npeaks).type = GL_PEAK_ENERGY ∧
      ((GL_add_egypeak energy sige peaks).2.peak peaks.npeaks).energy_valid = GL_TRUE ∧
      ((GL_add_egypeak energy sige peaks).2.peak peaks.npeaks).energy = energy ∧
      ((GL_add_egypeak energy sige peaks).2.peak peaks.npeaks).sige = sige ∧
      ((GL_add_egypeak energy sige peaks).2.peak peaks.npeaks).channel_valid = GL_FALSE ∧
      ((GL_add_egypeak energy sige peaks).2.peak peaks.npeaks).fixed_centroid = GL_TRUE) := by
  have hfull : ¬ (peaks.npeaks + 1 > peaks.listlength) := by omega
  constructor
  · simp only [GL_add_chanpeak, if_neg hfull, Function.update_same, true_and, and_true]
    intro j hj
    exact Function.update_noteq hj _ _
  · simp only [GL_add_egypeak, if_neg hfull, Function.update_same, true_and, and_true]
    intro j hj
    exact Function.update_noteq hj _ _

/-- C12 at the first add of `main`, `GL_add_chanpeak(1592.08, fit_peaks)` on
the empty two-entry list, and `GL_add_egypeak(400, 0, ...)` on the same. -/
theorem GL_add_appends_one_witness :
    (fit_peaks_empty ℚ).npeaks < (fit_peaks_empty ℚ).listlength ∧
    (GL_add_chanpeak 1592.08 (fit_peaks_empty ℚ)).2.npeaks = (fit_peaks_empty ℚ).npeaks + 1 ∧
    ((GL_add_chanpeak 1592.08 (fit_peaks_empty ℚ)).2.peak (fit_peaks_empty ℚ).npeaks).channel
      = 1592.08 ∧
    ((GL_add_egypeak 400 0 (fit_peaks_empty ℚ)).2.peak (fit_peaks_empty ℚ).npeaks).energy
      = 400 ∧
    ((GL_add_egypeak 400 0 (fit_peaks_empty ℚ)).2.peak
      (fit_peaks_empty ℚ).npeaks).fixed_centroid = GL_TRUE :=
  have h := GL_add_appends_one (fit_peaks_empty ℚ) 1592.08 400 0 (by decide)
  ⟨by decide, h.1.2.1, h.1.2.2.2.2.2.2.1, h.2.2.2.2.2.2.2.1, h.2.2.2.2.2.2.2.2.2.2⟩

/-! ## Peaks within a region -/

/-- With room left, `GL_add_peak` stores a field-for-field copy of `peak` at
index `npeaks` and increments `npeaks`. -/
theorem GL_add_peak_room {F : Type} (peak : GLPeak F) (peaks : GLPeakList F)
    (hroom : ¬ (peaks.npeaks + 1 > peaks.listlength)) :
    GL_add_peak peak peaks
      = (GL_SUCCESS,
          { peaks with
            peak := Function.update peaks.peak peaks.npeaks peak
            npeaks := peaks.npeaks + 1 }) := by
  simp only [GL_add_peak, if_neg hroom]

/-- What the loop of `GL_get_regnpks` does to the output list `out`, in terms
of the list `ms` of visited peaks that pass the region test: it appends them
in order after the `npeaks` entries of `out` until `out` is full; the code is
`GL_SUCCESS` if they all fit and `GL_OVRLMT` otherwise. -/
theorem get_regnpks_loop_spec {F : Type} [LinearOrderedField F] (region : GLChanRange)
    (peaks : GLPeakList F) (is : List Nat) :
    ∀ out : GLPeakList F, out.npeaks ≤ out.listlength →
      (get_regnpks_loop region peaks is out).2.listlength = out.listlength ∧
      (out.npeaks + (((is.map (fun (i : Nat) => peaks.peak (i : Int))).filter
          (in_region region)).length : Int) ≤ out.listlength →
        (get_regnpks_loop region peaks is out).1 = GL_SUCCESS ∧
        (get_regnpks_loop region peaks is out).2.npeaks
          = out.npeaks + (((is.map (fun (i : Nat) => peaks.peak (i : Int))).filter
              (in_region region)).length : Int)) ∧
      (out.listlength < out.npeaks + (((is.map (fun (i : Nat) => peaks.peak (i : Int))).filter
          (in_region region)).length : Int) →
        (get_regnpks_loop region peaks is out).1 = GL_OVRLMT ∧
        (get_regnpks_loop region peaks is out).2.npeaks = out.listlength) ∧
      (∀ (k : Nat) (p : GLPeak F),
        out.npeaks + (k : Int) < (get_regnpks_loop region peaks is out).2.npeaks →
        ((is.map (fun (i : Nat) => peaks.peak (i : Int))).filter (in_region region))[k]? = some p →
        (get_regnpks_loop region peaks is out).2.peak (out.npeaks + (k : Int)) = p) ∧
      (∀ j : Int, (j < out.npeaks ∨ (get_regnpks_loop region peaks is out).2.npeaks ≤ j) →
        (get_regnpks_loop region peaks is out).2.peak j = out.peak j) := by
  induction is with
  | nil =>
    intro out hle
    simp only [get_regnpks_loop, List.map_nil, List.filter_nil, List.length_nil, Nat.cast_zero,
      add_zero, true_and, implies_true, and_true]
    refine ⟨fun h => absurd h (by omega), fun k p hk => absurd hk (by omega)⟩
  | cons i rest ih =>
    intro out hle
    by_cases hin : in_region region (peaks.peak (i : Int)) = true
    · have hms : ((List.map (fun (i : Nat) => peaks.peak (i : Int)) (i :: rest)).filter
          (in_region region))
          = peaks.peak (i : Int) :: ((List.map (fun (i : Nat) => peaks.peak (i : Int)) rest).filter
              (in_region region)) := by
        rw [List.map_cons, List.filter_cons_of_pos hin]
      rw [hms]
      by_cases hfull : out.npeaks + 1 > out.listlength
      · have hr : get_regnpks_loop region peaks (i :: rest) out = (GL_OVRLMT, out) := by
          have hadd : GL_add_peak (peaks.peak (i : Int)) out = (GL_OVRLMT, out) := by
            simp only [GL_add_peak, if_pos hfull]
          simp only [get_regnpks_loop, if_pos hin, hadd, if_true]
        rw [hr]
        refine ⟨rfl, fun h => ?_, fun _ => ⟨rfl, ?_⟩, fun k p hk => ?_, fun _ _ => rfl⟩
        · rw [List.length_cons] at h
          push_cast at h
          omega
        · show out.npeaks = out.listlength
          omega
        · have hk2 : out.npeaks + (k : Int) < out.npeaks := hk
          omega
      · have hadd := GL_add_peak_room (peaks.peak (i : Int)) out hfull
        have hr : get_regnpks_loop region peaks (i :: rest) out
            = get_regnpks_loop region peaks rest
                { out with
                  peak := Function.update out.peak out.npeaks (peaks.peak (i : Int))
                  npeaks := out.npeaks + 1 } := by
          have hne : ¬ (GL_SUCCESS = GL_OVRLMT) := fun h => GLRtnCode.noConfusion h
          simp only [get_regnpks_loop, if_pos hin, hadd, if_neg hne]
        rw [hr]
        have ih1 := ih { out with
            peak := Function.update out.peak out.npeaks (peaks.peak (i : Int))
            npeaks := out.npeaks + 1 } (by show out.npeaks + 1 ≤ out.listlength; omega)
        obtain ⟨hA, hB, hC, hD, hE⟩ := ih1
        simp only [List.length_cons, Nat.cast_add, Nat.cast_one]
        refine ⟨hA, fun h => ?_, fun h => ?_, fun k p hk hp => ?_, fun j hj => ?_⟩
        · have := hB (by show out.npeaks + 1 + _ ≤ out.listlength; omega)
          refine ⟨this.1, ?_⟩
          rw [this.2]
          show out.npeaks + 1 + _ = _
          omega
        · have := hC (by show out.listlength < out.npeaks + 1 + _; omega)
          exact this
        · cases k with
          | zero =>
            simp only [List.getElem?_cons_zero, Option.some.injEq] at hp
            subst hp
            have h1 := hE out.npeaks (Or.inl (by show out.npeaks < out.npeaks + 1; omega))
            simp only [Nat.cast_zero, add_zero]
            rw [h1]
            exact Function.update_same _ _ _
          | succ k =>
            simp only [List.getElem?_cons_succ] at hp
            have h1 := hD k p (by
              show out.npeaks + 1 + (k : Int) < _
              have : out.npeaks + ((k + 1 : Nat) : Int) = out.npeaks + 1 + (k : Int) := by
                push_cast
                ring
              rw [← this]
              exact hk) hp
            have h2 : out.npeaks + ((k + 1 : Nat) : Int) = out.npeaks + 1 + (k : Int) := by
              push_cast
              ring
            rw [h2]
            exact h1
        · have hmono : out.npeaks + 1 ≤ (get_regnpks_loop region peaks rest
              { out with
                peak := Function.update out.peak out.npeaks (peaks.peak (i : Int))
                npeaks := out.npeaks + 1 }).2.npeaks := by
            by_cases hfit : out.npeaks + 1 + (((rest.map (fun (i : Nat) => peaks.peak (i : Int))).filter
                (in_region region)).length : Int) ≤ out.listlength
            · rw [(hB hfit).2]
              show out.npeaks + 1 ≤ out.npeaks + 1 + _
              omega
            · rw [(hC (by show out.listlength < out.npeaks + 1 + _; omega)).2]
              show out.npeaks + 1 ≤ out.listlength
              omega
          have hjne : j ≠ out.npeaks := by
            rcases hj with h | h <;> omega
          have h1 := hE j (by
            rcases hj with h | h
            · exact Or.inl (by show j < out.npeaks + 1; omega)
            · exact Or.inr h)
          rw [h1]
          exact Function.update_noteq hjne _ _
    · have hms : ((List.map (fun (i : Nat) => peaks.peak (i : Int)) (i :: rest)).filter
          (in_region region))
          = ((List.map (fun (i : Nat) => peaks.peak (i : Int)) rest).filter
              (in_region region)) := by
        rw [List.map_cons, List.filter_cons_of_neg hin]
      have hr : get_regnpks_loop region peaks (i :: rest) out
          = get_regnpks_loop region peaks rest out := by
        simp only [get_regnpks_loop, if_neg hin]
      rw [hms, hr]
      exact ih out hle

/-- A list whose first `n` entries are the first `n` elements of `ms` has
`ms.take n` as its peaks in use. -/
theorem toList_eq_take {F : Type} (r : GLPeakList F) (ms : List (GLPeak F)) (n : Nat)
    (hn : r.npeaks = (n : Int)) (hlen : n ≤ ms.length)
    (hpk : ∀ (k : Nat) (p : GLPeak F), k < n → ms[k]? = some p → r.peak (k : Int) = p) :
    r.toList = ms.take n := by
  unfold GLPeakList.toList
  have hnat : r.npeaks.toNat = n := by omega
  rw [hnat]
  apply List.ext_getElem?
  intro k
  by_cases hk : k < n
  · have hk2 : k < ms.length := by omega
    rw [List.getElem?_map, List.getElem?_range hk, List.getElem?_take_of_lt hk,
      List.getElem?_eq_getElem hk2]
    simp only [Option.map_some']
    rw [hpk k ms[k] hk (List.getElem?_eq_getElem hk2)]
  · have h1 : ((List.range n).map (fun (i : Nat) => r.peak (i : Int))).length ≤ k := by
      rw [List.length_map, List.length_range]
      omega
    have h2 : (ms.take n).length ≤ k := by
      rw [List.length_take]
      omega
    rw [List.getElem?_eq_none h1, List.getElem?_eq_none h2]

/-- The region test of `GL_get_regnpks`, spelled out. -/
theorem in_region_eq {F : Type} [LinearOrderedField F] (region : GLChanRange) :
    (in_region region : GLPeak F → Bool)
      = fun p => decide (p.channel_valid = GL_TRUE ∧ (region.first : F) ≤ p.channel ∧
          p.channel ≤ (region.last : F)) := by
  funext p
  rfl

/-- C13: whenever `GL_get_regnpks` returns `GL_SUCCESS`, the peaks in use of
`pks_in_rgn` are exactly the peaks of the input list (among its first
`npeaks`) that have `channel_valid` true and
`region.first <= channel <= region.last`, in input order, each equal field for
field to the input peak; so every peak of the answer has a valid channel
inside the region. -/
theorem GL_get_regnpks_success {F : Type} [LinearOrderedField F] (region : GLChanRange)
    (peaks pks_in_rgn : GLPeakList F)
    (hok : (GL_get_regnpks region peaks pks_in_rgn).1 = GL_SUCCESS) :
    (GL_get_regnpks region peaks pks_in_rgn).2.toList
      = peaks.toList.filter (fun p => decide (p.channel_valid = GL_TRUE ∧
          (region.first : F) ≤ p.channel ∧ p.channel ≤ (region.last : F))) ∧
    ∀ p ∈ (GL_get_regnpks region peaks pks_in_rgn).2.toList,
      p.channel_valid = GL_TRUE ∧ (region.first : F) ≤ p.channel ∧
        p.channel ≤ (region.last : F) := by
  have hlist : (GL_get_regnpks region peaks pks_in_rgn).2.toList
      = peaks.toList.filter (fun p => decide (p.channel_valid = GL_TRUE ∧
          (region.first : F) ≤ p.channel ∧ p.channel ≤ (region.last : F))) := by
    rw [← in_region_eq]
    unfold GL_get_regnpks at hok ⊢
    by_cases hl : pks_in_rgn.listlength ≤ 0
    · rw [if_pos hl] at hok
      exact GLRtnCode.noConfusion hok
    · rw [if_neg hl] at hok ⊢
      obtain ⟨_, hB, hC, hD, _⟩ := get_regnpks_loop_spec region peaks
        (List.range peaks.npeaks.toNat) { pks_in_rgn with npeaks := 0 }
        (by show (0 : Int) ≤ pks_in_rgn.listlength; omega)
      have hfit : ¬ (pks_in_rgn.listlength < 0 + ((((List.range peaks.npeaks.toNat).map
          (fun (i : Nat) => peaks.peak (i : Int))).filter (in_region region)).length : Int)) := by
        intro hover
        have h := (hC hover).1
        rw [hok] at h
        exact GLRtnCode.noConfusion h
      have hnp := (hB (by
        show 0 + _ ≤ pks_in_rgn.listlength
        have hfit2 := hfit
        omega)).2
      have htake := toList_eq_take _ (((List.range peaks.npeaks.toNat).map
          (fun (i : Nat) => peaks.peak (i : Int))).filter (in_region region)) _
        (by rw [hnp]; show 0 + _ = _; omega) (le_refl _)
        (fun k p hk hp => by
          have h := hD k p (by
            rw [hnp]
            show 0 + (k : Int) < 0 + _
            omega) hp
          have h0 : (0 : Int) + (k : Int) = (k : Int) := by omega
          have h1 : ({ pks_in_rgn with npeaks := 0 } : GLPeakList F).npeaks + (k : Int)
              = (k : Int) := h0
          rw [h1] at h
          exact h)
      rw [htake, List.take_length]
      rfl
  refine ⟨hlist, fun p hp => ?_⟩
  rw [hlist, List.mem_filter] at hp
  exact of_decide_eq_true hp.2

/-- C13 at `fit_peaks` (channels 1592.08 and 1600.88) and the fit region
1579..1610 of `main`, with a ten-entry output list. -/
theorem GL_get_regnpks_success_witness :
    (GL_get_regnpks ⟨1579, 1610⟩ (fit_peaks ℚ)
      { listlength := 10, npeaks := 0, peak := calloc_peaks ℚ }).2.toList
      = (fit_peaks ℚ).toList.filter (fun p => decide (p.channel_valid = GL_TRUE ∧
          ((1579 : Int) : ℚ) ≤ p.channel ∧ p.channel ≤ ((1610 : Int) : ℚ))) :=
  (GL_get_regnpks_success ⟨1579, 1610⟩ (fit_peaks ℚ)
    { listlength := 10, npeaks := 0, peak := calloc_peaks ℚ } (by
      simp [GL_get_regnpks, get_regnpks_loop, in_region, fit_peaks, fit_peaks_empty,
        GL_add_chanpeak, GL_add_peak, List.range_succ, Function.update]
      norm_num)).1

/-- C14, the claim refuted: with an output list of capacity 0 and an input
list without any peak, no peak lies in the region, so their number (0) does
not exceed `listlength` (0); `GL_get_regnpks` returns `GL_OVRLMT` all the
same, because of its guard `listlength <= 0`. -/
theorem GL_get_regnpks_zero_capacity :
    ¬ (({ listlength := 0, npeaks := 0, peak := calloc_peaks ℚ } : GLPeakList ℚ).listlength
        < (((fit_peaks_empty ℚ).toList.filter (fun p => decide (p.channel_valid = GL_TRUE ∧
            ((1579 : Int) : ℚ) ≤ p.channel ∧ p.channel ≤ ((1610 : Int) : ℚ)))).length : Int)) ∧
    (GL_get_regnpks ⟨1579, 1610⟩ (fit_peaks_empty ℚ)
      { listlength := 0, npeaks := 0, peak := calloc_peaks ℚ }).1 = GL_OVRLMT := by
  constructor
  · decide
  · rfl

/-- C14 as amended: `GL_get_regnpks` returns `GL_OVRLMT` exactly when
`pks_in_rgn->listlength <= 0` or more peaks lie in the region than
`pks_in_rgn` can hold (their number exceeds `listlength`). With
`listlength <= 0` the list `pks_in_rgn` is left as it was; with
`listlength > 0` and too many peaks it contains the in-region peaks found up
to the limit, the first `listlength` of them in input order, with
`npeaks == listlength`. In every other case the code is `GL_SUCCESS`. -/
theorem GL_get_regnpks_overflow {F : Type} [LinearOrderedField F] (region : GLChanRange)
    (peaks pks_in_rgn : GLPeakList F) :
    ((GL_get_regnpks region peaks pks_in_rgn).1 = GL_OVRLMT ↔
      (pks_in_rgn.listlength ≤ 0 ∨
        pks_in_rgn.listlength < ((peaks.toList.filter (fun p => decide
          (p.channel_valid = GL_TRUE ∧ (region.first : F) ≤ p.channel ∧
            p.channel ≤ (region.last : F)))).length : Int))) ∧
    (pks_in_rgn.listlength ≤ 0 →
      (GL_get_regnpks region peaks pks_in_rgn).2 = pks_in_rgn) ∧
    (0 < pks_in_rgn.listlength →
      pks_in_rgn.listlength < ((peaks.toList.filter (fun p => decide
        (p.channel_valid = GL_TRUE ∧ (region.first : F) ≤ p.channel ∧
          p.channel ≤ (region.last : F)))).length : Int) →
      (GL_get_regnpks region peaks pks_in_rgn).2.npeaks = pks_in_rgn.listlength ∧
      (GL_get_regnpks region peaks pks_in_rgn).2.toList
        = (peaks.toList.filter (fun p => decide (p.channel_valid = GL_TRUE ∧
            (region.first : F) ≤ p.channel ∧ p.channel ≤ (region.last : F)))).take
            pks_in_rgn.listlength.toNat) ∧
    ((GL_get_regnpks region peaks pks_in_rgn).1 ≠ GL_OVRLMT →
      (GL_get_regnpks region peaks pks_in_rgn).1 = GL_SUCCESS) := by
  rw [← in_region_eq]
  by_cases hl : pks_in_rgn.listlength ≤ 0
  · have hr : GL_get_regnpks region peaks pks_in_rgn = (GL_OVRLMT, pks_in_rgn) := by
      simp only [GL_get_regnpks, if_pos hl]
    rw [hr]
    exact ⟨⟨fun _ => Or.inl hl, fun _ => rfl⟩, fun _ => rfl, fun h => absurd h (by omega),
      fun h => absurd rfl h⟩
  · have hr : GL_get_regnpks region peaks pks_in_rgn
        = get_regnpks_loop region peaks (List.range peaks.npeaks.toNat)
            { pks_in_rgn with npeaks := 0 } := by
      simp only [GL_get_regnpks, if_neg hl]
    rw [hr]
    obtain ⟨_, hB, hC, hD, _⟩ := get_regnpks_loop_spec region peaks
      (List.range peaks.npeaks.toNat) { pks_in_rgn with npeaks := 0 }
      (by show (0 : Int) ≤ pks_in_rgn.listlength; omega)
    have hB2 : (peaks.toList.filter (in_region region)).length ≤ pks_in_rgn.listlength →
        (get_regnpks_loop region peaks (List.range peaks.npeaks.toNat)
          { pks_in_rgn with npeaks := 0 }).1 = GL_SUCCESS := fun h =>
      (hB (by show (0 : Int) + _ ≤ pks_in_rgn.listlength; rw [zero_add]; exact h)).1
    have hC2 : pks_in_rgn.listlength < (peaks.toList.filter (in_region region)).length →
        (get_regnpks_loop region peaks (List.range peaks.npeaks.toNat)
          { pks_in_rgn with npeaks := 0 }).1 = GL_OVRLMT ∧
        (get_regnpks_loop region peaks (List.range peaks.npeaks.toNat)
          { pks_in_rgn with npeaks := 0 }).2.npeaks = pks_in_rgn.listlength := fun h =>
      hC (by show pks_in_rgn.listlength < (0 : Int) + _; rw [zero_add]; exact h)
    refine ⟨⟨fun hov => Or.inr ?_, fun h => ?_⟩, fun h => absurd h hl, fun _ hover => ?_,
      fun hne => ?_⟩
    · by_contra hfit
      have h := hB2 (not_lt.mp hfit)
      rw [hov] at h
      exact GLRtnCode.noConfusion h
    · rcases h with h | h
      · exact absurd h hl
      · exact (hC2 h).1
    · refine ⟨(hC2 hover).2, ?_⟩
      apply toList_eq_take
      · rw [(hC2 hover).2]
        omega
      · have h2 : (pks_in_rgn.listlength.toNat : Int)
            < ((peaks.toList.filter (in_region region)).length : Int) := by omega
        omega
      · intro k p hk hp
        have h := hD k p (by
          rw [(hC2 hover).2]
          show (0 : Int) + (k : Int) < pks_in_rgn.listlength
          omega) hp
        have h1 : ({ pks_in_rgn with npeaks := 0 } : GLPeakList F).npeaks + (k : Int)
            = (k : Int) := by
          show (0 : Int) + (k : Int) = (k : Int)
          omega
        rw [h1] at h
        exact h
    · by_cases hfit : (peaks.toList.filter (in_region region)).length ≤ pks_in_rgn.listlength
      · exact hB2 hfit
      · exact absurd (hC2 (not_le.mp hfit)).1 hne

/-- C14 as amended, at `fit_peaks` (both channels inside 1579..1610) and an
output list with one entry: the call overflows and keeps the first peak. -/
theorem GL_get_regnpks_overflow_witness :
    (GL_get_regnpks ⟨1579, 1610⟩ (fit_peaks ℚ)
      { listlength := 1, npeaks := 0, peak := calloc_peaks ℚ }).1 = GL_OVRLMT ∧
    (GL_get_regnpks ⟨1579, 1610⟩ (fit_peaks ℚ)
      { listlength := 1, npeaks := 0, peak := calloc_peaks ℚ }).2.npeaks = 1 ∧
    (GL_get_regnpks ⟨1579, 1610⟩ (fit_peaks ℚ)
      { listlength := 1, npeaks := 0, peak := calloc_peaks ℚ }).2.toList
      = ((fit_peaks ℚ).toList.filter (fun p => decide (p.channel_valid = GL_TRUE ∧
          ((1579 : Int) : ℚ) ≤ p.channel ∧ p.channel ≤ ((1610 : Int) : ℚ)))).take 1 :=
  have hcount : (1 : Int) < (((fit_peaks ℚ).toList.filter (fun p => decide
      (p.channel_valid = GL_TRUE ∧ ((1579 : Int) : ℚ) ≤ p.channel ∧
        p.channel ≤ ((1610 : Int) : ℚ)))).length : Int) := by
    simp [GLPeakList.toList, fit_peaks, fit_peaks_empty, GL_add_chanpeak, List.range_succ,
      Function.update]
    norm_num
  have h := GL_get_regnpks_overflow ⟨1579, 1610⟩ (fit_peaks ℚ)
    { listlength := 1, npeaks := 0, peak := calloc_peaks ℚ }
  ⟨h.1.2 (Or.inr hcount), (h.2.2.1 (by decide) hcount).1, (h.2.2.1 (by decide) hcount).2⟩

/-! ## Decoding the results of a peak search -/

/-- `set_search_peak` returns `GL_SUCCESS` or `GL_JNIERROR`. -/
theorem set_search_peak_code {F : Type} [LinearOrderedField F] (sp : JSearchPeak F) (i : Int)
    (r : GLPeakSearchResults F) :
    (set_search_peak sp i r).1 = GL_SUCCESS ∨ (set_search_peak sp i r).1 = GL_JNIERROR := by
  unfold set_search_peak
  cases hreg : sp.getRefineRegion with
  | none => exact Or.inr rfl
  | some jr =>
    cases hl : jr.lookups_found with
    | true => simp [GAP_set_chanrange, hl]
    | false => simp [GAP_set_chanrange, hl]

/-- When `set_search_peak` returns `GL_SUCCESS` the search peak has a refine
region, and entry `index` of the peak list and of the refinements hold the
decoded search peak; nothing else is written. -/
theorem set_search_peak_success {F : Type} [LinearOrderedField F] (sp : JSearchPeak F)
    (i : Int) (r : GLPeakSearchResults F) (hok : (set_search_peak sp i r).1 = GL_SUCCESS) :
    ∃ jr : JChannelRange, sp.getRefineRegion = some jr ∧
      (set_search_peak sp i r).2
        = { r with
            refinements := Function.update r.refinements i (decoded_refinement sp jr)
            peaklist :=
              { r.peaklist with
                peak := Function.update r.peaklist.peak i (decoded_peak sp) } } := by
  unfold set_search_peak at hok ⊢
  cases hreg : sp.getRefineRegion with
  | none =>
    rw [hreg] at hok
    exact GLRtnCode.noConfusion hok
  | some jr =>
    rw [hreg] at hok
    refine ⟨jr, rfl, ?_⟩
    cases hl : jr.lookups_found with
    | false =>
      simp [GAP_set_chanrange, hl] at hok
    | true =>
      cases hu : sp.useRefinement <;>
        simp [GAP_set_chanrange, hl, hu, decoded_refinement, decoded_peak, Function.update_idem]

/-- The decoding loop of `set_peak_results` returns `GL_SUCCESS` or
`GL_JNIERROR`. -/
theorem set_peak_results_loop_code {F : Type} [LinearOrderedField F]
    (cs : List (JSearchPeak F)) :
    ∀ (i : Int) (r : GLPeakSearchResults F),
      (set_peak_results_loop cs i r).1 = GL_SUCCESS ∨
        (set_peak_results_loop cs i r).1 = GL_JNIERROR := by
  induction cs with
  | nil =>
    intro i r
    exact Or.inl rfl
  | cons sp rest ih =>
    intro i r
    unfold set_peak_results_loop
    by_cases hne : (set_search_peak sp i r).1 ≠ GL_SUCCESS
    · rw [if_pos hne]
      exact set_search_peak_code sp i r
    · rw [if_neg hne]
      exact ih _ _

/-- When the decoding loop of `set_peak_results` returns `GL_SUCCESS` on the
search peaks `cs`, started at index `i0`: `npeaks` has grown by their number,
entry `i0 + k` of the peak list and of the refinements holds the decoded
`k`-th search peak, and every other entry, the capacities and the
cross-correlations are as before. -/
theorem set_peak_results_loop_spec {F : Type} [LinearOrderedField F]
    (cs : List (JSearchPeak F)) :
    ∀ (i0 : Int) (r0 : GLPeakSearchResults F),
      (set_peak_results_loop cs i0 r0).1 = GL_SUCCESS →
      (set_peak_results_loop cs i0 r0).2.peaklist.npeaks
        = r0.peaklist.npeaks + (cs.length : Int) ∧
      (set_peak_results_loop cs i0 r0).2.peaklist.listlength = r0.peaklist.listlength ∧
      (set_peak_results_loop cs i0 r0).2.listlength = r0.listlength ∧
      (set_peak_results_loop cs i0 r0).2.crosscorrs = r0.crosscorrs ∧
      (∀ (k : Nat) (sp : JSearchPeak F), cs[k]? = some sp →
        (set_peak_results_loop cs i0 r0).2.peaklist.peak (i0 + (k : Int)) = decoded_peak sp ∧
        ∃ jr : JChannelRange, sp.getRefineRegion = some jr ∧
          (set_peak_results_loop cs i0 r0).2.refinements (i0 + (k : Int))
            = decoded_refinement sp jr) ∧
      (∀ j : Int, (j < i0 ∨ i0 + (cs.length : Int) ≤ j) →
        (set_peak_results_loop cs i0 r0).2.peaklist.peak j = r0.peaklist.peak j ∧
        (set_peak_results_loop cs i0 r0).2.refinements j = r0.refinements j) := by
  induction cs with
  | nil =>
    intro i0 r0 _
    simp only [set_peak_results_loop, List.length_nil, Nat.cast_zero, add_zero, true_and,
      implies_true, and_true]
    intro k sp hk
    simp at hk
  | cons c rest ih =>
    intro i0 r0 hok
    have hfirst : (set_search_peak c i0 r0).1 = GL_SUCCESS := by
      by_contra hne
      unfold set_peak_results_loop at hok
      rw [if_pos hne] at hok
      exact hne hok
    have hstep : set_peak_results_loop (c :: rest) i0 r0
        = set_peak_results_loop rest (i0 + 1)
            { (set_search_peak c i0 r0).2 with
              peaklist :=
                { (set_search_peak c i0 r0).2.peaklist with
                  npeaks := (set_search_peak c i0 r0).2.peaklist.npeaks + 1 } } := by
      have hnn : ¬ ((set_search_peak c i0 r0).1 ≠ GL_SUCCESS) := fun h => h hfirst
      conv_lhs => unfold set_peak_results_loop
      rw [if_neg hnn]
    obtain ⟨jr, hjr, hval⟩ := set_search_peak_success c i0 r0 hfirst
    rw [hstep] at hok ⊢
    rw [hval] at hok ⊢
    obtain ⟨hn, hl, hll, hcc, hdec, hfr⟩ := ih _ _ hok
    refine ⟨?_, hl, hll, hcc, ?_, ?_⟩
    · rw [hn, List.length_cons]
      push_cast
      show r0.peaklist.npeaks + 1 + (rest.length : Int) = _
      ring
    · intro k sp hk
      cases k with
      | zero =>
        simp only [List.getElem?_cons_zero, Option.some.injEq] at hk
        subst hk
        have h := hfr i0 (Or.inl (by omega))
        simp only [Nat.cast_zero, add_zero]
        rw [h.1, h.2]
        exact ⟨Function.update_same _ _ _, jr, hjr, Function.update_same _ _ _⟩
      | succ k =>
        simp only [List.getElem?_cons_succ] at hk
        have h := hdec k sp hk
        have hidx : i0 + ((k + 1 : Nat) : Int) = i0 + 1 + (k : Int) := by
          push_cast
          ring
        rw [hidx]
        exact h
    · intro j hj
      have hj2 : j < i0 + 1 ∨ i0 + 1 + (rest.length : Int) ≤ j := by
        rw [List.length_cons] at hj
        push_cast at hj
        rcases hj with h | h
        · exact Or.inl (by omega)
        · exact Or.inr (by omega)
      have hne : j ≠ i0 := by
        rw [List.length_cons] at hj
        push_cast at hj
        rcases hj with h | h <;> omega
      have h := hfr j hj2
      rw [h.1, h.2]
      exact ⟨Function.update_noteq hne _ _, Function.update_noteq hne _ _⟩

/-- `set_cross_correlations` returns `GL_SUCCESS` or `GL_JNIERROR`. -/
theorem set_cross_correlations_code {F : Type} [LinearOrderedField F]
    (jres : JPeakSearchResults F) (cc : Int → Int) (n : Int) :
    (set_cross_correlations jres cc n).1 = GL_SUCCESS ∨
      (set_cross_correlations jres cc n).1 = GL_JNIERROR := by
  unfold set_cross_correlations
  cases jres.getCrossProducts_found with
  | false => exact Or.inr rfl
  | true =>
    cases jres.getCrossProducts with
    | none => exact Or.inr rfl
    | some prds => exact Or.inl rfl

/-- `set_peak_results` returns `GL_SUCCESS` or `GL_JNIERROR`. -/
theorem set_peak_results_code {F : Type} [LinearOrderedField F]
    (jres : JPeakSearchResults F) (results : GLPeakSearchResults F) :
    (set_peak_results jres results).1 = GL_SUCCESS ∨
      (set_peak_results jres results).1 = GL_JNIERROR := by
  unfold set_peak_results
  cases h1 : jres.class_found with
  | false => simp
  | true =>
    cases h2 : jres.getSearchPeakList_found with
    | false => simp
    | true =>
      cases h3 : jres.getSearchPeakList with
      | none => simp
      | some tree =>
        cases h4 : GAP_get_array_from_jtreeset tree with
        | none => simp [h4]
        | some arr =>
          simp only [h4, Bool.not_true, Bool.false_eq_true, if_false]
          split_ifs with h5 h6 h7 h8
          · exact Or.inl rfl
          · exact Or.inr rfl
          · exact Or.inr rfl
          · exact set_peak_results_loop_code _ _ _
          · exact set_cross_correlations_code _ _ _

/-- The macro `GAP_min` computes the minimum. -/
theorem GAP_min_eq_min {α : Type} [LinearOrder α] (a b : α) : GAP_min a b = min a b := by
  unfold GAP_min
  split_ifs with h
  · exact (min_eq_right h.le).symm
  · exact (min_eq_left (not_lt.mp h)).symm

/-- What a successful `set_peak_results` has decoded, in terms of the search
peaks `cands` found by the search: with `top = GAP_min(listlength, count)`,
the first `top` of them are decoded in order into the entries `0 .. top-1` of
the peak list and of the refinements, `npeaks` is their number, and all
other entries and `listlength` are as before. -/
theorem set_peak_results_decoded {F : Type} [LinearOrderedField F]
    (jres : JPeakSearchResults F) (results : GLPeakSearchResults F)
    (tree : JTreeSet (JSearchPeak F)) (cands : List (JSearchPeak F))
    (htree : jres.getSearchPeakList = some tree)
    (harr : GAP_get_array_from_jtreeset tree = some cands)
    (hok : (set_peak_results jres results).1 = GL_SUCCESS) :
    (set_peak_results jres results).2.peaklist.listlength = results.peaklist.listlength ∧
    (set_peak_results jres results).2.peaklist.npeaks
      = (((cands.take (GAP_min results.peaklist.listlength
          (cands.length : Int)).toNat).length : Nat) : Int) ∧
    (∀ (k : Nat) (sp : JSearchPeak F),
      (cands.take (GAP_min results.peaklist.listlength (cands.length : Int)).toNat)[k]?
        = some sp →
      (set_peak_results jres results).2.peaklist.peak (k : Int) = decoded_peak sp ∧
      ∃ jr : JChannelRange, sp.getRefineRegion = some jr ∧
        (set_peak_results jres results).2.refinements (k : Int) = decoded_refinement sp jr) ∧
    (∀ j : Int, (j < 0 ∨ (((cands.take (GAP_min results.peaklist.listlength
        (cands.length : Int)).toNat).length : Nat) : Int) ≤ j) →
      (set_peak_results jres results).2.peaklist.peak j = results.peaklist.peak j ∧
      (set_peak_results jres results).2.refinements j = results.refinements j) := by
  unfold set_peak_results at hok ⊢
  cases h1 : jres.class_found with
  | false => simp [h1] at hok
  | true =>
    cases h2 : jres.getSearchPeakList_found with
    | false => simp [h1, h2] at hok
    | true =>
      simp only [h1, h2, htree, harr, Bool.not_true, Bool.false_eq_true, if_false] at hok ⊢
      by_cases hzero : (0 : Int) = (cands.length : Int)
      · have hnil : cands = [] := by
          have : cands.length = 0 := by omega
          exact List.length_eq_zero.mp this
        subst hnil
        simp
      · rw [if_neg hzero] at hok ⊢
        cases h5 : jres.searchPeak_class_found with
        | false => simp [h5] at hok
        | true =>
          cases h6 : jres.searchPeak_methods_found with
          | false => simp [h5, h6] at hok
          | true =>
            simp only [h5, h6, Bool.not_true, Bool.false_eq_true, if_false] at hok ⊢
            by_cases hloop : (set_peak_results_loop
                (cands.take (GAP_min results.peaklist.listlength (cands.length : Int)).toNat) 0
                { results with peaklist := { results.peaklist with npeaks := 0 } }).1
                  ≠ GL_SUCCESS
            · rw [if_pos hloop] at hok
              exact absurd hok hloop
            · rw [if_neg hloop]
              obtain ⟨hn, hl, _, _, hdec, hfr⟩ := set_peak_results_loop_spec
                (cands.take (GAP_min results.peaklist.listlength (cands.length : Int)).toNat) 0
                { results with peaklist := { results.peaklist with npeaks := 0 } }
                (not_not.mp hloop)
              refine ⟨hl, ?_, fun k sp hk => ?_, fun j hj => ?_⟩
              · show (set_peak_results_loop _ 0 _).2.peaklist.npeaks = _
                rw [hn]
                show (0 : Int) + _ = _
                omega
              · have h := hdec k sp hk
                rw [zero_add] at h
                exact h
              · have h := hfr j (by rw [zero_add]; exact hj)
                exact h

/-- A successful `set_peak_results` has obtained the array of search
peaks. -/
theorem set_peak_results_success_array {F : Type} [LinearOrderedField F]
    (jres : JPeakSearchResults F) (results : GLPeakSearchResults F)
    (hok : (set_peak_results jres results).1 = GL_SUCCESS) :
    ∃ (tree : JTreeSet (JSearchPeak F)) (cands : List (JSearchPeak F)),
      jres.getSearchPeakList = some tree ∧ GAP_get_array_from_jtreeset tree = some cands := by
  unfold set_peak_results at hok
  cases h1 : jres.class_found with
  | false => simp [h1] at hok
  | true =>
    cases h2 : jres.getSearchPeakList_found with
    | false => simp [h1, h2] at hok
    | true =>
      cases h3 : jres.getSearchPeakList with
      | none => simp [h1, h2, h3] at hok
      | some tree =>
        cases h4 : GAP_get_array_from_jtreeset tree with
        | none => simp [h1, h2, h3, h4] at hok
        | some cands => exact ⟨tree, cands, rfl, h4⟩

/-- A successful `GL_peaksearch` is a successful `set_peak_results` on the
object returned by the search. -/
theorem GL_peaksearch_success {F : Type} [LinearOrderedField F] (call : JPeakSearchCall F)
    (results : GLPeakSearchResults F) (hok : (GL_peaksearch call results).1 = GL_SUCCESS) :
    ∃ jres : JPeakSearchResults F, call.peakResultsObject = some jres ∧
      GL_peaksearch call results = set_peak_results jres results := by
  unfold GL_peaksearch at hok ⊢
  cases h1 : call.jvm_found with
  | false => simp [h1] at hok
  | true =>
    cases h2 : call.inputs_built with
    | false => simp [h1, h2] at hok
    | true =>
      cases h3 : call.exception_thrown with
      | true => simp [h1, h2, h3] at hok
      | false =>
        cases h4 : call.peakResultsObject with
        | none => simp [h1, h2, h3, h4] at hok
        | some jres => exact ⟨jres, rfl, by simp⟩

/-- C15: after a successful `GL_peaksearch`, for every search peak decoded
into the results (every index below `npeaks`) the list peak at that index has
type `GL_PEAK_CHANNEL`, `channel_valid` true, `energy_valid` false and
`fixed_centroid` false, and its channel equals the `refined_channel` of the
refinement at the same index when that refinement has `use_refinement` true,
and its `raw_channel` otherwise. -/
theorem GL_peaksearch_peak_of_refinement {F : Type} [LinearOrderedField F]
    (call : JPeakSearchCall F) (results : GLPeakSearchResults F)
    (hok : (GL_peaksearch call results).1 = GL_SUCCESS) (i : Int) (h0 : 0 ≤ i)
    (hi : i < (GL_peaksearch call results).2.peaklist.npeaks) :
    ((GL_peaksearch call results).2.peaklist.peak i).type = GL_PEAK_CHANNEL ∧
    ((GL_peaksearch call results).2.peaklist.peak i).channel_valid = GL_TRUE ∧
    ((GL_peaksearch call results).2.peaklist.peak i).energy_valid = GL_FALSE ∧
    ((GL_peaksearch call results).2.peaklist.peak i).fixed_centroid = GL_FALSE ∧
    ((GL_peaksearch call results).2.peaklist.peak i).channel
      = (if ((GL_peaksearch call results).2.refinements i).use_refinement = GL_TRUE then
          ((GL_peaksearch call results).2.refinements i).refined_channel
        else ((GL_peaksearch call results).2.refinements i).raw_channel) := by
  obtain ⟨jres, _, hcall⟩ := GL_peaksearch_success call results hok
  rw [hcall] at hok hi ⊢
  obtain ⟨tree, cands, htree, harr⟩ := set_peak_results_success_array jres results hok
  obtain ⟨_, hn, hdec, _⟩ := set_peak_results_decoded jres results tree cands htree harr hok
  rw [hn] at hi
  have hk : i.toNat < (cands.take (GAP_min results.peaklist.listlength
      (cands.length : Int)).toNat).length := by omega
  obtain ⟨hpk, jr, _, href⟩ := hdec i.toNat _ (List.getElem?_eq_getElem hk)
  have hcast : ((i.toNat : Nat) : Int) = i := by omega
  rw [hcast] at hpk href
  rw [hpk, href]
  refine ⟨rfl, rfl, rfl, rfl, ?_⟩
  cases hu : ((cands.take (GAP_min results.peaklist.listlength
      (cands.length : Int)).toNat)[i.toNat]).useRefinement <;>
    simp [decoded_peak, decoded_refinement, hu]

/-- C15 at the search that found two peaks, decoded into a two-entry list:
the peak at index 0 follows its refinement. -/
theorem GL_peaksearch_peak_of_refinement_witness :
    ((GL_peaksearch (search_call ℚ (jresults_two ℚ)) (peak_results ℚ 2)).2.peaklist.peak
      0).type = GL_PEAK_CHANNEL ∧
    ((GL_peaksearch (search_call ℚ (jresults_two ℚ)) (peak_results ℚ 2)).2.peaklist.peak
      0).channel_valid = GL_TRUE ∧
    ((GL_peaksearch (search_call ℚ (jresults_two ℚ)) (peak_results ℚ 2)).2.peaklist.peak
      0).energy_valid = GL_FALSE ∧
    ((GL_peaksearch (search_call ℚ (jresults_two ℚ)) (peak_results ℚ 2)).2.peaklist.peak
      0).fixed_centroid = GL_FALSE ∧
    ((GL_peaksearch (search_call ℚ (jresults_two ℚ)) (peak_results ℚ 2)).2.peaklist.peak
      0).channel
      = (if ((GL_peaksearch (search_call ℚ (jresults_two ℚ)) (peak_results ℚ 2)).2.refinements
            0).use_refinement = GL_TRUE then
          ((GL_peaksearch (search_call ℚ (jresults_two ℚ)) (peak_results ℚ 2)).2.refinements
            0).refined_channel
        else ((GL_peaksearch (search_call ℚ (jresults_two ℚ)) (peak_results ℚ 2)).2.refinements
            0).raw_channel) :=
  GL_peaksearch_peak_of_refinement (search_call ℚ (jresults_two ℚ)) (peak_results ℚ 2)
    (by decide) 0 (by decide) (by decide)

/-- C16, evaluated at a failing input: the results structure of
`GL_peak_results_alloc(1, 3)` (room for one peak, three cross-correlations)
and a search that found two peaks and produced the cross products 5, 6, 7.
`GL_peaksearch` returns `GL_SUCCESS`; `set_cross_correlations` is handed
`peaklist->listlength` (1) instead of `results->listlength` (3), so only
`crosscorrs[0]` is copied and `crosscorrs[1]`, `crosscorrs[2]` keep their
old value 0. When the search finds no peak, `set_peak_results` returns before
the copy and no cross-correlation is written at all. -/
theorem GL_peaksearch_crosscorrs_not_copied :
    (GL_peaksearch (search_call ℚ (jresults_two ℚ)) (peak_results ℚ 1)).1 = GL_SUCCESS ∧
    (GL_peaksearch (search_call ℚ (jresults_two ℚ)) (peak_results ℚ 1)).2.listlength = 3 ∧
    (GL_peaksearch (search_call ℚ (jresults_two ℚ)) (peak_results ℚ 1)).2.crosscorrs 0 = 5 ∧
    (GL_peaksearch (search_call ℚ (jresults_two ℚ)) (peak_results ℚ 1)).2.crosscorrs 1 = 0 ∧
    (GL_peaksearch (search_call ℚ (jresults_two ℚ)) (peak_results ℚ 1)).2.crosscorrs 2 = 0 ∧
    (GL_peaksearch (search_call ℚ (jresults_none ℚ)) (peak_results ℚ 1)).1 = GL_SUCCESS ∧
    (GL_peaksearch (search_call ℚ (jresults_none ℚ)) (peak_results ℚ 1)).2.crosscorrs 0 = 0 := by
  decide

/-- C17: when the search yields the candidates `cands` (`m` of them) and the
result list has capacity `L = results->peaklist->listlength >= 0`, a
successful `set_peak_results` sets `npeaks = min(L, m)`, fills the peaks and
refinements `0 .. npeaks-1` from the first `npeaks` candidates in their order
(every field of both is assigned from the candidate), and leaves the entries
at indices `>= npeaks` untouched. -/
theorem set_peak_results_fills {F : Type} [LinearOrderedField F]
    (jres : JPeakSearchResults F) (results : GLPeakSearchResults F)
    (tree : JTreeSet (JSearchPeak F)) (cands : List (JSearchPeak F))
    (htree : jres.getSearchPeakList = some tree)
    (harr : GAP_get_array_from_jtreeset tree = some cands)
    (hcap : 0 ≤ results.peaklist.listlength)
    (hok : (set_peak_results jres results).1 = GL_SUCCESS) :
    (set_peak_results jres results).2.peaklist.npeaks
      = min results.peaklist.listlength (cands.length : Int) ∧
    (∀ (k : Nat) (sp : JSearchPeak F),
      (k : Int) < (set_peak_results jres results).2.peaklist.npeaks → cands[k]? = some sp →
      (set_peak_results jres results).2.peaklist.peak (k : Int)
        = { type := GL_PEAK_CHANNEL
            channel_valid := GL_TRUE
            channel := if sp.useRefinement then sp.getRefinedCentroid
              else (sp.getRawCentroid : F)
            energy_valid := GL_FALSE
            energy := 0
            sige := 0
            fixed_centroid := GL_FALSE } ∧
      ∃ jr : JChannelRange, sp.getRefineRegion = some jr ∧
        (set_peak_results jres results).2.refinements (k : Int)
          = { raw_channel := (sp.getRawCentroid : F)
              refine_region := { first := jr.m_firstChannel, last := jr.m_lastChannel }
              net_area := sp.getArea
              background := sp.getBackground
              refined_channel := sp.getRefinedCentroid
              use_refinement := if sp.useRefinement then GL_TRUE else GL_FALSE }) ∧
    (∀ j : Int, (set_peak_results jres results).2.peaklist.npeaks ≤ j →
      (set_peak_results jres results).2.peaklist.peak j = results.peaklist.peak j ∧
      (set_peak_results jres results).2.refinements j = results.refinements j) := by
  obtain ⟨_, hn, hdec, hfr⟩ := set_peak_results_decoded jres results tree cands htree harr hok
  have hlen : (((cands.take (GAP_min results.peaklist.listlength
      (cands.length : Int)).toNat).length : Nat) : Int)
      = min results.peaklist.listlength (cands.length : Int) := by
    rw [List.length_take, GAP_min_eq_min]
    omega
  refine ⟨hn.trans hlen, fun k sp hk hsp => ?_, fun j hj => hfr j (Or.inr (hn ▸ hj))⟩
  rw [hn, hlen] at hk
  have hk2 : k < (GAP_min results.peaklist.listlength (cands.length : Int)).toNat := by
    rw [GAP_min_eq_min]
    omega
  exact hdec k sp (by rw [List.getElem?_take_of_lt hk2]; exact hsp)

/-- C17 at the search that found two peaks, decoded into a list of capacity
1: `npeaks` is `min(1, 2)`. -/
theorem set_peak_results_fills_witness :
    (set_peak_results (jresults_two ℚ) (peak_results ℚ 1)).2.peaklist.npeaks
      = min (peak_results ℚ 1).peaklist.listlength
          (([search_peak_refined ℚ, search_peak_raw ℚ].length : Nat) : Int) :=
  (set_peak_results_fills (jresults_two ℚ) (peak_results ℚ 1) _
    [search_peak_refined ℚ, search_peak_raw ℚ] rfl rfl (by decide) (by decide)).1

/-- C18, the claim refuted: a search that found two peaks, decoded into a
results structure with room for one, makes `GL_peaksearch` return
`GL_SUCCESS`, not `GL_OVRLMT`; the list then holds one peak. -/
theorem GL_peaksearch_overflow_returns_success :
    (peak_results ℚ 1).peaklist.listlength
      < (([search_peak_refined ℚ, search_peak_raw ℚ].length : Nat) : Int) ∧
    (GL_peaksearch (search_call ℚ (jresults_two ℚ)) (peak_results ℚ 1)).1 = GL_SUCCESS ∧
    (GL_peaksearch (search_call ℚ (jresults_two ℚ)) (peak_results ℚ 1)).2.peaklist.npeaks
      = 1 := by
  decide

/-- C18 as amended: `GL_peaksearch` does not signal a capacity overflow. Its
return code is `GL_NOJVM`, `GL_JNIERROR`, `GL_JEXCEPTION` or `GL_SUCCESS`,
never `GL_OVRLMT`; when the search finds more peaks than
`results->peaklist` can hold and the call succeeds, the extra peaks are
dropped and `npeaks == listlength`. -/
theorem GL_peaksearch_no_overflow_code {F : Type} [LinearOrderedField F]
    (call : JPeakSearchCall F) (results : GLPeakSearchResults F) :
    (GL_peaksearch call results).1 ≠ GL_OVRLMT ∧
    ((GL_peaksearch call results).1 = GL_NOJVM ∨ (GL_peaksearch call results).1 = GL_JNIERROR ∨
      (GL_peaksearch call results).1 = GL_JEXCEPTION ∨
      (GL_peaksearch call results).1 = GL_SUCCESS) ∧
    (∀ (jres : JPeakSearchResults F) (tree : JTreeSet (JSearchPeak F))
        (cands : List (JSearchPeak F)),
      call.peakResultsObject = some jres → jres.getSearchPeakList = some tree →
      GAP_get_array_from_jtreeset tree = some cands →
      0 ≤ results.peaklist.listlength →
      results.peaklist.listlength < (cands.length : Int) →
      (GL_peaksearch call results).1 = GL_SUCCESS →
      (GL_peaksearch call results).2.peaklist.npeaks = results.peaklist.listlength) := by
  have hcodes : (GL_peaksearch call results).1 = GL_NOJVM ∨
      (GL_peaksearch call results).1 = GL_JNIERROR ∨
      (GL_peaksearch call results).1 = GL_JEXCEPTION ∨
      (GL_peaksearch call results).1 = GL_SUCCESS := by
    unfold GL_peaksearch
    cases h1 : call.jvm_found with
    | false => simp
    | true =>
      cases h2 : call.inputs_built with
      | false => simp
      | true =>
        cases h3 : call.exception_thrown with
        | true => simp
        | false =>
          cases h4 : call.peakResultsObject with
          | none => simp
          | some jres =>
            simp only [Bool.not_true, Bool.false_eq_true, if_false]
            rcases set_peak_results_code jres results with h | h
            · exact Or.inr (Or.inr (Or.inr h))
            · exact Or.inr (Or.inl h)
  refine ⟨?_, hcodes, ?_⟩
  · intro hov
    rw [hov] at hcodes
    rcases hcodes with h | h | h | h <;> exact GLRtnCode.noConfusion h
  · intro jres tree cands hobj htree harr hcap hover hok
    obtain ⟨jres2, hobj2, hcall⟩ := GL_peaksearch_success call results hok
    rw [hobj] at hobj2
    cases hobj2
    rw [hcall] at hok ⊢
    obtain ⟨_, hn, _, _⟩ := set_peak_results_decoded jres results tree cands htree harr hok
    rw [hn, List.length_take, GAP_min_eq_min]
    omega

/-- C18 as amended, at the search that found two peaks and a results
structure with room for one. -/
theorem GL_peaksearch_no_overflow_code_witness :
    (GL_peaksearch (search_call ℚ (jresults_two ℚ)) (peak_results ℚ 1)).1 ≠ GL_OVRLMT ∧
    (GL_peaksearch (search_call ℚ (jresults_two ℚ)) (peak_results ℚ 1)).2.peaklist.npeaks
      = (peak_results ℚ 1).peaklist.listlength :=
  have h := GL_peaksearch_no_overflow_code (search_call ℚ (jresults_two ℚ)) (peak_results ℚ 1)
  ⟨h.1, h.2.2 (jresults_two ℚ) _ [search_peak_refined ℚ, search_peak_raw ℚ] rfl rfl rfl
    (by decide) (by decide) (by decide)⟩

/-! ## Decoding the regions of a region search -/

/-- What the loop of `set_regions` does, started at index `i` on the Java
regions `js`: `listlength` is kept; `nregions` ends as the old value plus the
number of regions, or as 0; no entry outside `i .. i + length - 1` is
written; with at least one region the code is `GL_SUCCESS` or `GL_JNIERROR`;
and when every region can be decoded, each is stored in order and counted. -/
theorem set_regions_loop_spec (js : List JChannelRange) :
    ∀ (i : Int) (rc : GLRtnCode) (regions : GLRegions),
      (set_regions_loop js i rc regions).2.listlength = regions.listlength ∧
      ((set_regions_loop js i rc regions).2.nregions = regions.nregions + (js.length : Int) ∨
        (set_regions_loop js i rc regions).2.nregions = 0) ∧
      (∀ j : Int, (j < i ∨ i + (js.length : Int) ≤ j) →
        (set_regions_loop js i rc regions).2.chanrange j = regions.chanrange j) ∧
      (js ≠ [] → (set_regions_loop js i rc regions).1 = GL_SUCCESS ∨
        (set_regions_loop js i rc regions).1 = GL_JNIERROR) ∧
      ((∀ jr ∈ js, jr.lookups_found = true) →
        (js ≠ [] → (set_regions_loop js i rc regions).1 = GL_SUCCESS) ∧
        (set_regions_loop js i rc regions).2.nregions = regions.nregions + (js.length : Int) ∧
        ∀ (k : Nat) (jr : JChannelRange), js[k]? = some jr →
          (set_regions_loop js i rc regions).2.chanrange (i + (k : Int))
            = { first := jr.m_firstChannel, last := jr.m_lastChannel }) := by
  induction js with
  | nil =>
    intro i rc regions
    simp [set_regions_loop]
  | cons jr rest ih =>
    intro i rc regions
    cases hl : jr.lookups_found with
    | false =>
      have hr : set_regions_loop (jr :: rest) i rc regions
          = (GL_JNIERROR,
              { regions with
                chanrange := Function.update regions.chanrange i (regions.chanrange i)
                nregions := 0 }) := by
        simp [set_regions_loop, GAP_set_chanrange, hl]
      rw [hr]
      refine ⟨rfl, Or.inr rfl, fun j _ => ?_, fun _ => Or.inr rfl, fun hall => ?_⟩
      · show Function.update regions.chanrange i (regions.chanrange i) j = regions.chanrange j
        rw [Function.update_eq_self]
      · have := hall jr (List.mem_cons_self _ _)
        rw [hl] at this
        exact absurd this (by decide)
    | true =>
      have hr : set_regions_loop (jr :: rest) i rc regions
          = set_regions_loop rest (i + 1) GL_SUCCESS
              { regions with
                chanrange := Function.update regions.chanrange i
                  { first := jr.m_firstChannel, last := jr.m_lastChannel }
                nregions := regions.nregions + 1 } := by
        simp [set_regions_loop, GAP_set_chanrange, hl]
      rw [hr]
      obtain ⟨hA, hB, hC, hD, hE⟩ := ih (i + 1) GL_SUCCESS
        { regions with
          chanrange := Function.update regions.chanrange i
            { first := jr.m_firstChannel, last := jr.m_lastChannel }
          nregions := regions.nregions + 1 }
      refine ⟨hA, ?_, fun j hj => ?_, fun _ => ?_, fun hall => ?_⟩
      · rcases hB with h | h
        · left
          rw [h, List.length_cons]
          push_cast
          show regions.nregions + 1 + (rest.length : Int) = _
          ring
        · exact Or.inr h
      · rw [List.length_cons] at hj
        push_cast at hj
        have hne : j ≠ i := by rcases hj with h | h <;> omega
        rw [hC j (by rcases hj with h | h; exact Or.inl (by omega); exact Or.inr (by omega))]
        exact Function.update_noteq hne _ _
      · cases rest with
        | nil => exact Or.inl rfl
        | cons a b => exact hD (List.cons_ne_nil _ _)
      · obtain ⟨hE1, hE2, hE3⟩ := hE (fun x hx => hall x (List.mem_cons_of_mem _ hx))
        refine ⟨fun _ => ?_, ?_, fun k x hk => ?_⟩
        · cases rest with
          | nil => rfl
          | cons a b => exact hE1 (List.cons_ne_nil _ _)
        · rw [hE2, List.length_cons]
          push_cast
          show regions.nregions + 1 + (rest.length : Int) = _
          ring
        · cases k with
          | zero =>
            simp only [List.getElem?_cons_zero, Option.some.injEq] at hk
            subst hk
            simp only [Nat.cast_zero, add_zero]
            rw [hC i (Or.inl (by omega))]
            exact Function.update_same _ _ _
          | succ k =>
            simp only [List.getElem?_cons_succ] at hk
            have hidx : i + ((k + 1 : Nat) : Int) = i + 1 + (k : Int) := by
              push_cast
              ring
            rw [hidx]
            exact hE3 k x hk

/-! ## Fit records: the snapshot of the inputs -/

/-- The loop of `set_fit_record` that copies the peaks: after `n` calls of
`GL_add_peak` on a fresh list of capacity at least `n`, the list holds the
first `n` input peaks. -/
theorem copy_peaks_spec {F : Type} (peaks : GLPeakList F) (storage : Int → GLPeak F)
    (cap : Int) (n : Nat) (hcap : (n : Int) ≤ cap) :
    ((List.range n).foldl
        (fun (input_peaks : GLPeakList F) (i : Nat) =>
          (GL_add_peak (peaks.peak (i : Int)) input_peaks).2)
        { listlength := cap, npeaks := 0, peak := storage }).npeaks = (n : Int) ∧
    ((List.range n).foldl
        (fun (input_peaks : GLPeakList F) (i : Nat) =>
          (GL_add_peak (peaks.peak (i : Int)) input_peaks).2)
        { listlength := cap, npeaks := 0, peak := storage }).listlength = cap ∧
    ∀ k : Nat, k < n →
      ((List.range n).foldl
        (fun (input_peaks : GLPeakList F) (i : Nat) =>
          (GL_add_peak (peaks.peak (i : Int)) input_peaks).2)
        { listlength := cap, npeaks := 0, peak := storage }).peak (k : Int)
        = peaks.peak (k : Int) := by
  induction n with
  | zero =>
    refine ⟨rfl, rfl, fun k hk => absurd hk (by omega)⟩
  | succ n ih =>
    obtain ⟨h1, h2, h3⟩ := ih (by push_cast at hcap; omega)
    rw [List.range_succ, List.foldl_append]
    simp only [List.foldl_cons, List.foldl_nil]
    have hroom : ¬ (((List.range n).foldl
        (fun (input_peaks : GLPeakList F) (i : Nat) =>
          (GL_add_peak (peaks.peak (i : Int)) input_peaks).2)
        { listlength := cap, npeaks := 0, peak := storage }).npeaks + 1
        > ((List.range n).foldl
        (fun (input_peaks : GLPeakList F) (i : Nat) =>
          (GL_add_peak (peaks.peak (i : Int)) input_peaks).2)
        { listlength := cap, npeaks := 0, peak := storage }).listlength) := by
      rw [h1, h2]
      push_cast at hcap
      omega
    rw [GL_add_peak_room _ _ hroom]
    refine ⟨?_, h2, fun k hk => ?_⟩
    · show _ + 1 = _
      rw [h1]
      push_cast
      rfl
    · show Function.update _ _ _ _ = _
      rw [h1]
      by_cases hkn : k = n
      · subst hkn
        exact Function.update_same _ _ _
      · have hne : (k : Int) ≠ (n : Int) := by omega
        rw [Function.update_noteq hne]
        exact h3 k (by omega)

/-- When the first part of `set_fit_record` returns `GL_SUCCESS`, the record
carries a snapshot of the inputs. -/
theorem set_used_fields_snapshot {F : Type} [LinearOrderedField F] (mem : FitMemory)
    (region : GLChanRange) (spectrum : GLSpectrum) (peaks : GLPeakList F)
    (fitparms : GLFitParms F) (ex : GLEnergyEqn F) (wx : GLWidthEqn F) (r : GLFitRecord F)
    (hok : (set_used_fields mem region spectrum peaks fitparms ex wx r).1 = GL_SUCCESS) :
    is_snapshot region spectrum peaks fitparms ex wx
      (set_used_fields mem region spectrum peaks fitparms ex wx r).2 := by
  unfold set_used_fields at hok ⊢
  cases hs : calloc_array (fun _ => (0 : Int)) mem.spectrum_available spectrum.nchannels with
  | none => simp [GL_spectrum_counts_alloc, hs] at hok
  | some zeros =>
    cases hp : calloc_array (calloc_peaks F) mem.peaks_available peaks.npeaks with
    | none => simp [GL_spectrum_counts_alloc, hs, hp] at hok
    | some storage =>
      have hnn : 0 ≤ peaks.npeaks := by
        by_contra hneg
        have : calloc_array (calloc_peaks F) mem.peaks_available peaks.npeaks = none := by
          simp only [calloc_array, if_pos (not_le.mp hneg)]
        rw [this] at hp
        exact Option.noConfusion hp
      obtain ⟨h1, _, h3⟩ := copy_peaks_spec peaks storage peaks.npeaks peaks.npeaks.toNat
        (by omega)
      simp only [GL_spectrum_counts_alloc, hs, hp, ne_eq, not_true_eq_false, if_false,
        Option.map_some', is_snapshot, true_and]
      refine ⟨fun counts hc => ⟨_, rfl, fun i h0 hi => ?_⟩, ?_, fun i h0 hi => ?_⟩
      · simp only [memcpy_counts, hc, if_pos (And.intro h0 hi)]
      · rw [h1]
        omega
      · have := h3 i.toNat (by omega)
        have hcast : ((i.toNat : Nat) : Int) = i := by omega
        rw [hcast] at this
        exact this

/-- A successful sequenced step: the first part succeeded and the result is
that of the rest. -/
theorem and_then_success {R : Type} (first : GLRtnCode × R) (rest : R → GLRtnCode × R)
    (hok : (and_then first rest).1 = GL_SUCCESS) :
    first.1 = GL_SUCCESS ∧ and_then first rest = rest first.2 := by
  unfold and_then at hok ⊢
  by_cases h : first.1 ≠ GL_SUCCESS
  · rw [if_pos h] at hok
    exact absurd hok h
  · rw [if_neg h]
    exact ⟨not_not.mp h, rfl⟩

/-- The steps of `set_fit_record` that set the results leave the snapshot of
the inputs alone. -/
theorem result_steps_keep_snapshot {F JRc JExc JBack JSumm JCurve : Type}
    [LinearOrderedField F] (dec : FitDecoders F JRc JExc JBack JSumm JCurve) (mem : FitMemory)
    (region : GLChanRange) (spectrum : GLSpectrum) (peaks : GLPeakList F)
    (fitparms : GLFitParms F) (ex : GLEnergyEqn F) (wx : GLWidthEqn F) (nplots_per_chan : Int)
    (fitObject : JFit F JRc JExc JBack JSumm JCurve) (r : GLFitRecord F)
    (h : is_snapshot region spectrum peaks fitparms ex wx r) :
    is_snapshot region spectrum peaks fitparms ex wx (set_cycle_fields dec fitObject r).2 ∧
    is_snapshot region spectrum peaks fitparms ex wx
      (set_cycle_exception dec mem fitObject r).2 ∧
    is_snapshot region spectrum peaks fitparms ex wx (set_back_linear dec fitObject r).2 ∧
    is_snapshot region spectrum peaks fitparms ex wx (set_summary_field dec fitObject r).2 ∧
    is_snapshot region spectrum peaks fitparms ex wx
      (set_curve_field dec region nplots_per_chan fitObject r).2 := by
  refine ⟨?_, ?_, ?_, ?_, ?_⟩
  · unfold set_cycle_fields
    cases fitObject.getCycleReturnCode <;> exact h
  · unfold set_cycle_exception
    cases fitObject.getCycleException with
    | none => exact h
    | some jexc =>
      simp only
      split_ifs <;> exact h
  · unfold set_back_linear
    cases fitObject.getBackground <;> exact h
  · unfold set_summary_field
    cases fitObject.getSummary <;> exact h
  · unfold set_curve_field
    cases fitObject.getCurve nplots_per_chan <;> exact h

/-- A record set by a successful `set_fit_record` carries a snapshot of the
inputs. -/
theorem set_fit_record_snapshot {F JRc JExc JBack JSumm JCurve : Type}
    [LinearOrderedField F] (dec : FitDecoders F JRc JExc JBack JSumm JCurve) (mem : FitMemory)
    (region : GLChanRange) (spectrum : GLSpectrum) (peaks : GLPeakList F)
    (fitparms : GLFitParms F) (ex : GLEnergyEqn F) (wx : GLWidthEqn F) (nplots_per_chan : Int)
    (fitObject : JFit F JRc JExc JBack JSumm JCurve) (r : GLFitRecord F)
    (hok : (set_fit_record dec mem region spectrum peaks fitparms ex wx nplots_per_chan
      fitObject r).1 = GL_SUCCESS) :
    is_snapshot region spectrum peaks fitparms ex wx
      (set_fit_record dec mem region spectrum peaks fitparms ex wx nplots_per_chan
        fitObject r).2 := by
  unfold set_fit_record at hok ⊢
  obtain ⟨h1, e1⟩ := and_then_success _ _ hok
  rw [e1] at hok ⊢
  have s1 := set_used_fields_snapshot mem region spectrum peaks fitparms ex wx r h1
  obtain ⟨_, e2⟩ := and_then_success _ _ hok
  rw [e2] at hok ⊢
  have s2 := (result_steps_keep_snapshot dec mem region spectrum peaks fitparms ex wx
    nplots_per_chan fitObject _ s1).1
  obtain ⟨_, e3⟩ := and_then_success _ _ hok
  rw [e3] at hok ⊢
  have s3 := (result_steps_keep_snapshot dec mem region spectrum peaks fitparms ex wx
    nplots_per_chan fitObject _ s2).2.1
  obtain ⟨_, e4⟩ := and_then_success _ _ hok
  rw [e4] at hok ⊢
  have s4 := (result_steps_keep_snapshot dec mem region spectrum peaks fitparms ex wx
    nplots_per_chan fitObject _ s3).2.2.1
  obtain ⟨_, e5⟩ := and_then_success _ _ hok
  rw [e5]
  have s5 := (result_steps_keep_snapshot dec mem region spectrum peaks fitparms ex wx
    nplots_per_chan fitObject _ s4).2.2.2.1
  exact (result_steps_keep_snapshot dec mem region spectrum peaks fitparms ex wx
    nplots_per_chan fitObject _ s5).2.2.2.2

/-- The loop of `set_fit_list` adds to the list only records set by a
successful `set_fit_record`: when it returns `GL_SUCCESS`, every record of
its list carries a snapshot of the inputs if the records already set do. -/
theorem set_fit_list_loop_snapshot {F JRc JExc JBack JSumm JCurve : Type}
    [LinearOrderedField F] (dec : FitDecoders F JRc JExc JBack JSumm JCurve) (heap : FitHeap F)
    (region : GLChanRange) (spectrum : GLSpectrum) (peaks : GLPeakList F)
    (fitparms : GLFitParms F) (ex : GLEnergyEqn F) (wx : GLWidthEqn F) (nplots_per_chan : Int)
    (jfits : List (JFit F JRc JExc JBack JSumm JCurve)) :
    ∀ (i : Nat) (done : List (GLFitRecord F)) (curr : GLFitRecord F),
      (∀ r ∈ done, is_snapshot region spectrum peaks fitparms ex wx r) →
      (set_fit_list_loop dec heap region spectrum peaks fitparms ex wx nplots_per_chan
        jfits i done curr).1 = GL_SUCCESS →
      ∀ r ∈ (set_fit_list_loop dec heap region spectrum peaks fitparms ex wx nplots_per_chan
        jfits i done curr).2, is_snapshot region spectrum peaks fitparms ex wx r := by
  induction jfits with
  | nil =>
    intro i done curr hdone _
    exact hdone
  | cons jf rest ih =>
    intro i done curr hdone hok
    unfold set_fit_list_loop at hok ⊢
    by_cases hrec : (set_fit_record dec (heap.record_memory i) region spectrum peaks fitparms
        ex wx nplots_per_chan jf curr).1 ≠ GL_SUCCESS
    · rw [if_pos hrec] at hok
      exact absurd hok hrec
    · rw [if_neg hrec] at hok ⊢
      cases halloc : alloc_fitreclist_item (heap.item_available (i + 1))
          (heap.garbage (i + 1)) with
      | none =>
        rw [halloc] at hok
        exact GLRtnCode.noConfusion hok
      | some next =>
        rw [halloc] at hok
        refine ih (i + 1) _ next (fun r hr => ?_) hok
        rcases List.mem_append.mp hr with h | h
        · exact hdone r h
        · rw [List.mem_singleton.mp h]
          exact set_fit_record_snapshot dec _ region spectrum peaks fitparms ex wx
            nplots_per_chan jf curr (not_not.mp hrec)

/-- C20: every record of the list returned by a successful `GL_fitregn`
carries a snapshot of the inputs of the call: `used_chanrange`, `used_parms`,
`used_ex` and `used_wx` equal the region, fit parameters and equations passed
in; `used_spectrum` has the same `firstchannel` and `nchannels` and the same
first `nchannels` counts as the input spectrum; and `input_peaks` has `npeaks`
equal to that of the input list, with every peak equal field for field, in
the same order. -/
theorem GL_fitregn_records_snapshot {F JRc JExc JBack JSumm JCurve : Type}
    [LinearOrderedField F] (call : JFitCall F JRc JExc JBack JSumm JCurve)
    (dec : FitDecoders F JRc JExc JBack JSumm JCurve) (heap : FitHeap F)
    (region : GLChanRange) (spectrum : GLSpectrum) (peaks : GLPeakList F)
    (fitparms : GLFitParms F) (ex : GLEnergyEqn F) (wx : GLWidthEqn F) (nplots_per_chan : Int)
    (fitlist : List (GLFitRecord F))
    (hok : (GL_fitregn call dec heap region spectrum peaks fitparms ex wx nplots_per_chan
      fitlist).1 = GL_SUCCESS) :
    ∀ r ∈ (GL_fitregn call dec heap region spectrum peaks fitparms ex wx nplots_per_chan
        fitlist).2,
      r.used_chanrange = region ∧ r.used_parms = fitparms ∧ r.used_ex = ex ∧ r.used_wx = wx ∧
      r.used_spectrum.firstchannel = spectrum.firstchannel ∧
      r.used_spectrum.nchannels = spectrum.nchannels ∧
      (∀ counts : Int → Int, spectrum.count = some counts →
        ∃ used : Int → Int, r.used_spectrum.count = some used ∧
          ∀ i : Int, 0 ≤ i → i < spectrum.nchannels → used i = counts i) ∧
      r.input_peaks.npeaks = peaks.npeaks ∧
      ∀ i : Int, 0 ≤ i → i < peaks.npeaks → r.input_peaks.peak i = peaks.peak i := by
  have hnil : ∀ r ∈ ([] : List (GLFitRecord F)),
      is_snapshot region spectrum peaks fitparms ex wx r := fun r hr => absurd hr (List.not_mem_nil r)
  unfold GL_fitregn at hok ⊢
  cases h1 : call.jvm_found with
  | false => simp [h1] at hok
  | true =>
    cases h2 : call.inputs_built with
    | false => simp [h1, h2] at hok
    | true =>
      cases h3 : call.exception_thrown with
      | true => simp [h1, h2, h3] at hok
      | false =>
        cases h4 : call.fitVectorObject with
        | none => simp [h1, h2, h3, h4] at hok
        | some vec =>
          simp only [h1, h2, h3, h4, Bool.not_true, Bool.false_eq_true, if_false] at hok ⊢
          unfold set_fit_list at hok ⊢
          cases h5 : vec.array with
          | none => simp [h5] at hok
          | some jfits =>
            simp only [h5] at hok ⊢
            by_cases h6 : (0 : Int) ≥ (jfits.length : Int)
            · rw [if_pos h6]
              exact hnil
            · rw [if_neg h6] at hok ⊢
              cases h7 : vec.fit_class_found with
              | false => simp [h7] at hok
              | true =>
                cases h8 : vec.fit_methods_found with
                | false => simp [h7, h8] at hok
                | true =>
                  cases h9 : vec.peak_class_found with
                  | false => simp [h7, h8, h9] at hok
                  | true =>
                    cases h10 : vec.getChannel_found with
                    | false => simp [h7, h8, h9, h10] at hok
                    | true =>
                      simp only [h7, h8, h9, h10, Bool.not_true, Bool.false_eq_true,
                        if_false] at hok ⊢
                      cases h11 : alloc_fitreclist_item (heap.item_available 0)
                          (heap.garbage 0) with
                      | none => simp [h11] at hok
                      | some curr =>
                        simp only [h11] at hok ⊢
                        exact set_fit_list_loop_snapshot dec heap region spectrum peaks
                          fitparms ex wx nplots_per_chan jfits 0 [] curr hnil hok

/-- C20 at a fit of the region 1579..1610 of `main` with the two peaks of
`fit_peaks`, on a three-channel spectrum, the engine returning one fit: the
call succeeds, returns one record, and the record carries the inputs. -/
theorem GL_fitregn_records_snapshot_witness :
    (GL_fitregn (fit_call ℚ) (idle_decoders ℚ) (ample_heap ℚ) ⟨1579, 1610⟩ test_spectrum
      (fit_peaks ℚ) (test_fitparms ℚ) (test_line ℚ) (test_width ℚ) 1 []).1 = GL_SUCCESS ∧
    (GL_fitregn (fit_call ℚ) (idle_decoders ℚ) (ample_heap ℚ) ⟨1579, 1610⟩ test_spectrum
      (fit_peaks ℚ) (test_fitparms ℚ) (test_line ℚ) (test_width ℚ) 1 []).2.length = 1 ∧
    ∀ r ∈ (GL_fitregn (fit_call ℚ) (idle_decoders ℚ) (ample_heap ℚ) ⟨1579, 1610⟩ test_spectrum
        (fit_peaks ℚ) (test_fitparms ℚ) (test_line ℚ) (test_width ℚ) 1 []).2,
      r.used_chanrange = ⟨1579, 1610⟩ ∧ r.used_parms = test_fitparms ℚ ∧
      r.used_ex = test_line ℚ ∧ r.used_wx = test_width ℚ ∧
      r.used_spectrum.firstchannel = test_spectrum.firstchannel ∧
      r.used_spectrum.nchannels = test_spectrum.nchannels ∧
      (∀ counts : Int → Int, test_spectrum.count = some counts →
        ∃ used : Int → Int, r.used_spectrum.count = some used ∧
          ∀ i : Int, 0 ≤ i → i < test_spectrum.nchannels → used i = counts i) ∧
      r.input_peaks.npeaks = (fit_peaks ℚ).npeaks ∧
      ∀ i : Int, 0 ≤ i → i < (fit_peaks ℚ).npeaks →
        r.input_peaks.peak i = (fit_peaks ℚ).peak i :=
  ⟨by decide, by decide,
    GL_fitregn_records_snapshot (fit_call ℚ) (idle_decoders ℚ) (ample_heap ℚ) ⟨1579, 1610⟩
      test_spectrum (fit_peaks ℚ) (test_fitparms ℚ) (test_line ℚ) (test_width ℚ) 1 []
      (by decide)⟩

/-! ## Energy to channel as a left inverse -/

/-- C29: `GL_e_to_chan` is a left inverse of `GL_chan_to_e` on the calibrated
domain. For every equation and channel `x` such that either (`mode` is linear
or `c = 0`) and `b != 0`, or `mode` is quadratic, `c != 0`, `x >= 0` and
`b + 2*c*x >= 0`, `GL_e_to_chan` applied to `GL_chan_to_e(x)` returns
`GL_SUCCESS` and writes exactly `x`. Arithmetic over the reals. -/
theorem GL_e_to_chan_left_inverse (ex : GLEnergyEqn ℝ) (x channel : ℝ)
    (hdom : ((ex.mode = GL_EGY_LINEAR ∨ ex.c = 0) ∧ ex.b ≠ 0) ∨
      (ex.mode = GL_EGY_QUADRATIC ∧ ex.c ≠ 0 ∧ 0 ≤ x ∧ 0 ≤ ex.b + 2 * ex.c * x)) :
    GL_e_to_chan Real.sqrt ex (GL_chan_to_e ex x) channel = (GL_SUCCESS, x) := by
  rcases hdom with ⟨hlin, hb⟩ | ⟨hq, hc, hx, hroot⟩
  · have hback : (GL_chan_to_e ex x - ex.a) / ex.b = x := by
      rcases hlin with hl | hc0
      · simp only [GL_chan_to_e, hl]
        field_simp
      · cases hm : ex.mode with
        | GL_EGY_LINEAR =>
          simp only [GL_chan_to_e, hm]
          field_simp
        | GL_EGY_QUADRATIC =>
          simp only [GL_chan_to_e, hm, hc0]
          field_simp
    simp only [GL_e_to_chan, if_pos hlin, if_neg hb, hback]
  · have hlin : ¬ (ex.mode = GL_EGY_LINEAR ∨ ex.c = 0) := by
      rintro (hl | hc0)
      · rw [hl] at hq
        exact GLEgyEqnMode.noConfusion hq
      · exact hc hc0
    have hE : GL_chan_to_e ex x = ex.a + ex.b * x + ex.c * x * x := by
      simp only [GL_chan_to_e, hq]
    have hdisc : ex.b * ex.b - 4 * ex.c * (ex.a - GL_chan_to_e ex x)
        = (ex.b + 2 * ex.c * x) ^ 2 := by
      rw [hE]
      ring
    have hd : ¬ ex.b * ex.b - 4 * ex.c * (ex.a - GL_chan_to_e ex x) < 0 := by
      rw [hdisc]
      exact not_lt.mpr (sq_nonneg _)
    have hsqrt : Real.sqrt (ex.b * ex.b - 4 * ex.c * (ex.a - GL_chan_to_e ex x))
        = ex.b + 2 * ex.c * x := by
      rw [hdisc]
      exact Real.sqrt_sq hroot
    have hquot : (-ex.b + (ex.b + 2 * ex.c * x)) / (2 * ex.c) = x := by
      field_simp
    have hmax : GAP_max 0 x = x := by
      unfold GAP_max
      split_ifs with h
      · rfl
      · exact le_antisymm hx (not_lt.mp h)
    simp only [GL_e_to_chan, if_neg hlin, if_neg hd, hsqrt, hquot, hmax]

/-- C29 at the test calibration `e = -17 + 1.6 x` and channel 20, and at the
parabola `e = 1 + 2 x + x^2` and channel 3: each channel comes back. -/
theorem GL_e_to_chan_left_inverse_witness :
    GL_e_to_chan Real.sqrt (⟨-17, 1.6, 0, 0, GL_EGY_LINEAR⟩ : GLEnergyEqn ℝ)
      (GL_chan_to_e (⟨-17, 1.6, 0, 0, GL_EGY_LINEAR⟩ : GLEnergyEqn ℝ) 20) 7 = (GL_SUCCESS, 20) ∧
    GL_e_to_chan Real.sqrt (⟨1, 2, 1, 0, GL_EGY_QUADRATIC⟩ : GLEnergyEqn ℝ)
      (GL_chan_to_e (⟨1, 2, 1, 0, GL_EGY_QUADRATIC⟩ : GLEnergyEqn ℝ) 3) 7 = (GL_SUCCESS, 3) :=
  ⟨GL_e_to_chan_left_inverse (⟨-17, 1.6, 0, 0, GL_EGY_LINEAR⟩ : GLEnergyEqn ℝ) 20 7
      (Or.inl ⟨Or.inl rfl, by norm_num⟩),
    GL_e_to_chan_left_inverse (⟨1, 2, 1, 0, GL_EGY_QUADRATIC⟩ : GLEnergyEqn ℝ) 3 7
      (Or.inr ⟨rfl, by norm_num, by norm_num, by norm_num⟩)⟩

/-! ## What updating a peak list leaves alone -/

/-- C30: `GL_update_peaklist`, with an equation or with `NULL`, never changes
`npeaks` or `listlength`, nor any peak's `type` or `fixed_centroid`, nor the
`channel` or `channel_valid` of a `GL_PEAK_CHANNEL` peak, nor the `energy`,
`energy_valid` or `sige` of a `GL_PEAK_ENERGY` peak, and it leaves every
entry at an index `>= npeaks` (and at a negative index) untouched. -/
theorem GL_update_peaklist_frame {F : Type} [LinearOrderedField F] (sqrt : F → F)
    (ex : Option (GLEnergyEqn F)) (peaks : GLPeakList F) :
    (GL_update_peaklist sqrt ex peaks).npeaks = peaks.npeaks ∧
    (GL_update_peaklist sqrt ex peaks).listlength = peaks.listlength ∧
    ∀ j : Int,
      ((GL_update_peaklist sqrt ex peaks).peak j).type = (peaks.peak j).type ∧
      ((GL_update_peaklist sqrt ex peaks).peak j).fixed_centroid
        = (peaks.peak j).fixed_centroid ∧
      ((peaks.peak j).type = GL_PEAK_CHANNEL →
        ((GL_update_peaklist sqrt ex peaks).peak j).channel = (peaks.peak j).channel ∧
        ((GL_update_peaklist sqrt ex peaks).peak j).channel_valid
          = (peaks.peak j).channel_valid) ∧
      ((peaks.peak j).type = GL_PEAK_ENERGY →
        ((GL_update_peaklist sqrt ex peaks).peak j).energy = (peaks.peak j).energy ∧
        ((GL_update_peaklist sqrt ex peaks).peak j).energy_valid
          = (peaks.peak j).energy_valid ∧
        ((GL_update_peaklist sqrt ex peaks).peak j).sige = (peaks.peak j).sige) ∧
      (¬ (0 ≤ j ∧ j < peaks.npeaks) →
        (GL_update_peaklist sqrt ex peaks).peak j = peaks.peak j) := by
  have hbody : ∀ (body : GLPeak F → GLPeak F),
      (∀ p : GLPeak F, (body p).type = p.type ∧ (body p).fixed_centroid = p.fixed_centroid ∧
        (p.type = GL_PEAK_CHANNEL →
          (body p).channel = p.channel ∧ (body p).channel_valid = p.channel_valid) ∧
        (p.type = GL_PEAK_ENERGY →
          (body p).energy = p.energy ∧ (body p).energy_valid = p.energy_valid ∧
          (body p).sige = p.sige)) →
      ∀ j : Int,
        ((for_each_peak body peaks.npeaks peaks.peak) j).type = (peaks.peak j).type ∧
        ((for_each_peak body peaks.npeaks peaks.peak) j).fixed_centroid
          = (peaks.peak j).fixed_centroid ∧
        ((peaks.peak j).type = GL_PEAK_CHANNEL →
          ((for_each_peak body peaks.npeaks peaks.peak) j).channel = (peaks.peak j).channel ∧
          ((for_each_peak body peaks.npeaks peaks.peak) j).channel_valid
            = (peaks.peak j).channel_valid) ∧
        ((peaks.peak j).type = GL_PEAK_ENERGY →
          ((for_each_peak body peaks.npeaks peaks.peak) j).energy = (peaks.peak j).energy ∧
          ((for_each_peak body peaks.npeaks peaks.peak) j).energy_valid
            = (peaks.peak j).energy_valid ∧
          ((for_each_peak body peaks.npeaks peaks.peak) j).sige = (peaks.peak j).sige) ∧
        (¬ (0 ≤ j ∧ j < peaks.npeaks) →
          (for_each_peak body peaks.npeaks peaks.peak) j = peaks.peak j) := by
    intro body hb j
    rw [for_each_peak_apply]
    by_cases hr : 0 ≤ j ∧ j < peaks.npeaks
    · rw [if_pos hr]
      obtain ⟨h1, h2, h3, h4⟩ := hb (peaks.peak j)
      exact ⟨h1, h2, h3, h4, fun h => absurd hr h⟩
    · rw [if_neg hr]
      exact ⟨rfl, rfl, fun _ => ⟨rfl, rfl⟩, fun _ => ⟨rfl, rfl, rfl⟩, fun _ => rfl⟩
  cases ex with
  | some e =>
    refine ⟨rfl, rfl, ?_⟩
    show ∀ j : Int,
      ((for_each_peak (update_peak_with sqrt e) peaks.npeaks peaks.peak) j).type
        = (peaks.peak j).type ∧ _
    refine hbody (update_peak_with sqrt e) (fun p => ?_)
    cases hty : p.type with
    | GL_PEAK_CHANNEL =>
      have hb : update_peak_with sqrt e p
          = { p with energy := GL_chan_to_e e p.channel, sige := 0, energy_valid := GL_TRUE } := by
        simp only [update_peak_with, hty]
      rw [hb]
      exact ⟨hty, rfl, fun _ => ⟨rfl, rfl⟩, fun h => GLPeakType.noConfusion h⟩
    | GL_PEAK_ENERGY =>
      have hb : update_peak_with sqrt e p
          = { p with
              channel := (GL_e_to_chan sqrt e p.energy p.channel).2
              channel_valid := GL_TRUE } := by
        simp only [update_peak_with, hty]
      rw [hb]
      exact ⟨hty, rfl, fun h => GLPeakType.noConfusion h, fun _ => ⟨rfl, rfl, rfl⟩⟩
  | none =>
    refine ⟨rfl, rfl, ?_⟩
    show ∀ j : Int,
      ((for_each_peak update_peak_without peaks.npeaks peaks.peak) j).type
        = (peaks.peak j).type ∧ _
    refine hbody update_peak_without (fun p => ?_)
    cases hty : p.type with
    | GL_PEAK_CHANNEL =>
      have hb : update_peak_without p = { p with energy_valid := GL_FALSE } := by
        simp only [update_peak_without, hty]
      rw [hb]
      exact ⟨hty, rfl, fun _ => ⟨rfl, rfl⟩, fun h => GLPeakType.noConfusion h⟩
    | GL_PEAK_ENERGY =>
      have hb : update_peak_without p = { p with channel_valid := GL_FALSE } := by
        simp only [update_peak_without, hty]
      rw [hb]
      exact ⟨hty, rfl, fun h => GLPeakType.noConfusion h, fun _ => ⟨rfl, rfl, rfl⟩⟩

/-- C30 at the two lists of the test: the channel peak at index 0 of
`fit_peaks` keeps its channel under the test calibration, the energy peak at
index 1 of `curr_rqd` keeps its energy and `sige` under it and under `NULL`,
and entry 2 of `curr_rqd`, beyond `npeaks = 2`, is not written. -/
theorem GL_update_peaklist_frame_witness :
    (((GL_update_peaklist Real.sqrt (some (test_line ℝ)) (fit_peaks ℝ)).peak 0).channel
        = ((fit_peaks ℝ).peak 0).channel ∧
      ((GL_update_peaklist Real.sqrt (some (test_line ℝ)) (fit_peaks ℝ)).peak 0).channel_valid
        = ((fit_peaks ℝ).peak 0).channel_valid) ∧
    (((GL_update_peaklist Real.sqrt (some (test_line ℝ)) (curr_rqd ℝ)).peak 1).energy
        = ((curr_rqd ℝ).peak 1).energy ∧
      ((GL_update_peaklist Real.sqrt (some (test_line ℝ)) (curr_rqd ℝ)).peak 1).energy_valid
        = ((curr_rqd ℝ).peak 1).energy_valid ∧
      ((GL_update_peaklist Real.sqrt (some (test_line ℝ)) (curr_rqd ℝ)).peak 1).sige
        = ((curr_rqd ℝ).peak 1).sige) ∧
    (((GL_update_peaklist Real.sqrt none (curr_rqd ℝ)).peak 1).energy
        = ((curr_rqd ℝ).peak 1).energy ∧
      ((GL_update_peaklist Real.sqrt none (curr_rqd ℝ)).peak 1).energy_valid
        = ((curr_rqd ℝ).peak 1).energy_valid ∧
      ((GL_update_peaklist Real.sqrt none (curr_rqd ℝ)).peak 1).sige
        = ((curr_rqd ℝ).peak 1).sige) ∧
    (GL_update_peaklist Real.sqrt (some (test_line ℝ)) (curr_rqd ℝ)).peak 2
      = (curr_rqd ℝ).peak 2 :=
  ⟨((GL_update_peaklist_frame Real.sqrt (some (test_line ℝ)) (fit_peaks ℝ)).2.2 0).2.2.1 rfl,
    ((GL_update_peaklist_frame Real.sqrt (some (test_line ℝ)) (curr_rqd ℝ)).2.2 1).2.2.2.1 rfl,
    ((GL_update_peaklist_frame Real.sqrt none (curr_rqd ℝ)).2.2 1).2.2.2.1 rfl,
    ((GL_update_peaklist_frame Real.sqrt (some (test_line ℝ)) (curr_rqd ℝ)).2.2 2).2.2.2.2
      (by decide)⟩

/-! ## The list of fit records -/

/-- The loop of `set_fit_list`, when it returns `GL_SUCCESS`, has appended to
`done` one record per fit, in the order of the fits: the first is set in
`curr`, the record of the current item, and the one for the fit at offset `k`
in a fresh record of the item allocated for it. -/
theorem set_fit_list_loop_records {F JRc JExc JBack JSumm JCurve : Type}
    [LinearOrderedField F] (dec : FitDecoders F JRc JExc JBack JSumm JCurve) (heap : FitHeap F)
    (region : GLChanRange) (spectrum : GLSpectrum) (peaks : GLPeakList F)
    (fitparms : GLFitParms F) (ex : GLEnergyEqn F) (wx : GLWidthEqn F) (nplots_per_chan : Int)
    (jfits : List (JFit F JRc JExc JBack JSumm JCurve)) :
    ∀ (i : Nat) (done : List (GLFitRecord F)) (curr : GLFitRecord F),
      (set_fit_list_loop dec heap region spectrum peaks fitparms ex wx nplots_per_chan
        jfits i done curr).1 = GL_SUCCESS →
      (set_fit_list_loop dec heap region spectrum peaks fitparms ex wx nplots_per_chan
        jfits i done curr).2.length = done.length + jfits.length ∧
      (∀ (k : Nat) (r : GLFitRecord F), done[k]? = some r →
        (set_fit_list_loop dec heap region spectrum peaks fitparms ex wx nplots_per_chan
          jfits i done curr).2[k]? = some r) ∧
      ∀ (k : Nat) (fitObject : JFit F JRc JExc JBack JSumm JCurve),
        jfits[k]? = some fitObject →
        (set_fit_list_loop dec heap region spectrum peaks fitparms ex wx nplots_per_chan
          jfits i done curr).2[done.length + k]?
          = some (set_fit_record dec (heap.record_memory (i + k)) region spectrum peaks
              fitparms ex wx nplots_per_chan fitObject
              (if k = 0 then curr else fitrec_alloc (heap.garbage (i + k)))).2 := by
  induction jfits with
  | nil =>
    intro i done curr _
    refine ⟨rfl, fun k r h => h, fun k fitObject h => ?_⟩
    simp at h
  | cons jf rest ih =>
    intro i done curr hok
    unfold set_fit_list_loop at hok ⊢
    by_cases hrec : (set_fit_record dec (heap.record_memory i) region spectrum peaks fitparms
        ex wx nplots_per_chan jf curr).1 ≠ GL_SUCCESS
    · rw [if_pos hrec] at hok
      exact absurd hok hrec
    · rw [if_neg hrec] at hok ⊢
      cases halloc : alloc_fitreclist_item (heap.item_available (i + 1))
          (heap.garbage (i + 1)) with
      | none =>
        rw [halloc] at hok
        exact GLRtnCode.noConfusion hok
      | some next =>
        rw [halloc] at hok
        have hnext : next = fitrec_alloc (heap.garbage (i + 1)) := by
          unfold alloc_fitreclist_item at halloc
          by_cases hav : heap.item_available (i + 1) = true
          · rw [if_pos hav] at halloc
            exact (Option.some.inj halloc).symm
          · rw [if_neg hav] at halloc
            exact Option.noConfusion halloc
        obtain ⟨hlen, hdone, hrecs⟩ := ih (i + 1) _ next hok
        simp only
        refine ⟨?_, fun k r h => ?_, fun k fitObject h => ?_⟩
        · rw [hlen, List.length_append, List.length_singleton, List.length_cons]
          omega
        · refine hdone k r ?_
          have hk : k < done.length := by
            by_contra hge
            rw [List.getElem?_eq_none (not_lt.mp hge)] at h
            exact Option.noConfusion h
          rw [List.getElem?_append_left hk]
          exact h
        · cases k with
          | zero =>
            have h0 : jf = fitObject := by
              simpa using h
            refine hdone done.length _ ?_
            rw [h0]
            simp
          | succ m =>
            have hm : rest[m]? = some fitObject := by
              simpa using h
            have := hrecs m fitObject hm
            rw [List.length_append, List.length_singleton] at this
            have hidx : done.length + 1 + m = done.length + (m + 1) := by omega
            rw [hidx] at this
            rw [this]
            have hi : i + 1 + m = i + (m + 1) := by omega
            rw [hi]
            cases m with
            | zero => simp [hnext]
            | succ n => simp

/-- C27: when the fit vector of the engine holds `n >= 1` fits, a successful
`set_fit_list` returns a list of exactly `n` records, record `i` decoded by
`set_fit_record` from fit `i` of the vector into the fresh record of list
item `i`, with no trailing empty record (the item allocated after the last
fit is not part of the list); when the vector holds no fit it returns
`GL_SUCCESS` with the `NULL` list. -/
theorem set_fit_list_one_record_per_fit {F JRc JExc JBack JSumm JCurve : Type}
    [LinearOrderedField F] (dec : FitDecoders F JRc JExc JBack JSumm JCurve) (heap : FitHeap F)
    (region : GLChanRange) (spectrum : GLSpectrum) (peaks : GLPeakList F)
    (fitparms : GLFitParms F) (ex : GLEnergyEqn F) (wx : GLWidthEqn F) (nplots_per_chan : Int)
    (fitVectorObject : JFitVector F JRc JExc JBack JSumm JCurve)
    (jfits : List (JFit F JRc JExc JBack JSumm JCurve))
    (harr : fitVectorObject.array = some jfits) :
    (jfits.length = 0 →
      set_fit_list dec heap region spectrum peaks fitparms ex wx nplots_per_chan
        fitVectorObject = (GL_SUCCESS, [])) ∧
    (1 ≤ jfits.length →
      (set_fit_list dec heap region spectrum peaks fitparms ex wx nplots_per_chan
        fitVectorObject).1 = GL_SUCCESS →
      (set_fit_list dec heap region spectrum peaks fitparms ex wx nplots_per_chan
        fitVectorObject).2.length = jfits.length ∧
      ∀ (i : Nat) (fitObject : JFit F JRc JExc JBack JSumm JCurve),
        jfits[i]? = some fitObject →
        (set_fit_list dec heap region spectrum peaks fitparms ex wx nplots_per_chan
          fitVectorObject).2[i]?
          = some (set_fit_record dec (heap.record_memory i) region spectrum peaks fitparms ex wx
              nplots_per_chan fitObject (fitrec_alloc (heap.garbage i))).2) := by
  refine ⟨fun h0 => ?_, fun h1 hok => ?_⟩
  · unfold set_fit_list
    simp only [harr]
    have h6 : (0 : Int) ≥ (jfits.length : Int) := by omega
    rw [if_pos h6]
  · unfold set_fit_list at hok ⊢
    simp only [harr] at hok ⊢
    have h6 : ¬ (0 : Int) ≥ (jfits.length : Int) := by omega
    rw [if_neg h6] at hok ⊢
    cases h7 : fitVectorObject.fit_class_found with
    | false => simp [h7] at hok
    | true =>
      cases h8 : fitVectorObject.fit_methods_found with
      | false => simp [h7, h8] at hok
      | true =>
        cases h9 : fitVectorObject.peak_class_found with
        | false => simp [h7, h8, h9] at hok
        | true =>
          cases h10 : fitVectorObject.getChannel_found with
          | false => simp [h7, h8, h9, h10] at hok
          | true =>
            simp only [h7, h8, h9, h10, Bool.not_true, Bool.false_eq_true, if_false] at hok ⊢
            cases h11 : alloc_fitreclist_item (heap.item_available 0) (heap.garbage 0) with
            | none => simp [h11] at hok
            | some curr =>
              simp only [h11] at hok ⊢
              have hcurr : curr = fitrec_alloc (heap.garbage 0) := by
                unfold alloc_fitreclist_item at h11
                by_cases hav : heap.item_available 0 = true
                · rw [if_pos hav] at h11
                  exact (Option.some.inj h11).symm
                · rw [if_neg hav] at h11
                  exact Option.noConfusion h11
              obtain ⟨hlen, _, hrecs⟩ := set_fit_list_loop_records dec heap region spectrum
                peaks fitparms ex wx nplots_per_chan jfits 0 [] curr hok
              refine ⟨by simpa using hlen, fun i fitObject hi => ?_⟩
              have := hrecs i fitObject hi
              simp only [List.length_nil, Nat.zero_add] at this
              rw [this]
              cases i with
              | zero => simp [hcurr]
              | succ n => simp

/-- C27 at the fit call of the test, whose vector holds one fit: the list has
one record, the one decoded from that fit. -/
theorem set_fit_list_one_record_per_fit_witness :
    (set_fit_list (idle_decoders ℚ) (ample_heap ℚ) ⟨1579, 1610⟩ test_spectrum (fit_peaks ℚ)
      (test_fitparms ℚ) (test_line ℚ) (test_width ℚ) 1
      ⟨some [jfit_one ℚ], true, true, true, true⟩).2.length = 1 ∧
    ∀ (i : Nat) (fitObject : JFit ℚ Unit Unit Unit Unit Unit),
      [jfit_one ℚ][i]? = some fitObject →
      (set_fit_list (idle_decoders ℚ) (ample_heap ℚ) ⟨1579, 1610⟩ test_spectrum (fit_peaks ℚ)
        (test_fitparms ℚ) (test_line ℚ) (test_width ℚ) 1
        ⟨some [jfit_one ℚ], true, true, true, true⟩).2[i]?
        = some (set_fit_record (idle_decoders ℚ) ((ample_heap ℚ).record_memory i) ⟨1579, 1610⟩
            test_spectrum (fit_peaks ℚ) (test_fitparms ℚ) (test_line ℚ) (test_width ℚ) 1
            fitObject (fitrec_alloc ((ample_heap ℚ).garbage i))).2 :=
  (set_fit_list_one_record_per_fit (idle_decoders ℚ) (ample_heap ℚ) ⟨1579, 1610⟩ test_spectrum
    (fit_peaks ℚ) (test_fitparms ℚ) (test_line ℚ) (test_width ℚ) 1
    ⟨some [jfit_one ℚ], true, true, true, true⟩ [jfit_one ℚ] rfl).2 (by decide) (by decide)

/-! ## Decoding the cycle return code -/

/-- `strncmp` answers 0 exactly when the two strings agree on their first `n`
characters (or up to their common end before that). -/
theorem strncmp_eq_zero_iff :
    ∀ (n : Nat) (s t : List Char), strncmp s t n = 0 ↔ s.take n = t.take n := by
  intro n
  induction n with
  | zero =>
    intro s t
    simp [strncmp]
  | succ m ih =>
    intro s t
    cases s with
    | nil =>
      cases t with
      | nil => simp [strncmp]
      | cons d t => simp [strncmp]
    | cons c s =>
      cases t with
      | nil => simp [strncmp]
      | cons d t =>
        by_cases hcd : c = d
        · simp [strncmp, hcd, ih]
        · by_cases hlt : c < d
          · simp [strncmp, hcd, hlt]
          · simp [strncmp, hcd, hlt]

/-- The test `0 == strncmp(s, t, strlen(t))` holds exactly when `s` starts
with `t`. -/
theorem strncmp_zero_iff_starts (s t : List Char) :
    0 = strncmp s t t.length ↔ t <+: s := by
  rw [eq_comm, strncmp_eq_zero_iff, List.take_length, List.prefix_iff_eq_take]
  exact eq_comm

/-- C28: when the JNI steps on the Java cycle return code succeed,
`set_cycle_return` decodes the names `DONE`, `DELETE`, `ADD` and `CONTINUE` to
`GL_CYCLE_DONE`, `GL_CYCLE_DELETE`, `GL_CYCLE_ADD` and `GL_CYCLE_CONTINUE`, so
that `get_cycle_return_string` of the decoded code is the same name for each
of the four; and every name that does not start with `DONE`, `DEL` or `ADD`
decodes to `GL_CYCLE_CONTINUE`. -/
theorem set_cycle_return_decodes (jcycleReturnCode : JCycleReturnCode) (name : String)
    (cycle_return : GLCycleReturn)
    (hclass : jcycleReturnCode.class_found = true)
    (hmid : jcycleReturnCode.name_found = true)
    (hname : jcycleReturnCode.name = some name)
    (hchars : jcycleReturnCode.chars_decoded = true) :
    (name = "DONE" →
      set_cycle_return jcycleReturnCode cycle_return = (GL_SUCCESS, GL_CYCLE_DONE)) ∧
    (name = "DELETE" →
      set_cycle_return jcycleReturnCode cycle_return = (GL_SUCCESS, GL_CYCLE_DELETE)) ∧
    (name = "ADD" →
      set_cycle_return jcycleReturnCode cycle_return = (GL_SUCCESS, GL_CYCLE_ADD)) ∧
    (name = "CONTINUE" →
      set_cycle_return jcycleReturnCode cycle_return = (GL_SUCCESS, GL_CYCLE_CONTINUE)) ∧
    (name ∈ ["DONE", "DELETE", "ADD", "CONTINUE"] →
      get_cycle_return_string (set_cycle_return jcycleReturnCode cycle_return).2 = name) ∧
    (¬ "DONE".toList <+: name.toList → ¬ "DEL".toList <+: name.toList →
      ¬ "ADD".toList <+: name.toList →
      set_cycle_return jcycleReturnCode cycle_return = (GL_SUCCESS, GL_CYCLE_CONTINUE)) := by
  have hval : set_cycle_return jcycleReturnCode cycle_return
      = if 0 = strncmp name.toList "DONE".toList 4 then (GL_SUCCESS, GL_CYCLE_DONE)
        else if 0 = strncmp name.toList "DEL".toList 3 then (GL_SUCCESS, GL_CYCLE_DELETE)
        else if 0 = strncmp name.toList "ADD".toList 3 then (GL_SUCCESS, GL_CYCLE_ADD)
        else (GL_SUCCESS, GL_CYCLE_CONTINUE) := by
    simp only [set_cycle_return, hclass, hmid, hname, hchars, Bool.not_true,
      Bool.false_eq_true, if_false]
  have hdone : name = "DONE" →
      set_cycle_return jcycleReturnCode cycle_return = (GL_SUCCESS, GL_CYCLE_DONE) := by
    intro h
    rw [hval, h]
    decide
  have hdel : name = "DELETE" →
      set_cycle_return jcycleReturnCode cycle_return = (GL_SUCCESS, GL_CYCLE_DELETE) := by
    intro h
    rw [hval, h]
    decide
  have hadd : name = "ADD" →
      set_cycle_return jcycleReturnCode cycle_return = (GL_SUCCESS, GL_CYCLE_ADD) := by
    intro h
    rw [hval, h]
    decide
  have hcont : name = "CONTINUE" →
      set_cycle_return jcycleReturnCode cycle_return = (GL_SUCCESS, GL_CYCLE_CONTINUE) := by
    intro h
    rw [hval, h]
    decide
  refine ⟨hdone, hdel, hadd, hcont, fun hmem => ?_, fun h1 h2 h3 => ?_⟩
  · simp only [List.mem_cons, List.mem_singleton, List.not_mem_nil, or_false] at hmem
    rcases hmem with h | h | h | h
    · rw [hdone h, h]
      rfl
    · rw [hdel h, h]
      rfl
    · rw [hadd h, h]
      rfl
    · rw [hcont h, h]
      rfl
  · have e1 : ¬ 0 = strncmp name.toList "DONE".toList 4 :=
      fun h => h1 ((strncmp_zero_iff_starts name.toList "DONE".toList).mp h)
    have e2 : ¬ 0 = strncmp name.toList "DEL".toList 3 :=
      fun h => h2 ((strncmp_zero_iff_starts name.toList "DEL".toList).mp h)
    have e3 : ¬ 0 = strncmp name.toList "ADD".toList 3 :=
      fun h => h3 ((strncmp_zero_iff_starts name.toList "ADD".toList).mp h)
    rw [hval, if_neg e1, if_neg e2, if_neg e3]

/-- C28 at the four names of the engine and at the name `STOP`, which starts
with none of the three tested beginnings. -/
theorem set_cycle_return_decodes_witness :
    set_cycle_return (jcycle_named "DONE") GL_CYCLE_ADD = (GL_SUCCESS, GL_CYCLE_DONE) ∧
    set_cycle_return (jcycle_named "DELETE") GL_CYCLE_ADD = (GL_SUCCESS, GL_CYCLE_DELETE) ∧
    set_cycle_return (jcycle_named "ADD") GL_CYCLE_DONE = (GL_SUCCESS, GL_CYCLE_ADD) ∧
    set_cycle_return (jcycle_named "CONTINUE") GL_CYCLE_DONE
      = (GL_SUCCESS, GL_CYCLE_CONTINUE) ∧
    get_cycle_return_string (set_cycle_return (jcycle_named "DELETE") GL_CYCLE_ADD).2
      = "DELETE" ∧
    set_cycle_return (jcycle_named "STOP") GL_CYCLE_DONE = (GL_SUCCESS, GL_CYCLE_CONTINUE) :=
  ⟨(set_cycle_return_decodes (jcycle_named "DONE") "DONE" GL_CYCLE_ADD rfl rfl rfl rfl).1 rfl,
    (set_cycle_return_decodes (jcycle_named "DELETE") "DELETE" GL_CYCLE_ADD rfl rfl rfl
      rfl).2.1 rfl,
    (set_cycle_return_decodes (jcycle_named "ADD") "ADD" GL_CYCLE_DONE rfl rfl rfl rfl).2.2.1
      rfl,
    (set_cycle_return_decodes (jcycle_named "CONTINUE") "CONTINUE" GL_CYCLE_DONE rfl rfl rfl
      rfl).2.2.2.1 rfl,
    (set_cycle_return_decodes (jcycle_named "DELETE") "DELETE" GL_CYCLE_ADD rfl rfl rfl
      rfl).2.2.2.2.1 (by decide),
    (set_cycle_return_decodes (jcycle_named "STOP") "STOP" GL_CYCLE_DONE rfl rfl rfl
      rfl).2.2.2.2.2 (by decide) (by decide) (by decide)⟩

/-! ## Decoding the curve of a fit -/

/-- A curve handed out by `GAP_curve_alloc` has `npoints` computed from the
channels and the plots per channel, `listlength` equal to it, and the counts
it was asked for. -/
theorem GAP_curve_alloc_some {F : Type} [LinearOrderedField F] (mem : CurveMemory)
    (nchannels nplots_per_chan npeaks : Int) (c : GLCurve F)
    (h : GAP_curve_alloc mem nchannels nplots_per_chan npeaks = some c) :
    c.npoints = ((nchannels - 1) * nplots_per_chan) + 1 ∧ c.listlength = c.npoints ∧
    c.nplots_per_chan = nplots_per_chan ∧ c.npeaks = npeaks := by
  unfold GAP_curve_alloc at h
  cases h0 : mem.curve_available with
  | false => simp [h0] at h
  | true =>
    simp only [h0, Bool.not_true, Bool.false_eq_true, if_false] at h
    cases h1 : calloc_array (fun _ => (0 : F)) mem.x_offset_available
        ((nchannels - 1) * nplots_per_chan + 1) with
    | none => simp [h1] at h
    | some x_offset =>
      cases h2 : calloc_array (fun _ => (0 : Int)) mem.fitpeak_available npeaks with
      | none => simp [h1, h2] at h
      | some rows =>
        cases h3 : calloc_array (fun _ => (0 : F)) mem.storage_available
            (((nchannels - 1) * nplots_per_chan + 1) * npeaks) with
        | none => simp [h1, h2, h3] at h
        | some storage =>
          cases h4 : calloc_array (fun _ => (0 : F)) mem.fitcurve_available
              ((nchannels - 1) * nplots_per_chan + 1) with
          | none => simp [h1, h2, h3, h4] at h
          | some fitcurve =>
            cases h5 : calloc_array (fun _ => (0 : F)) mem.back_available
                ((nchannels - 1) * nplots_per_chan + 1) with
            | none => simp [h1, h2, h3, h4, h5] at h
            | some back =>
              cases h6 : calloc_array (fun _ => (0 : F)) mem.resid_available nchannels with
              | none => simp [h1, h2, h3, h4, h5, h6] at h
              | some resid =>
                simp only [h1, h2, h3, h4, h5, h6] at h
                have hc := Option.some.inj h
                rw [← hc]
                exact ⟨rfl, rfl, rfl, rfl⟩

/-- The second part of `set_curve` either succeeds with a curve that has the
sizes and the range of the one it was given, or fails with `GL_JNIERROR` or
`GL_BADMALLOC` and no curve. -/
theorem set_curve_points_spec {F : Type} [LinearOrderedField F] (mem : CurveMemory)
    (jcurve : JCurveObject F) (nchannels : Int) (curve : GLCurve F) :
    ((set_curve_points mem jcurve nchannels curve).1 = GL_SUCCESS ∧
      ∃ c : GLCurve F, (set_curve_points mem jcurve nchannels curve).2 = some c ∧
        c.listlength = curve.listlength ∧ c.chanrange = curve.chanrange ∧
        c.nplots_per_chan = curve.nplots_per_chan ∧ c.npoints = curve.npoints ∧
        c.npeaks = curve.npeaks) ∨
    (((set_curve_points mem jcurve nchannels curve).1 = GL_JNIERROR ∨
        (set_curve_points mem jcurve nchannels curve).1 = GL_BADMALLOC) ∧
      (set_curve_points mem jcurve nchannels curve).2 = none) := by
  unfold set_curve_points
  cases h1 : jcurve.getComponentPoints_found with
  | false => exact Or.inr ⟨Or.inl rfl, rfl⟩
  | true =>
    simp only [Bool.not_true, Bool.false_eq_true, if_false]
    cases h2 : calloc_array (fun _ => (none : Option (Int → JPoint F))) mem.peakfit_available
        curve.npeaks with
    | none => exact Or.inr ⟨Or.inr rfl, rfl⟩
    | some nulls =>
      simp only
      cases h3 : get_peakfit_arrays jcurve (List.range curve.npeaks.toNat) nulls with
      | none => exact Or.inr ⟨Or.inl rfl, rfl⟩
      | some arrays =>
        simp only
        cases h4 : jcurve.getCurvePoints_found with
        | false => exact Or.inr ⟨Or.inl rfl, rfl⟩
        | true =>
          simp only [Bool.not_true, Bool.false_eq_true, if_false]
          cases h5 : jcurve.getCurvePoints.bind get_array_from_jvector with
          | none => exact Or.inr ⟨Or.inl rfl, rfl⟩
          | some fitCurve =>
            simp only
            cases h6 : jcurve.getBackPoints_found with
            | false => exact Or.inr ⟨Or.inl rfl, rfl⟩
            | true =>
              simp only [Bool.not_true, Bool.false_eq_true, if_false]
              cases h7 : jcurve.getBackPoints.bind get_array_from_jvector with
              | none => exact Or.inr ⟨Or.inl rfl, rfl⟩
              | some fitBack =>
                simp only
                cases h8 : jcurve.getResiduals_found with
                | false => exact Or.inr ⟨Or.inl rfl, rfl⟩
                | true =>
                  simp only [Bool.not_true, Bool.false_eq_true, if_false]
                  cases h9 : jcurve.getResiduals.bind get_array_from_jvector with
                  | none => exact Or.inr ⟨Or.inl rfl, rfl⟩
                  | some fitResid =>
                    simp only
                    cases h10 : jcurve.point_class_found with
                    | false => exact Or.inr ⟨Or.inl rfl, rfl⟩
                    | true =>
                      cases h11 : jcurve.getX_found with
                      | false => exact Or.inr ⟨Or.inl rfl, rfl⟩
                      | true =>
                        cases h12 : jcurve.getY_found with
                        | false => exact Or.inr ⟨Or.inl rfl, rfl⟩
                        | true =>
                          exact Or.inl ⟨rfl, _, rfl, rfl, rfl, rfl, rfl, rfl⟩

/-- C21, the claim refuted: the Java curve of the test fit (region
1579..1610, 10 plots per channel, so 311 points in C) reports 320 plotted
points and `malloc` has no memory for the `GLCurve`; `set_curve` then returns
`GL_BADMALLOC`, not `GL_JNIERROR`: the storage is allocated before the two
numbers of points are compared. -/
theorem set_curve_mismatch_badmalloc :
    (jcurve_test ℚ 320).getNumPlottedPoints
      ≠ ((1610 - 1579 + 1) - 1) * (jcurve_test ℚ 320).getNPlotsPerChannel + 1 ∧
    (set_curve no_curve_memory (jcurve_test ℚ 320) ⟨1579, 1610⟩ none).1 = GL_BADMALLOC ∧
    (set_curve no_curve_memory (jcurve_test ℚ 320) ⟨1579, 1610⟩ none).2.isNone = true := by
  refine ⟨by decide, by decide, by decide⟩

/-- C21 as amended: every curve that `set_curve` delivers with `GL_SUCCESS`
satisfies `npoints == (nchannels - 1) * nplots_per_chan + 1` with
`nchannels = chanrange.last - chanrange.first + 1`, has
`listlength >= npoints`, and has `chanrange` equal to the fitted region.
Whenever the curve of the engine reports a different number of plotted
points, `set_curve` returns `GL_JNIERROR`, or `GL_BADMALLOC` when the curve
storage cannot be allocated (exactly when `GAP_curve_alloc` returns `NULL`),
and delivers no curve: `*curve` is `NULL` after the call when the four
lookups that precede the allocation succeed, and likewise when it was `NULL`
before the call. -/
theorem set_curve_delivers {F : Type} [LinearOrderedField F] (mem : CurveMemory)
    (jcurve : JCurveObject F) (chanrange : GLChanRange) (curve : Option (GLCurve F)) :
    ((set_curve mem jcurve chanrange curve).1 = GL_SUCCESS →
      ∃ c : GLCurve F, (set_curve mem jcurve chanrange curve).2 = some c ∧
        c.npoints = ((c.chanrange.last - c.chanrange.first + 1) - 1) * c.nplots_per_chan + 1 ∧
        c.listlength ≥ c.npoints ∧ c.chanrange = chanrange) ∧
    (jcurve.getNumPlottedPoints
        ≠ ((chanrange.last - chanrange.first + 1) - 1) * jcurve.getNPlotsPerChannel + 1 →
      ((set_curve mem jcurve chanrange curve).1 = GL_JNIERROR ∨
        (set_curve mem jcurve chanrange curve).1 = GL_BADMALLOC) ∧
      ((set_curve mem jcurve chanrange curve).1 = GL_BADMALLOC →
        (GAP_curve_alloc mem (chanrange.last - chanrange.first + 1)
          jcurve.getNPlotsPerChannel jcurve.getNpeaks : Option (GLCurve F)) = none) ∧
      (jcurve.class_found = true → jcurve.getNpeaks_found = true →
        jcurve.getNPlotsPerChannel_found = true → jcurve.getNumPlottedPoints_found = true →
        (set_curve mem jcurve chanrange curve).2 = none ∧
        ((GAP_curve_alloc mem (chanrange.last - chanrange.first + 1)
            jcurve.getNPlotsPerChannel jcurve.getNpeaks : Option (GLCurve F)) = none →
          (set_curve mem jcurve chanrange curve).1 = GL_BADMALLOC)) ∧
      (curve = none → (set_curve mem jcurve chanrange curve).2 = none)) := by
  have hfail : ∀ c0 : Option (GLCurve F),
      (((GL_JNIERROR, c0) : GLRtnCode × Option (GLCurve F)).1 = GL_SUCCESS →
        ∃ c : GLCurve F, ((GL_JNIERROR, c0) : GLRtnCode × Option (GLCurve F)).2 = some c ∧
          c.npoints
            = ((c.chanrange.last - c.chanrange.first + 1) - 1) * c.nplots_per_chan + 1 ∧
          c.listlength ≥ c.npoints ∧ c.chanrange = chanrange) :=
    fun _ h => GLRtnCode.noConfusion h
  unfold set_curve
  cases h1 : jcurve.class_found with
  | false =>
    exact ⟨hfail curve, fun _ => ⟨Or.inl rfl, fun h => GLRtnCode.noConfusion h,
      fun h => Bool.noConfusion h, fun h => h⟩⟩
  | true =>
    cases h2 : jcurve.getNpeaks_found with
    | false =>
      exact ⟨hfail curve, fun _ => ⟨Or.inl rfl, fun h => GLRtnCode.noConfusion h,
        fun _ h => Bool.noConfusion h, fun h => h⟩⟩
    | true =>
      cases h3 : jcurve.getNPlotsPerChannel_found with
      | false =>
        exact ⟨hfail curve, fun _ => ⟨Or.inl rfl, fun h => GLRtnCode.noConfusion h,
          fun _ _ h => Bool.noConfusion h, fun h => h⟩⟩
      | true =>
        cases h4 : jcurve.getNumPlottedPoints_found with
        | false =>
          exact ⟨hfail curve, fun _ => ⟨Or.inl rfl, fun h => GLRtnCode.noConfusion h,
            fun _ _ _ h => Bool.noConfusion h, fun h => h⟩⟩
        | true =>
          simp only [Bool.not_true, Bool.false_eq_true, if_false]
          cases halloc : (GAP_curve_alloc mem (chanrange.last - chanrange.first + 1)
              jcurve.getNPlotsPerChannel jcurve.getNpeaks : Option (GLCurve F)) with
          | none =>
            exact ⟨fun h => GLRtnCode.noConfusion h,
              fun _ => ⟨Or.inr rfl, fun _ => rfl, fun _ _ _ _ => ⟨rfl, fun _ => rfl⟩,
                fun _ => rfl⟩⟩
          | some storage =>
            obtain ⟨hnp, hll, hpl, _⟩ := GAP_curve_alloc_some mem _ _ _ storage halloc
            simp only
            by_cases hne : storage.npoints ≠ jcurve.getNumPlottedPoints
            · rw [if_pos hne]
              exact ⟨fun h => GLRtnCode.noConfusion h,
                fun _ => ⟨Or.inl rfl, fun h => GLRtnCode.noConfusion h,
                  fun _ _ _ _ => ⟨rfl, fun h => Option.noConfusion h⟩, fun _ => rfl⟩⟩
            · rw [if_neg hne]
              have heq : storage.npoints = jcurve.getNumPlottedPoints := not_not.mp hne
              refine ⟨fun hok => ?_, fun hmis => ?_⟩
              · rcases set_curve_points_spec mem jcurve (chanrange.last - chanrange.first + 1)
                    { storage with
                      chanrange :=
                        { storage.chanrange with
                          first := chanrange.first, last := chanrange.last } } with
                  ⟨_, c, hc, hl, hr, hp, hn, _⟩ | ⟨hcode, _⟩
                · refine ⟨c, hc, ?_, ?_, ?_⟩
                  · rw [hn, hp, hr]
                    show storage.npoints
                      = ((chanrange.last - chanrange.first + 1) - 1) * storage.nplots_per_chan + 1
                    rw [hnp, hpl]
                  · rw [hl, hn]
                    show storage.listlength ≥ storage.npoints
                    rw [hll]
                  · rw [hr]
                · rcases hcode with h | h
                  · rw [h] at hok
                    exact GLRtnCode.noConfusion hok
                  · rw [h] at hok
                    exact GLRtnCode.noConfusion hok
              · exact absurd (heq.symm.trans hnp) hmis

/-- C21 as amended, at the Java curve of the test fit: with the 311 points of
the C storage it is delivered with `GL_SUCCESS`, 311 points and the region
1579..1610; reporting 320 points it is refused with `GL_JNIERROR` and no curve
when the storage is allocated, and with `GL_BADMALLOC` when it is not. -/
theorem set_curve_delivers_witness :
    (∃ c : GLCurve ℚ,
      (set_curve ample_curve_memory (jcurve_test ℚ 311) ⟨1579, 1610⟩ none).2 = some c ∧
        c.npoints = ((c.chanrange.last - c.chanrange.first + 1) - 1) * c.nplots_per_chan + 1 ∧
        c.listlength ≥ c.npoints ∧ c.chanrange = ⟨1579, 1610⟩) ∧
    (((set_curve ample_curve_memory (jcurve_test ℚ 320) ⟨1579, 1610⟩ none).1 = GL_JNIERROR ∨
        (set_curve ample_curve_memory (jcurve_test ℚ 320) ⟨1579, 1610⟩ none).1
          = GL_BADMALLOC) ∧
      (set_curve ample_curve_memory (jcurve_test ℚ 320) ⟨1579, 1610⟩ none).2 = none) ∧
    (set_curve no_curve_memory (jcurve_test ℚ 320) ⟨1579, 1610⟩ none).1 = GL_BADMALLOC :=
  ⟨(set_curve_delivers ample_curve_memory (jcurve_test ℚ 311) ⟨1579, 1610⟩ none).1
      (by decide),
    ⟨((set_curve_delivers ample_curve_memory (jcurve_test ℚ 320) ⟨1579, 1610⟩ none).2
        (by decide)).1,
      (((set_curve_delivers ample_curve_memory (jcurve_test ℚ 320) ⟨1579, 1610⟩ none).2
        (by decide)).2.2.1 rfl rfl rfl rfl).1⟩,
    (((set_curve_delivers no_curve_memory (jcurve_test ℚ 320) ⟨1579, 1610⟩ none).2
      (by decide)).2.2.1 rfl rfl rfl rfl).2 rfl⟩

/-! ## Return codes of pruning -/

/-- The codes that the loop of `set_peak_list` can leave with. -/
theorem set_peak_list_loop_code {F : Type} [LinearOrderedField F] (jpeaks : List (JPeak F)) :
    ∀ (i : Int) (peaklist : GLPeakList F),
      (set_peak_list_loop jpeaks i peaklist).1 = GL_SUCCESS ∨
      (set_peak_list_loop jpeaks i peaklist).1 = GL_JNIERROR := by
  induction jpeaks with
  | nil =>
    intro i peaklist
    exact Or.inl rfl
  | cons jpeak rest ih =>
    intro i peaklist
    unfold set_peak_list_loop
    cases hty : jpeak.m_type with
    | none => exact Or.inr rfl
    | some jtype =>
      simp only
      by_cases hcode : (get_type_c jtype (peaklist.peak i).type).1 ≠ GL_SUCCESS
      · rw [if_pos hcode]
        right
        show (get_type_c jtype (peaklist.peak i).type).1 = GL_JNIERROR
        unfold get_type_c at hcode ⊢
        cases h1 : jtype.class_found with
        | false => rfl
        | true =>
          cases h2 : jtype.label_found with
          | false => rfl
          | true =>
            cases h3 : jtype.label with
            | none => rfl
            | some typeLabel =>
              cases h4 : jtype.chars_decoded with
              | false => rfl
              | true =>
                simp only [h1, h2, h3, h4, Bool.not_true, Bool.false_eq_true,
                  if_false] at hcode
                split_ifs at hcode <;> exact absurd rfl hcode
      · rw [if_neg hcode]
        exact ih _ _

/-- C22, evaluated at a failing input: the engine keeps two required peaks
and `new_rqd` was made by `GL_peaks_alloc(1)`. `set_peak_list` finds
`listlength < npeaks` and returns `GL_FAILURE`, which `GL_prune_rqdpks` hands
on; the header of `GL_prune_rqdpks` lists `GL_NOJVM`, `GL_JNIERROR` and
`GL_SUCCESS` as its possible return codes. Nothing is written to
`new_rqd`. -/
theorem GL_prune_rqdpks_returns_failure :
    (GL_prune_rqdpks prune_lookups_found (prune_keeps_two ℚ) (test_width ℚ) (fit_peaks ℚ)
      (curr_rqd ℚ) (new_rqd_alloc ℚ 1)).1 = GL_FAILURE ∧
    (GL_prune_rqdpks prune_lookups_found (prune_keeps_two ℚ) (test_width ℚ) (fit_peaks ℚ)
      (curr_rqd ℚ) (new_rqd_alloc ℚ 1)).1 ≠ GL_NOJVM ∧
    (GL_prune_rqdpks prune_lookups_found (prune_keeps_two ℚ) (test_width ℚ) (fit_peaks ℚ)
      (curr_rqd ℚ) (new_rqd_alloc ℚ 1)).1 ≠ GL_JNIERROR ∧
    (GL_prune_rqdpks prune_lookups_found (prune_keeps_two ℚ) (test_width ℚ) (fit_peaks ℚ)
      (curr_rqd ℚ) (new_rqd_alloc ℚ 1)).1 ≠ GL_SUCCESS ∧
    (GL_prune_rqdpks prune_lookups_found (prune_keeps_two ℚ) (test_width ℚ) (fit_peaks ℚ)
      (curr_rqd ℚ) (new_rqd_alloc ℚ 1)).2.npeaks = 0 := by
  refine ⟨by decide, by decide, by decide, by decide, by decide⟩

/-- The return codes of `set_peak_list`: `GL_JNIERROR`, `GL_SUCCESS`, and
`GL_FAILURE` exactly when the set holds more peaks than the list has room
for. -/
theorem set_peak_list_codes {F : Type} [LinearOrderedField F] (tree : JPeakTreeSet F)
    (peaklist : GLPeakList F) :
    ((set_peak_list tree peaklist).1 = GL_JNIERROR ∨
      (set_peak_list tree peaklist).1 = GL_SUCCESS ∨
      (set_peak_list tree peaklist).1 = GL_FAILURE) ∧
    ((set_peak_list tree peaklist).1 = GL_FAILURE ↔
      ∃ jpeakArray : List (JPeak F), tree.tree.array = some jpeakArray ∧
        peaklist.listlength < (jpeakArray.length : Int)) := by
  unfold set_peak_list GAP_get_array_from_jtreeset
  cases h4 : tree.tree.array with
  | none =>
    refine ⟨Or.inl rfl, ⟨fun h => GLRtnCode.noConfusion h, fun h => ?_⟩⟩
    obtain ⟨arr, harr, _⟩ := h
    exact Option.noConfusion harr
  | some jpeakArray =>
    simp only
    by_cases h5 : peaklist.listlength < (jpeakArray.length : Int)
    · rw [if_pos h5]
      exact ⟨Or.inr (Or.inr rfl), ⟨fun _ => ⟨jpeakArray, rfl, h5⟩, fun _ => rfl⟩⟩
    · rw [if_neg h5]
      have hno : ¬ ∃ arr : List (JPeak F), some jpeakArray = some arr ∧
          peaklist.listlength < (arr.length : Int) := by
        rintro ⟨arr, harr, hlt⟩
        rw [← Option.some.inj harr] at hlt
        exact h5 hlt
      by_cases h6 : (0 : Int) = (jpeakArray.length : Int)
      · rw [if_pos h6]
        exact ⟨Or.inr (Or.inl rfl), ⟨fun h => GLRtnCode.noConfusion h, fun h => absurd h hno⟩⟩
      · rw [if_neg h6]
        cases h7 : tree.peak_class_found with
        | false =>
          exact ⟨Or.inl rfl, ⟨fun h => GLRtnCode.noConfusion h, fun h => absurd h hno⟩⟩
        | true =>
          cases h8 : tree.peak_members_found with
          | false =>
            exact ⟨Or.inl rfl, ⟨fun h => GLRtnCode.noConfusion h, fun h => absurd h hno⟩⟩
          | true =>
            simp only [Bool.not_true, Bool.false_eq_true, if_false]
            rcases set_peak_list_loop_code jpeakArray 0
                { peaklist with npeaks := 0 } with h | h
            · refine ⟨Or.inr (Or.inl h), ⟨fun hf => ?_, fun hh => absurd hh hno⟩⟩
              rw [h] at hf
              exact GLRtnCode.noConfusion hf
            · refine ⟨Or.inl h, ⟨fun hf => ?_, fun hh => absurd hh hno⟩⟩
              rw [h] at hf
              exact GLRtnCode.noConfusion hf

/-- The return codes of `GL_prune_rqdpks`: `GL_NOJVM`, `GL_JNIERROR`,
`GL_SUCCESS`, and the `GL_FAILURE` of `set_peak_list`. -/
theorem GL_prune_rqdpks_codes {F : Type} [LinearOrderedField F] (lookups : JPruneLookups)
    (pruneRqdPks : GLWidthEqn F → List (GLPeak F) → List (GLPeak F) → Option (JPeakTreeSet F))
    (wx : GLWidthEqn F) (searchpks curr_rqd new_rqd : GLPeakList F) :
    (GL_prune_rqdpks lookups pruneRqdPks wx searchpks curr_rqd new_rqd).1 = GL_NOJVM ∨
    (GL_prune_rqdpks lookups pruneRqdPks wx searchpks curr_rqd new_rqd).1 = GL_JNIERROR ∨
    (GL_prune_rqdpks lookups pruneRqdPks wx searchpks curr_rqd new_rqd).1 = GL_SUCCESS ∨
    (GL_prune_rqdpks lookups pruneRqdPks wx searchpks curr_rqd new_rqd).1 = GL_FAILURE := by
  unfold GL_prune_rqdpks
  split_ifs
  · exact Or.inl rfl
  · exact Or.inr (Or.inl rfl)
  · exact Or.inr (Or.inl rfl)
  · exact Or.inr (Or.inl rfl)
  · cases pruneRqdPks wx searchpks.toList curr_rqd.toList with
    | none => exact Or.inr (Or.inl rfl)
    | some tree =>
      rcases (set_peak_list_codes tree new_rqd).1 with h | h | h
      · exact Or.inr (Or.inl h)
      · exact Or.inr (Or.inr (Or.inl h))
      · exact Or.inr (Or.inr (Or.inr h))

/-! ## Convergence tolerances -/

/-- The object that `get_jfitparms` returns carries the names of the two
enumerators of the C fit parameters. -/
theorem get_jfitparms_names {F : Type} [LinearOrderedField F] (lookups : JFitParmsLookups)
    (fitparms : GLFitParms F) (parmObject : JFitParameters F)
    (h : get_jfitparms lookups fitparms = some parmObject) :
    parmObject.modeObject
      = (match fitparms.pkwd_mode with
        | GL_PKWD_VARIES => "VARIES"
        | GL_PKWD_FIXED => "FIXED") ∧
    parmObject.typeObject
      = (match fitparms.cc_type with
        | GL_CC_LARGER => "LARGER"
        | GL_CC_SMALLER => "SMALLER"
        | GL_CC_LARGER_INC => "LARGER_INC") := by
  unfold get_jfitparms get_jpeakwidth_mode get_jcc_type at h
  cases hm : fitparms.pkwd_mode <;> cases ht : fitparms.cc_type <;>
    cases h1 : lookups.parm_class_found <;> cases h2 : lookups.init_found <;>
    cases h3 : lookups.mode_constant_found <;> cases h4 : lookups.type_constant_found <;>
    cases h5 : lookups.object_constructed <;>
    simp [hm, ht, h1, h2, h3, h4, h5] at h <;>
    (subst h; exact ⟨rfl, rfl⟩)

/-- C23: the convergence tolerances of a region fit are determined by
`(cc_type, pkwd_mode)` alone (two sets of fit parameters that agree on both
give objects with the same tolerances), by this table: `LARGER` with `VARIES`
gives `ftol = 1e-5` and `xtol = 3e-5`; `LARGER` with `FIXED` gives
`ftol = xtol = 1e-4`; `SMALLER` with either mode gives `ftol = xtol = 1e-5`;
`LARGER_INC` with either mode gives `ftol = 1e-5` and `xtol = 3e-5`. The
tolerances are those of the Java object that `get_jfitparms` builds from the
fit parameters, which it does whenever its JNI steps succeed. -/
theorem get_jfitparms_tolerances {F : Type} [LinearOrderedField F]
    (lookups : JFitParmsLookups) (fitparms : GLFitParms F) :
    (lookups.parm_class_found = true → lookups.init_found = true →
      lookups.mode_constant_found = true → lookups.type_constant_found = true →
      lookups.object_constructed = true →
      ∃ parmObject : JFitParameters F, get_jfitparms lookups fitparms = some parmObject) ∧
    (∀ parmObject : JFitParameters F, get_jfitparms lookups fitparms = some parmObject →
      (fitparms.cc_type = GL_CC_LARGER → fitparms.pkwd_mode = GL_PKWD_VARIES →
        convergence_tolerances parmObject = some (0.00001, 0.00003)) ∧
      (fitparms.cc_type = GL_CC_LARGER → fitparms.pkwd_mode = GL_PKWD_FIXED →
        convergence_tolerances parmObject = some (0.0001, 0.0001)) ∧
      (fitparms.cc_type = GL_CC_SMALLER →
        convergence_tolerances parmObject = some (0.00001, 0.00001)) ∧
      (fitparms.cc_type = GL_CC_LARGER_INC →
        convergence_tolerances parmObject = some (0.00001, 0.00003)) ∧
      ∀ (lookups2 : JFitParmsLookups) (fitparms2 : GLFitParms F)
        (parmObject2 : JFitParameters F),
        get_jfitparms lookups2 fitparms2 = some parmObject2 →
        fitparms2.cc_type = fitparms.cc_type → fitparms2.pkwd_mode = fitparms.pkwd_mode →
        convergence_tolerances parmObject2 = convergence_tolerances parmObject) := by
  refine ⟨fun h1 h2 h3 h4 h5 => ?_, fun parmObject h => ?_⟩
  · unfold get_jfitparms get_jpeakwidth_mode get_jcc_type
    simp only [h1, h2, h3, h4, h5, Bool.not_true, Bool.false_eq_true, if_false]
    cases fitparms.pkwd_mode <;> cases fitparms.cc_type <;> exact ⟨_, rfl⟩
  · obtain ⟨hmode, htype⟩ := get_jfitparms_names lookups fitparms parmObject h
    refine ⟨fun ht hm => ?_, fun ht hm => ?_, fun ht => ?_, fun ht => ?_,
      fun lookups2 fitparms2 parmObject2 h2 ht hm => ?_⟩
    · rw [hm] at hmode
      rw [ht] at htype
      simp only at hmode htype
      unfold convergence_tolerances
      rw [hmode, htype]
      simp
    · rw [hm] at hmode
      rw [ht] at htype
      simp only at hmode htype
      unfold convergence_tolerances
      rw [hmode, htype]
      simp
    · rw [ht] at htype
      simp only at htype
      unfold convergence_tolerances
      rw [htype]
      cases hm : fitparms.pkwd_mode <;> rw [hm] at hmode <;> simp only at hmode <;>
        rw [hmode] <;> simp
    · rw [ht] at htype
      simp only at htype
      unfold convergence_tolerances
      rw [htype]
      cases hm : fitparms.pkwd_mode <;> rw [hm] at hmode <;> simp only at hmode <;>
        rw [hmode] <;> simp
    · obtain ⟨hmode2, htype2⟩ := get_jfitparms_names lookups2 fitparms2 parmObject2 h2
      rw [hm] at hmode2
      rw [ht] at htype2
      unfold convergence_tolerances
      rw [hmode, htype, hmode2, htype2]

/-- C23 at the fit parameters of the test (`GL_CC_LARGER`, `GL_PKWD_VARIES`):
the object is built and its tolerances are `ftol = 1e-5`, `xtol = 3e-5`. -/
theorem get_jfitparms_tolerances_witness :
    (∃ parmObject : JFitParameters ℚ,
      get_jfitparms fitparms_lookups_found (test_fitparms ℚ) = some parmObject) ∧
    ∀ parmObject : JFitParameters ℚ,
      get_jfitparms fitparms_lookups_found (test_fitparms ℚ) = some parmObject →
      convergence_tolerances parmObject = some (0.00001, 0.00003) :=
  ⟨(get_jfitparms_tolerances fitparms_lookups_found (test_fitparms ℚ)).1 rfl rfl rfl rfl rfl,
    fun parmObject h =>
      ((get_jfitparms_tolerances fitparms_lookups_found (test_fitparms ℚ)).2 parmObject h).1
        rfl rfl⟩

/-! ## Energy calibration of samples on a line -/

/-- The unweighted samples made from three Java arrays cut from C arrays of
`count` entries. -/
theorem calibration_samples_unweighted {F : Type} [LinearOrderedField F] (count : Int)
    (channel energy sige : Int → F) :
    calibration_samples (GAP_get_jdouble_array channel count)
        (GAP_get_jdouble_array energy count) (GAP_get_jdouble_array sige count) false
      = (List.range count.toNat).map
          (fun (i : Nat) => (channel (i : Int), energy (i : Int), (1 : F))) := by
  unfold calibration_samples GAP_get_jdouble_array
  rw [List.zip_map', List.zip_map', List.map_map]
  apply List.map_congr_left
  intro i _
  simp

/-- For samples on the line `e = a + b x`, each moment sum is the
combination `a * S_k + b * S_(k+1)` of two power sums. -/
theorem moment_sum_of_line {F : Type} [LinearOrderedField F] (a b : F)
    (samples : List (F × F × F)) (hline : ∀ s ∈ samples, s.2.1 = a + b * s.1) (k : Nat) :
    moment_sum samples k = a * power_sum samples k + b * power_sum samples (k + 1) := by
  unfold moment_sum power_sum
  induction samples with
  | nil => simp
  | cons s rest ih =>
    have hs : s.2.1 = a + b * s.1 := hline s (List.mem_cons_self s rest)
    have ih2 := ih (fun r hr => hline r (List.mem_cons_of_mem s hr))
    simp only [List.map_cons, List.sum_cons]
    rw [ih2, hs]
    ring

/-- The quadratic form of the matrix of the normal equations is the sum of
the squares of the polynomial `u0 + u1 x + u2 x^2` at the samples. -/
theorem power_sum_quadratic_form {F : Type} [LinearOrderedField F] (u0 u1 u2 : F)
    (samples : List (F × F × F)) :
    (samples.map (fun s => (u0 + u1 * s.1 + u2 * s.1 ^ 2) ^ 2 / (s.2.2 * s.2.2))).sum
      = u0 * (power_sum samples 0 * u0 + power_sum samples 1 * u1 + power_sum samples 2 * u2)
        + u1 * (power_sum samples 1 * u0 + power_sum samples 2 * u1 + power_sum samples 3 * u2)
        + u2 * (power_sum samples 2 * u0 + power_sum samples 3 * u1
          + power_sum samples 4 * u2) := by
  unfold power_sum
  induction samples with
  | nil => simp
  | cons s rest ih =>
    simp only [List.map_cons, List.sum_cons]
    rw [ih]
    ring

/-- A sum of non-negative terms that is zero has only zero terms. -/
theorem sum_nonneg_eq_zero {F : Type} [LinearOrderedField F] (terms : List F)
    (hnn : ∀ x ∈ terms, 0 ≤ x) (hsum : terms.sum = 0) : ∀ x ∈ terms, x = 0 := by
  induction terms with
  | nil =>
    intro x hx
    exact absurd hx (List.not_mem_nil x)
  | cons y rest ih =>
    have hy : 0 ≤ y := hnn y (List.mem_cons_self y rest)
    have hrest : 0 ≤ rest.sum := List.sum_nonneg (fun x hx => hnn x (List.mem_cons_of_mem y hx))
    rw [List.sum_cons] at hsum
    have hy0 : y = 0 := le_antisymm (by linarith) hy
    have hr0 : rest.sum = 0 := by linarith
    intro x hx
    rcases List.mem_cons.mp hx with h | h
    · rw [h, hy0]
    · exact ih (fun z hz => hnn z (List.mem_cons_of_mem y hz)) hr0 x h

/-- A polynomial of degree at most two with three distinct roots is zero. -/
theorem quadratic_three_roots {F : Type} [LinearOrderedField F] (u0 u1 u2 x y z : F)
    (hxy : x ≠ y) (hxz : x ≠ z) (hyz : y ≠ z)
    (hx : u0 + u1 * x + u2 * x ^ 2 = 0) (hy : u0 + u1 * y + u2 * y ^ 2 = 0)
    (hz : u0 + u1 * z + u2 * z ^ 2 = 0) : u0 = 0 ∧ u1 = 0 ∧ u2 = 0 := by
  have h1 : (x - y) * (u1 + u2 * (x + y)) = 0 := by linear_combination hx - hy
  have h2 : (x - z) * (u1 + u2 * (x + z)) = 0 := by linear_combination hx - hz
  have e1 : u1 + u2 * (x + y) = 0 :=
    (mul_eq_zero.mp h1).resolve_left (sub_ne_zero.mpr hxy)
  have e2 : u1 + u2 * (x + z) = 0 :=
    (mul_eq_zero.mp h2).resolve_left (sub_ne_zero.mpr hxz)
  have h3 : u2 * (y - z) = 0 := by linear_combination e1 - e2
  have hu2 : u2 = 0 := (mul_eq_zero.mp h3).resolve_right (sub_ne_zero.mpr hyz)
  have hu1 : u1 = 0 := by
    rw [hu2] at e1
    linear_combination e1
  have hu0 : u0 = 0 := by
    rw [hu1, hu2] at hx
    linear_combination hx
  exact ⟨hu0, hu1, hu2⟩

/-- The matrix of the normal equations of a quadratic calibration is regular
when the samples, of weight 1, lie at three or more distinct channels. -/
theorem normal_equations_regular {F : Type} [LinearOrderedField F]
    (samples : List (F × F × F)) (hw : ∀ s ∈ samples, s.2.2 = 1)
    (p q r : F × F × F) (hp : p ∈ samples) (hq : q ∈ samples) (hr : r ∈ samples)
    (hpq : p.1 ≠ q.1) (hpr : p.1 ≠ r.1) (hqr : q.1 ≠ r.1) :
    power_sum samples 0 * (power_sum samples 2 * power_sum samples 4
        - power_sum samples 3 * power_sum samples 3)
      - power_sum samples 1 * (power_sum samples 1 * power_sum samples 4
        - power_sum samples 3 * power_sum samples 2)
      + power_sum samples 2 * (power_sum samples 1 * power_sum samples 3
        - power_sum samples 2 * power_sum samples 2) ≠ 0 := by
  intro hdet
  have hM : (Matrix.of ![![power_sum samples 0, power_sum samples 1, power_sum samples 2],
      ![power_sum samples 1, power_sum samples 2, power_sum samples 3],
      ![power_sum samples 2, power_sum samples 3, power_sum samples 4]]).det = 0 := by
    rw [Matrix.det_fin_three]
    simp only [Matrix.of_apply, Matrix.cons_val_zero, Matrix.cons_val_one, Matrix.head_cons,
      Matrix.cons_val_two, Matrix.tail_cons]
    linear_combination hdet
  obtain ⟨v, hv, hker⟩ := Matrix.exists_mulVec_eq_zero_iff.mpr hM
  have k0 := congrFun hker 0
  have k1 := congrFun hker 1
  have k2 := congrFun hker 2
  simp only [Matrix.mulVec, Matrix.dotProduct, Fin.sum_univ_three, Matrix.of_apply,
    Matrix.cons_val_zero, Matrix.cons_val_one, Matrix.head_cons, Matrix.cons_val_two,
    Matrix.tail_cons, Pi.zero_apply] at k0 k1 k2
  have hform := power_sum_quadratic_form (v 0) (v 1) (v 2) samples
  rw [k0, k1, k2] at hform
  have hzero : (samples.map
      (fun s => (v 0 + v 1 * s.1 + v 2 * s.1 ^ 2) ^ 2 / (s.2.2 * s.2.2))).sum = 0 := by
    rw [hform]
    ring
  have hterms := sum_nonneg_eq_zero _ (fun x hx => by
    obtain ⟨s, _, hs⟩ := List.mem_map.mp hx
    rw [← hs]
    exact div_nonneg (sq_nonneg _) (mul_self_nonneg _)) hzero
  have hroot : ∀ s ∈ samples, v 0 + v 1 * s.1 + v 2 * s.1 ^ 2 = 0 := by
    intro s hs
    have h := hterms _ (List.mem_map.mpr ⟨s, hs, rfl⟩)
    rw [hw s hs] at h
    simp only [mul_one, div_one] at h
    exact pow_eq_zero_iff (two_ne_zero) |>.mp h
  obtain ⟨h0, h1, h2⟩ := quadratic_three_roots (v 0) (v 1) (v 2) p.1 q.1 r.1 hpq hpr hqr
    (hroot p hp) (hroot q hq) (hroot r hr)
  apply hv
  funext i
  fin_cases i
  · exact h0
  · exact h1
  · exact h2

/-- The chi squared of samples that lie on the line is 0 at the line. -/
theorem chi_squared_of_line {F : Type} [LinearOrderedField F] (a b : F)
    (samples : List (F × F × F)) (hline : ∀ s ∈ samples, s.2.1 = a + b * s.1) :
    chi_squared samples a b 0 = 0 := by
  unfold chi_squared
  induction samples with
  | nil => simp
  | cons s rest ih =>
    have hs : s.2.1 = a + b * s.1 := hline s (List.mem_cons_self s rest)
    simp only [List.map_cons, List.sum_cons]
    rw [ih (fun r hr => hline r (List.mem_cons_of_mem s hr)), hs]
    simp

/-- Decoding the Java equation that `calibrate` builds gives its
coefficients, its chi squared and its mode. -/
theorem set_equation_jenergy_equation {F : Type} [LinearOrderedField F] (a b c chi_sq : F)
    (mode : GLEgyEqnMode) (ex : GLEnergyEqn F) :
    set_equation (jenergy_equation a b c chi_sq mode) ex
      = (GL_SUCCESS, { a := a, b := b, c := c, chi_sq := chi_sq, mode := mode }) := by
  cases mode with
  | GL_EGY_LINEAR =>
    simp [set_equation, jenergy_equation, get_mode_c, strncmp]
  | GL_EGY_QUADRATIC =>
    simp [set_equation, jenergy_equation, get_mode_c, strncmp]

/-- C26: for samples that lie exactly on a line `energy = a + b * channel` at
three or more distinct channels, the unweighted quadratic calibration with
`GL_ecalib` returns `GL_SUCCESS` and that line, the coefficients `(a, b, 0)`
with chi squared 0, when the JNI steps of the call succeed; the engine is the
least-squares regression of the spec. -/
theorem GL_ecalib_recovers_line {F : Type} [LinearOrderedField F] (lookups : JEcalibLookups)
    (count : Int) (channel energy sige : Int → F) (a b : F) (ex : GLEnergyEqn F)
    (hjvm : lookups.jvm_found = true) (harrays : lookups.arrays_built = true)
    (hmode : lookups.mode_built = true) (hclass : lookups.class_found = true)
    (hmid : lookups.calibrate_found = true)
    (hline : ∀ i : Int, 0 ≤ i → i < count → energy i = a + b * channel i)
    (hthree : ∃ i j k : Int, (0 ≤ i ∧ i < count) ∧ (0 ≤ j ∧ j < count) ∧ (0 ≤ k ∧ k < count) ∧
      channel i ≠ channel j ∧ channel i ≠ channel k ∧ channel j ≠ channel k) :
    GL_ecalib lookups calibrate count channel energy sige GL_EGY_QUADRATIC GL_FALSE ex
      = (GL_SUCCESS, { a := a, b := b, c := 0, chi_sq := 0, mode := GL_EGY_QUADRATIC }) := by
  obtain ⟨i, j, k, hi, hj, hk, hij, hik, hjk⟩ := hthree
  have hsamples := calibration_samples_unweighted count channel energy sige
  generalize hS : calibration_samples (GAP_get_jdouble_array channel count)
    (GAP_get_jdouble_array energy count) (GAP_get_jdouble_array sige count) false
    = samples at hsamples
  have hmem : ∀ m : Int, 0 ≤ m → m < count → (channel m, energy m, (1 : F)) ∈ samples := by
    intro m h0 h1
    rw [hsamples]
    refine List.mem_map.mpr ⟨m.toNat, List.mem_range.mpr (by omega), ?_⟩
    have hcast : ((m.toNat : Nat) : Int) = m := by omega
    rw [hcast]
  have hall : ∀ s ∈ samples, s.2.1 = a + b * s.1 ∧ s.2.2 = 1 := by
    intro s hs
    rw [hsamples] at hs
    obtain ⟨m, hm, hsm⟩ := List.mem_map.mp hs
    rw [← hsm]
    exact ⟨hline m (by omega) (by have := List.mem_range.mp hm; omega), rfl⟩
  have hlen : ¬ samples.length < 3 := by
    rw [hsamples, List.length_map, List.length_range]
    have hij2 : i ≠ j := fun h => hij (by rw [h])
    have hik2 : i ≠ k := fun h => hik (by rw [h])
    have hjk2 : j ≠ k := fun h => hjk (by rw [h])
    omega
  have hdet := normal_equations_regular samples (fun s hs => (hall s hs).2)
    (channel i, energy i, 1) (channel j, energy j, 1) (channel k, energy k, 1)
    (hmem i hi.1 hi.2) (hmem j hj.1 hj.2) (hmem k hk.1 hk.2) hij hik hjk
  have ht : ∀ n : Nat, moment_sum samples n
      = a * power_sum samples n + b * power_sum samples (n + 1) :=
    moment_sum_of_line a b samples (fun s hs => (hall s hs).1)
  have hchi := chi_squared_of_line a b samples (fun s hs => (hall s hs).1)
  generalize hD : power_sum samples 0 * (power_sum samples 2 * power_sum samples 4
        - power_sum samples 3 * power_sum samples 3)
      - power_sum samples 1 * (power_sum samples 1 * power_sum samples 4
        - power_sum samples 3 * power_sum samples 2)
      + power_sum samples 2 * (power_sum samples 1 * power_sum samples 3
        - power_sum samples 2 * power_sum samples 2) = det at hdet
  have ha : (moment_sum samples 0 * (power_sum samples 2 * power_sum samples 4
        - power_sum samples 3 * power_sum samples 3)
      - power_sum samples 1 * (moment_sum samples 1 * power_sum samples 4
        - power_sum samples 3 * moment_sum samples 2)
      + power_sum samples 2 * (moment_sum samples 1 * power_sum samples 3
        - power_sum samples 2 * moment_sum samples 2)) / det = a := by
    rw [div_eq_iff hdet, ht 0, ht 1, ht 2, ← hD]
    ring
  have hb : (power_sum samples 0 * (moment_sum samples 1 * power_sum samples 4
        - moment_sum samples 2 * power_sum samples 3)
      - moment_sum samples 0 * (power_sum samples 1 * power_sum samples 4
        - power_sum samples 3 * power_sum samples 2)
      + power_sum samples 2 * (power_sum samples 1 * moment_sum samples 2
        - power_sum samples 2 * moment_sum samples 1)) / det = b := by
    rw [div_eq_iff hdet, ht 0, ht 1, ht 2, ← hD]
    ring
  have hc : (power_sum samples 0 * (power_sum samples 2 * moment_sum samples 2
        - power_sum samples 3 * moment_sum samples 1)
      - power_sum samples 1 * (power_sum samples 1 * moment_sum samples 2
        - power_sum samples 2 * moment_sum samples 1)
      + moment_sum samples 0 * (power_sum samples 1 * power_sum samples 3
        - power_sum samples 2 * power_sum samples 2)) / det = 0 := by
    rw [div_eq_iff hdet, ht 0, ht 1, ht 2]
    ring
  have hcal : calibrate (GAP_get_jdouble_array channel count)
      (GAP_get_jdouble_array energy count) (GAP_get_jdouble_array sige count)
      GL_EGY_QUADRATIC false
      = { exception_thrown := false
          egyEqnObject := some (jenergy_equation a b 0 0 GL_EGY_QUADRATIC) } := by
    unfold calibrate
    simp only [hS, hD]
    have hcond : ¬ (samples.length < 3 ∨ det = 0) := fun h => h.elim hlen hdet
    rw [if_neg hcond, ha, hb, hc, hchi]
  have hweighted : decide (GL_FALSE = GL_TRUE) = false := by decide
  unfold GL_ecalib
  simp only [hjvm, harrays, hmode, hclass, hmid, Bool.not_true, Bool.false_eq_true, if_false,
    hweighted, hcal]
  exact set_equation_jenergy_equation a b 0 0 GL_EGY_QUADRATIC ex

/-- C26 at the fixture of `test_ecalib`, channels 20 to 110 in steps of 10 and
energies 15 to 159 in steps of 16: the calibration returns `a = -17`,
`b = 1.6`, `c = 0` and chi squared 0. -/
theorem GL_ecalib_recovers_line_witness :
    GL_ecalib ecalib_lookups_found calibrate 10 (ecalib_channel ℚ) (ecalib_energy ℚ)
        (ecalib_sige ℚ) GL_EGY_QUADRATIC GL_FALSE (zero_eqn ℚ)
      = (GL_SUCCESS, { a := -17, b := 1.6, c := 0, chi_sq := 0, mode := GL_EGY_QUADRATIC }) :=
  GL_ecalib_recovers_line ecalib_lookups_found 10 (ecalib_channel ℚ) (ecalib_energy ℚ)
    (ecalib_sige ℚ) (-17) 1.6 (zero_eqn ℚ) rfl rfl rfl rfl rfl
    (by
      intro i h0 h1
      have hcases : i = 0 ∨ i = 1 ∨ i = 2 ∨ i = 3 ∨ i = 4 ∨ i = 5 ∨ i = 6 ∨ i = 7 ∨ i = 8 ∨
          i = 9 := by omega
      rcases hcases with h | h | h | h | h | h | h | h | h | h <;> subst h <;>
        norm_num [ecalib_channel, ecalib_energy, Int.toNat])
    ⟨0, 1, 2, by decide, by decide, by decide, by decide, by decide, by decide⟩

/-! ## What pruning returns -/

/-- `get_type_c` decodes the Java constant of a C peak type to that type. -/
theorem get_type_c_jpeak_type (type typec : GLPeakType) :
    get_type_c (jpeak_type type) typec = (GL_SUCCESS, type) := by
  cases type <;> simp [get_type_c, jpeak_type, strncmp]

/-- A flag converted to Java and back is the flag. -/
theorem GLboolean_round_trip (b : GLboolean) :
    (if decide (b = GL_TRUE) = true then GL_TRUE else GL_FALSE) = b := by
  cases b <;> rfl

/-- The loop of `set_peak_list` on the Java peaks made from the C peaks `ps`
returns `GL_SUCCESS`, counts them, and stores them in order from index `i`,
leaving the entries below `i` alone. -/
theorem set_peak_list_loop_spec {F : Type} [LinearOrderedField F] (ps : List (GLPeak F)) :
    ∀ (i : Int) (peaklist : GLPeakList F),
      (set_peak_list_loop (ps.map jpeak_of) i peaklist).1 = GL_SUCCESS ∧
      (set_peak_list_loop (ps.map jpeak_of) i peaklist).2.npeaks
        = peaklist.npeaks + (ps.length : Int) ∧
      (∀ j : Int, j < i →
        (set_peak_list_loop (ps.map jpeak_of) i peaklist).2.peak j = peaklist.peak j) ∧
      ∀ (k : Nat) (p : GLPeak F), ps[k]? = some p →
        (set_peak_list_loop (ps.map jpeak_of) i peaklist).2.peak (i + (k : Int)) = p := by
  induction ps with
  | nil =>
    intro i peaklist
    refine ⟨rfl, by simp [set_peak_list_loop], fun j _ => rfl, fun k p h => ?_⟩
    simp at h
  | cons q rest ih =>
    intro i peaklist
    have hstep : set_peak_list_loop ((q :: rest).map jpeak_of) i peaklist
        = set_peak_list_loop (rest.map jpeak_of) (i + 1)
            { peaklist with
              peak := Function.update peaklist.peak i q
              npeaks := peaklist.npeaks + 1 } := by
      have hq : ({ peaklist.peak i with
            type := q.type
            channel := q.channel
            channel_valid := if decide (q.channel_valid = GL_TRUE) = true then GL_TRUE
              else GL_FALSE
            energy := q.energy
            energy_valid := if decide (q.energy_valid = GL_TRUE) = true then GL_TRUE
              else GL_FALSE
            sige := q.sige
            fixed_centroid := if decide (q.fixed_centroid = GL_TRUE) = true then GL_TRUE
              else GL_FALSE } : GLPeak F) = q := by
        rw [GLboolean_round_trip, GLboolean_round_trip, GLboolean_round_trip]
      simp only [List.map_cons, set_peak_list_loop, jpeak_of, get_type_c_jpeak_type, ne_eq,
        not_true_eq_false, if_false]
      rw [hq]
    rw [hstep]
    obtain ⟨h1, h2, h3, h4⟩ := ih (i + 1)
      { peaklist with
        peak := Function.update peaklist.peak i q
        npeaks := peaklist.npeaks + 1 }
    refine ⟨h1, ?_, fun j hj => ?_, fun k p hk => ?_⟩
    · rw [h2, List.length_cons]
      show peaklist.npeaks + 1 + (rest.length : Int) = peaklist.npeaks + ((rest.length + 1 : Nat) : Int)
      push_cast
      ring
    · rw [h3 j (by omega)]
      show Function.update peaklist.peak i q j = peaklist.peak j
      rw [Function.update_noteq (by omega)]
    · cases k with
      | zero =>
        have hp : q = p := by simpa using hk
        rw [← hp]
        have := h3 i (by omega)
        simp only [Nat.cast_zero, add_zero]
        rw [this]
        show Function.update peaklist.peak i q i = q
        rw [Function.update_same]
      | succ m =>
        have hm : rest[m]? = some p := by simpa using hk
        have := h4 m p hm
        have hidx : i + ((m + 1 : Nat) : Int) = i + 1 + (m : Int) := by
          push_cast
          ring
        rw [hidx]
        exact this

/-- `set_peak_list` on the Java peaks made from the C peaks `ps`: with room
for them it returns `GL_SUCCESS` and the list holds exactly `ps`, in order;
without room it returns `GL_FAILURE`. -/
theorem set_peak_list_of_peaks {F : Type} [LinearOrderedField F] (ps : List (GLPeak F))
    (peaklist : GLPeakList F) :
    (¬ peaklist.listlength < (ps.length : Int) →
      (set_peak_list ⟨⟨some (ps.map jpeak_of)⟩, true, true⟩ peaklist).1 = GL_SUCCESS ∧
      (set_peak_list ⟨⟨some (ps.map jpeak_of)⟩, true, true⟩ peaklist).2.toList = ps) ∧
    (peaklist.listlength < (ps.length : Int) →
      (set_peak_list ⟨⟨some (ps.map jpeak_of)⟩, true, true⟩ peaklist).1 = GL_FAILURE) := by
  unfold set_peak_list GAP_get_array_from_jtreeset
  simp only [List.length_map, Bool.not_true, Bool.false_eq_true, if_false]
  refine ⟨fun hroom => ?_, fun hno => ?_⟩
  · rw [if_neg hroom]
    by_cases h0 : (0 : Int) = (ps.length : Int)
    · rw [if_pos h0]
      have hnil : ps = [] := List.length_eq_zero.mp (by omega)
      refine ⟨rfl, ?_⟩
      rw [hnil]
      rfl
    · rw [if_neg h0]
      obtain ⟨h1, h2, _, h4⟩ := set_peak_list_loop_spec ps 0 { peaklist with npeaks := 0 }
      refine ⟨h1, ?_⟩
      have := toList_eq_take
        (set_peak_list_loop (ps.map jpeak_of) 0 { peaklist with npeaks := 0 }).2 ps ps.length
        (by rw [h2]; simp) (le_refl _)
        (fun k p _ hk => by
          have := h4 k p hk
          simpa using this)
      rw [this, List.take_length]
  · rw [if_pos hno]

/-- The peaks that the pruning rule keeps: a peak is among them exactly when
it is a required peak with a defined channel that is not within one local
peak width of the defined channel of a searched peak. -/
theorem mem_pruned_iff {F : Type} [LinearOrderedField F] (sqrt : F → F) (wx : GLWidthEqn F)
    (searchPeaks requiredPeaks : List (GLPeak F)) (p : GLPeak F) :
    p ∈ (((requiredPeaks.filter (fun p => decide (p.channel_valid = GL_TRUE))).filter
        (fun p => !too_close sqrt wx searchPeaks p)).insertionSort
        (fun p q => p.channel ≤ q.channel))
      ↔ p ∈ requiredPeaks ∧ p.channel_valid = GL_TRUE ∧
        ∀ s ∈ searchPeaks, s.channel_valid = GL_TRUE →
          ¬ abs (p.channel - s.channel) ≤ (GL_chan_to_w sqrt wx p.channel 0).2 := by
  rw [(List.perm_insertionSort _ _).mem_iff, List.mem_filter, List.mem_filter]
  unfold too_close
  simp only [decide_eq_true_eq, Bool.not_eq_true', List.any_eq_false, not_and, and_assoc]

/-- C24: when `GL_prune_rqdpks` returns `GL_SUCCESS`, the peaks in use of
`new_rqd` are exactly the required peaks that have a defined channel and
whose channel is not within one local peak width (the width equation
evaluated at that channel) of the defined channel of any searched peak; in
particular a required peak whose channel is not defined never appears in the
answer. It does return `GL_SUCCESS` when its JNI steps succeed, the width
equation can be evaluated at the defined channels of the required peaks and
`new_rqd` has room (`0 <= listlength`) for as many peaks as `curr_rqd` holds. The engine is the
pruning rule of the spec. -/
theorem GL_prune_rqdpks_keeps {F : Type} [LinearOrderedField F] (sqrt : F → F)
    (lookups : JPruneLookups) (wx : GLWidthEqn F) (searchpks curr_rqd new_rqd : GLPeakList F) :
    (lookups.jvm_found = true → lookups.jwx_built = true →
      lookups.jsrchPksTree_built = true → lookups.jrqdPksTree_built = true →
      lookups.class_found = true → lookups.pruneRqdPks_found = true →
      (∀ p ∈ curr_rqd.toList, p.channel_valid = GL_TRUE →
        (GL_chan_to_w sqrt wx p.channel 0).1 = GL_SUCCESS) →
      0 ≤ new_rqd.listlength → curr_rqd.npeaks ≤ new_rqd.listlength →
      (GL_prune_rqdpks lookups (pruneRqdPks sqrt) wx searchpks curr_rqd new_rqd).1
        = GL_SUCCESS) ∧
    ((GL_prune_rqdpks lookups (pruneRqdPks sqrt) wx searchpks curr_rqd new_rqd).1
        = GL_SUCCESS →
      (∀ p : GLPeak F,
        p ∈ (GL_prune_rqdpks lookups (pruneRqdPks sqrt) wx searchpks curr_rqd new_rqd).2.toList
          ↔ p ∈ curr_rqd.toList ∧ p.channel_valid = GL_TRUE ∧
            ∀ s ∈ searchpks.toList, s.channel_valid = GL_TRUE →
              ¬ abs (p.channel - s.channel) ≤ (GL_chan_to_w sqrt wx p.channel 0).2) ∧
      ∀ p ∈ (GL_prune_rqdpks lookups (pruneRqdPks sqrt) wx searchpks curr_rqd new_rqd).2.toList,
        p.channel_valid = GL_TRUE) := by
  have hlen : ∀ survivors : List (GLPeak F),
      survivors = (((curr_rqd.toList.filter (fun p => decide (p.channel_valid = GL_TRUE))).filter
        (fun p => !too_close sqrt wx searchpks.toList p)).insertionSort
        (fun p q => p.channel ≤ q.channel)) →
      (survivors.length : Int) ≤ max curr_rqd.npeaks 0 := by
    intro survivors hs
    have h1 : survivors.length ≤ curr_rqd.toList.length := by
      rw [hs, List.length_insertionSort]
      exact le_trans (List.length_filter_le _ _) (List.length_filter_le _ _)
    have h2 : curr_rqd.toList.length = curr_rqd.npeaks.toNat := by
      unfold GLPeakList.toList
      rw [List.length_map, List.length_range]
    omega
  have hmain : ∀ tree : JPeakTreeSet F,
      pruneRqdPks sqrt wx searchpks.toList curr_rqd.toList = some tree →
      ((set_peak_list tree new_rqd).1 = GL_SUCCESS →
        ∀ p : GLPeak F, p ∈ (set_peak_list tree new_rqd).2.toList
          ↔ p ∈ curr_rqd.toList ∧ p.channel_valid = GL_TRUE ∧
            ∀ s ∈ searchpks.toList, s.channel_valid = GL_TRUE →
              ¬ abs (p.channel - s.channel) ≤ (GL_chan_to_w sqrt wx p.channel 0).2) ∧
      (curr_rqd.npeaks ≤ new_rqd.listlength → 0 ≤ new_rqd.listlength →
        (set_peak_list tree new_rqd).1 = GL_SUCCESS) := by
    intro tree htree
    unfold pruneRqdPks at htree
    simp only at htree
    split_ifs at htree with hw
    have ht := (Option.some.inj htree).symm
    rw [ht]
    obtain ⟨hroom, hfail⟩ := set_peak_list_of_peaks
      (((curr_rqd.toList.filter (fun p => decide (p.channel_valid = GL_TRUE))).filter
        (fun p => !too_close sqrt wx searchpks.toList p)).insertionSort
        (fun p q => p.channel ≤ q.channel)) new_rqd
    refine ⟨fun hok p => ?_, fun hle h0 => ?_⟩
    · by_cases hlt : new_rqd.listlength < ((((curr_rqd.toList.filter
          (fun p => decide (p.channel_valid = GL_TRUE))).filter
          (fun p => !too_close sqrt wx searchpks.toList p)).insertionSort
          (fun p q => p.channel ≤ q.channel)).length : Int)
      · rw [hfail hlt] at hok
        exact GLRtnCode.noConfusion hok
      · rw [(hroom hlt).2]
        exact mem_pruned_iff sqrt wx searchpks.toList curr_rqd.toList p
    · have := hlen _ rfl
      exact (hroom (by omega)).1
  refine ⟨fun h1 h2 h3 h4 h5 h6 hwidth h0 hroom => ?_, fun hok => ?_⟩
  · unfold GL_prune_rqdpks
    simp only [h1, h2, h3, h4, h5, h6, Bool.not_true, Bool.false_eq_true, or_self, if_false]
    have hsome : ∃ tree, pruneRqdPks sqrt wx searchpks.toList curr_rqd.toList = some tree := by
      unfold pruneRqdPks
      simp only
      rw [if_pos]
      · exact ⟨_, rfl⟩
      · rw [List.all_eq_true]
        intro p hp
        obtain ⟨hp1, hp2⟩ := List.mem_filter.mp hp
        exact decide_eq_true (hwidth p hp1 (of_decide_eq_true hp2))
    obtain ⟨tree, htree⟩ := hsome
    rw [htree]
    exact (hmain tree htree).2 hroom h0
  · unfold GL_prune_rqdpks at hok ⊢
    cases g1 : lookups.jvm_found with
    | false => simp [g1] at hok
    | true =>
      simp only [g1, Bool.not_true, Bool.false_eq_true, if_false] at hok ⊢
      by_cases g2 : (!lookups.jwx_built) = true ∨ (!lookups.jsrchPksTree_built) = true ∨
          (!lookups.jrqdPksTree_built) = true
      · rw [if_pos g2] at hok
        exact GLRtnCode.noConfusion hok
      · rw [if_neg g2] at hok ⊢
        cases g3 : lookups.class_found with
        | false => simp [g3] at hok
        | true =>
          cases g4 : lookups.pruneRqdPks_found with
          | false => simp [g3, g4] at hok
          | true =>
            simp only [g3, g4, Bool.not_true, Bool.false_eq_true, if_false] at hok ⊢
            cases htree : pruneRqdPks sqrt wx searchpks.toList curr_rqd.toList with
            | none =>
              rw [htree] at hok
              exact GLRtnCode.noConfusion hok
            | some tree =>
              rw [htree] at hok
              simp only at hok ⊢
              have hiff := (hmain tree htree).1 hok
              exact ⟨hiff, fun p hp => ((hiff p).mp hp).2.1⟩

/-- C24 at the first two required energies of `test_prune_pks`, 400 and
511 keV, after `GL_update_peaklist` with the test calibration (channels
260.625 and 330), a searched peak at channel 330.5 and the width equation
`w = 2 + 0.001 x`: the call succeeds and `new_rqd` holds the required peaks
that are not within one width of the searched peak. -/
theorem GL_prune_rqdpks_keeps_witness :
    (GL_prune_rqdpks prune_lookups_found (pruneRqdPks (fun x => x)) (test_width ℚ)
      (searchpks_one ℚ) (curr_rqd_updated ℚ) (new_rqd_alloc ℚ 10)).1 = GL_SUCCESS ∧
    ∀ p : GLPeak ℚ,
      p ∈ (GL_prune_rqdpks prune_lookups_found (pruneRqdPks (fun x => x)) (test_width ℚ)
          (searchpks_one ℚ) (curr_rqd_updated ℚ) (new_rqd_alloc ℚ 10)).2.toList
        ↔ p ∈ (curr_rqd_updated ℚ).toList ∧ p.channel_valid = GL_TRUE ∧
          ∀ s ∈ (searchpks_one ℚ).toList, s.channel_valid = GL_TRUE →
            ¬ abs (p.channel - s.channel)
              ≤ (GL_chan_to_w (fun x => x) (test_width ℚ) p.channel 0).2 :=
  ⟨(GL_prune_rqdpks_keeps (fun x => x) prune_lookups_found (test_width ℚ) (searchpks_one ℚ)
      (curr_rqd_updated ℚ) (new_rqd_alloc ℚ 10)).1 rfl rfl rfl rfl rfl rfl
      (fun _ _ _ => rfl) (by decide) (by decide),
    ((GL_prune_rqdpks_keeps (fun x => x) prune_lookups_found (test_width ℚ) (searchpks_one ℚ)
      (curr_rqd_updated ℚ) (new_rqd_alloc ℚ 10)).2
      ((GL_prune_rqdpks_keeps (fun x => x) prune_lookups_found (test_width ℚ) (searchpks_one ℚ)
        (curr_rqd_updated ℚ) (new_rqd_alloc ℚ 10)).1 rfl rfl rfl rfl rfl rfl
        (fun _ _ _ => rfl) (by decide) (by decide))).1⟩

/-! ## The regions of a region search -/

/-- Coalescing from a current span: every region of the result is well
formed and starts at or after the current span, and each region ends below
the start of every later one. -/
theorem merge_from_spec (rest : List GLChanRange) :
    ∀ cur : GLChanRange, cur.first ≤ cur.last → (∀ s ∈ rest, s.first ≤ s.last) →
      (∀ x ∈ merge_from cur rest, x.first ≤ x.last ∧ cur.first ≤ x.first) ∧
      (merge_from cur rest).Pairwise (fun a b => a.last < b.first) := by
  induction rest with
  | nil =>
    intro cur hcur _
    refine ⟨fun x hx => ?_, ?_⟩
    · rw [merge_from, List.mem_singleton] at hx
      rw [hx]
      exact ⟨hcur, le_refl _⟩
    · rw [merge_from]
      exact List.pairwise_singleton _ _
  | cons s rest ih =>
    intro cur hcur hrest
    have hs : s.first ≤ s.last := hrest s (List.mem_cons_self s rest)
    have hrest2 : ∀ t ∈ rest, t.first ≤ t.last := fun t ht => hrest t (List.mem_cons_of_mem s ht)
    rw [merge_from]
    by_cases h : s.first ≤ cur.last
    · rw [if_pos h]
      exact ih { cur with last := max cur.last s.last } (le_trans hcur (le_max_left _ _)) hrest2
    · rw [if_neg h]
      obtain ⟨hall, hpair⟩ := ih s hs hrest2
      refine ⟨fun x hx => ?_, ?_⟩
      · rcases List.mem_cons.mp hx with hx | hx
        · rw [hx]
          exact ⟨hcur, le_refl _⟩
        · have := hall x hx
          exact ⟨this.1, by omega⟩
      · refine List.pairwise_cons.mpr ⟨fun x hx => ?_, hpair⟩
        have := hall x hx
        omega

/-- Coalesced spans are well formed and each ends below the start of every
later one. -/
theorem coalesce_spec (spans : List GLChanRange) (hwf : ∀ s ∈ spans, s.first ≤ s.last) :
    (∀ x ∈ coalesce spans, x.first ≤ x.last) ∧
    (coalesce spans).Pairwise (fun a b => a.last < b.first) := by
  cases spans with
  | nil =>
    refine ⟨fun x hx => ?_, ?_⟩
    · rw [coalesce] at hx
      exact absurd hx (List.not_mem_nil x)
    · rw [coalesce]
      exact List.Pairwise.nil
  | cons r rest =>
    rw [coalesce]
    obtain ⟨hall, hpair⟩ := merge_from_spec rest r (hwf r (List.mem_cons_self r rest))
      (fun t ht => hwf t (List.mem_cons_of_mem r ht))
    exact ⟨fun x hx => (hall x hx).1, hpair⟩

/-- The fold that looks for the weakest channel stays within the channels it
looks at. -/
theorem weakest_fold_bounds (spectrum : GLSpectrum) (first : Int) (n : Nat) (ks : List Nat) :
    ∀ best : Int, (∀ k ∈ ks, k < n) → first ≤ best → best < first + (max n 1 : Nat) →
      first ≤ ks.foldl
          (fun (best : Int) (k : Nat) =>
            if count_at spectrum (first + (k : Int)) < count_at spectrum best then
              first + (k : Int)
            else best)
          best ∧
      ks.foldl
          (fun (best : Int) (k : Nat) =>
            if count_at spectrum (first + (k : Int)) < count_at spectrum best then
              first + (k : Int)
            else best)
          best < first + (max n 1 : Nat) := by
  induction ks with
  | nil =>
    intro best _ h1 h2
    exact ⟨h1, h2⟩
  | cons k ks ih =>
    intro best hks h1 h2
    rw [List.foldl_cons]
    have hk : k < n := hks k (List.mem_cons_self k ks)
    refine ih _ (fun j hj => hks j (List.mem_cons_of_mem k hj)) ?_ ?_
    · split_ifs
      · omega
      · exact h1
    · split_ifs
      · have : n ≤ max n 1 := le_max_left _ _
        omega
      · exact h2

/-- The weakest channel of a region of at least two channels is one of
`first .. last - 1`. -/
theorem weakest_channel_bounds (spectrum : GLSpectrum) (r : GLChanRange)
    (h : r.first < r.last) :
    r.first ≤ weakest_channel spectrum r ∧ weakest_channel spectrum r < r.last := by
  have := weakest_fold_bounds spectrum r.first (r.last - r.first).toNat
    (List.range (r.last - r.first).toNat) r.first
    (fun k hk => List.mem_range.mp hk) (le_refl _) (by
      have : 1 ≤ max (r.last - r.first).toNat 1 := le_max_right _ _
      omega)
  unfold weakest_channel
  have hmax : max (r.last - r.first).toNat 1 = (r.last - r.first).toNat := by
    apply max_eq_left
    omega
  rw [hmax] at this
  refine ⟨this.1, ?_⟩
  have h2 := this.2
  omega

/-- Splitting a well-formed region under a cap of at least one channel: the
parts are well formed, lie within the region, each ends below the start of
every later one, and with fuel for the width of the region none is wider
than the cap. -/
theorem split_region_spec (spectrum : GLSpectrum) (maxrgnwid : Int) (hcap : 1 ≤ maxrgnwid)
    (fuel : Nat) :
    ∀ r : GLChanRange, r.first ≤ r.last →
      (∀ x ∈ split_region spectrum maxrgnwid fuel r,
        x.first ≤ x.last ∧ r.first ≤ x.first ∧ x.last ≤ r.last) ∧
      (split_region spectrum maxrgnwid fuel r).Pairwise (fun a b => a.last < b.first) ∧
      ((r.last - r.first).toNat ≤ fuel →
        ∀ x ∈ split_region spectrum maxrgnwid fuel r, x.last - x.first + 1 ≤ maxrgnwid) := by
  induction fuel with
  | zero =>
    intro r hr
    rw [split_region]
    refine ⟨fun x hx => ?_, List.pairwise_singleton _ _, fun hf x hx => ?_⟩
    · rw [List.mem_singleton.mp hx]
      exact ⟨hr, le_refl _, le_refl _⟩
    · rw [List.mem_singleton.mp hx]
      omega
  | succ fuel ih =>
    intro r hr
    rw [split_region]
    by_cases hw : r.last - r.first + 1 ≤ maxrgnwid
    · rw [if_pos hw]
      refine ⟨fun x hx => ?_, List.pairwise_singleton _ _, fun _ x hx => ?_⟩
      · rw [List.mem_singleton.mp hx]
        exact ⟨hr, le_refl _, le_refl _⟩
      · rw [List.mem_singleton.mp hx]
        exact hw
    · rw [if_neg hw]
      have hlt : r.first < r.last := by omega
      obtain ⟨hm1, hm2⟩ := weakest_channel_bounds spectrum r hlt
      obtain ⟨ha1, ha2, ha3⟩ := ih { first := r.first, last := weakest_channel spectrum r } hm1
      obtain ⟨hb1, hb2, hb3⟩ := ih { first := weakest_channel spectrum r + 1, last := r.last }
        (by show weakest_channel spectrum r + 1 ≤ r.last; omega)
      refine ⟨fun x hx => ?_, ?_, fun hf x hx => ?_⟩
      · rcases List.mem_append.mp hx with hx | hx
        · have := ha1 x hx
          simp only at this
          exact ⟨this.1, this.2.1, by omega⟩
        · have := hb1 x hx
          simp only at this
          exact ⟨this.1, by omega, this.2.2⟩
      · refine List.pairwise_append.mpr ⟨ha2, hb2, fun x hx y hy => ?_⟩
        have h1 := ha1 x hx
        have h2 := hb1 y hy
        simp only at h1 h2
        omega
      · rcases List.mem_append.mp hx with hx | hx
        · exact ha3 (by show (weakest_channel spectrum r - r.first).toNat ≤ fuel; omega) x hx
        · exact hb3 (by show (r.last - (weakest_channel spectrum r + 1)).toNat ≤ fuel; omega)
            x hx

/-- The capped regions, the parts of coalesced spans: well formed, each ends
below the start of every later one, and none is wider than the cap. -/
theorem capped_regions_spec (spectrum : GLSpectrum) (maxrgnwid : Int) (hcap : 1 ≤ maxrgnwid)
    (merged : List GLChanRange) (hwf : ∀ r ∈ merged, r.first ≤ r.last)
    (hpair : merged.Pairwise (fun a b => a.last < b.first)) :
    ((merged.map
      (fun r => split_region spectrum maxrgnwid (r.last - r.first).toNat r)).flatten).Pairwise
        (fun a b => a.last < b.first) ∧
    ∀ x ∈ (merged.map
        (fun r => split_region spectrum maxrgnwid (r.last - r.first).toNat r)).flatten,
      x.first ≤ x.last ∧ x.last - x.first + 1 ≤ maxrgnwid := by
  refine ⟨?_, fun x hx => ?_⟩
  · rw [List.pairwise_flatten]
    refine ⟨fun l hl => ?_, ?_⟩
    · obtain ⟨r, hr, hl⟩ := List.mem_map.mp hl
      rw [← hl]
      exact (split_region_spec spectrum maxrgnwid hcap _ r (hwf r hr)).2.1
    · rw [List.pairwise_map]
      refine List.Pairwise.imp_of_mem ?_ hpair
      intro a b ha hb hab x hx y hy
      have h1 := (split_region_spec spectrum maxrgnwid hcap _ a (hwf a ha)).1 x hx
      have h2 := (split_region_spec spectrum maxrgnwid hcap _ b (hwf b hb)).1 y hy
      omega
  · obtain ⟨l, hl, hxl⟩ := List.mem_flatten.mp hx
    obtain ⟨r, hr, hl⟩ := List.mem_map.mp hl
    rw [← hl] at hxl
    have h := split_region_spec spectrum maxrgnwid hcap (r.last - r.first).toNat r (hwf r hr)
    exact ⟨(h.1 x hxl).1, h.2.2 (le_refl _) x hxl⟩

/-- What the model of `search` answers: with a cap below one channel it
throws; otherwise it returns a set of regions that are well formed, not wider
than the cap, and each of which ends below the start of every later one. -/
theorem search_outcome {F : Type} [LinearOrderedField F]
    (padded_spans : GLSpectrum → GLChanRange → GLWidthEqn F → F → Int → Int →
      List GLChanRange)
    (spectrum : GLSpectrum) (chanrange : GLChanRange) (wx : GLWidthEqn F)
    (peaks : List (GLPeak F)) (parms : JRegionSearchParameters F) :
    (parms.maxrgnwid < 1 →
      (search padded_spans spectrum chanrange wx peaks parms).exception_thrown = true) ∧
    (1 ≤ parms.maxrgnwid →
      ∃ returned : List GLChanRange,
        search padded_spans spectrum chanrange wx peaks parms
          = { exception_thrown := false
              jregions := some
                { array := some (returned.map
                    (fun r =>
                      { lookups_found := true
                        m_firstChannel := r.first
                        m_lastChannel := r.last })) } } ∧
        returned.Pairwise (fun a b => a.last < b.first) ∧
        ∀ x ∈ returned, x.first ≤ x.last ∧ x.last - x.first + 1 ≤ parms.maxrgnwid) := by
  refine ⟨fun h => ?_, fun hcap => ?_⟩
  · unfold search
    rw [if_pos h]
  · have hwf : ∀ s ∈ ((padded_spans spectrum chanrange wx parms.threshold parms.irw
        parms.irch).filter (fun r => decide (r.first ≤ r.last))).insertionSort
          (fun a b => a.first ≤ b.first), s.first ≤ s.last := by
      intro s hs
      rw [(List.perm_insertionSort _ _).mem_iff] at hs
      exact of_decide_eq_true (List.mem_filter.mp hs).2
    obtain ⟨hm1, hm2⟩ := coalesce_spec _ hwf
    obtain ⟨hc1, hc2⟩ := capped_regions_spec spectrum parms.maxrgnwid hcap _ hm1 hm2
    have hnot : ¬ parms.maxrgnwid < 1 := by omega
    generalize hcapd : ((coalesce
      (((padded_spans spectrum chanrange wx parms.threshold parms.irw parms.irch).filter
        (fun r => decide (r.first ≤ r.last))).insertionSort
          (fun a b => a.first ≤ b.first))).map
      (fun r => split_region spectrum parms.maxrgnwid (r.last - r.first).toNat r)).flatten
      = capped at hc1 hc2
    cases hmode : parms.mode with
    | GL_RGNSRCH_ALL =>
      refine ⟨capped.take parms.maxNumReturned.toNat, ?_,
        List.Pairwise.sublist (List.take_sublist parms.maxNumReturned.toNat capped) hc1,
        fun x hx => hc2 x (List.mem_of_mem_take hx)⟩
      unfold search
      rw [if_neg hnot]
      simp only [hmode, hcapd]
    | GL_RGNSRCH_FORPKS =>
      refine ⟨(capped.filter (fun r => peaks.any (fun p => in_region r p))).take
          parms.maxNumReturned.toNat, ?_,
        List.Pairwise.sublist
          ((List.take_sublist parms.maxNumReturned.toNat _).trans (List.filter_sublist capped))
          hc1,
        fun x hx => hc2 x (List.mem_of_mem_filter (List.mem_of_mem_take hx))⟩
      unfold search
      rw [if_neg hnot]
      simp only [hmode, hcapd]

/-- `set_regions` on the Java regions made from the C regions `returned`
counts them and stores them in order. -/
theorem set_regions_of_regions (returned : List GLChanRange) (ret_code : GLRtnCode)
    (regions : GLRegions) :
    (set_regions
        { array := some (returned.map
            (fun r =>
              { lookups_found := true, m_firstChannel := r.first, m_lastChannel := r.last })) }
        ret_code regions).2.nregions = (returned.length : Int) ∧
    ∀ (k : Nat) (hk : k < returned.length),
      (set_regions
          { array := some (returned.map
              (fun r =>
                { lookups_found := true, m_firstChannel := r.first, m_lastChannel := r.last })) }
          ret_code regions).2.chanrange (k : Int) = returned[k] := by
  unfold set_regions GAP_get_array_from_jtreeset
  simp only
  obtain ⟨_, _, _, _, hE⟩ := set_regions_loop_spec
    (returned.map (fun r =>
      ({ lookups_found := true, m_firstChannel := r.first, m_lastChannel := r.last } :
        JChannelRange))) 0 ret_code { regions with nregions := 0 }
  obtain ⟨_, h2, h3⟩ := hE (fun jr hjr => by
    obtain ⟨r, _, hr⟩ := List.mem_map.mp hjr
    rw [← hr])
  refine ⟨?_, fun k hk => ?_⟩
  · rw [h2, List.length_map]
    show (0 : Int) + _ = _
    omega
  · have := h3 k _ (by
      rw [List.getElem?_map, List.getElem?_eq_getElem hk]
      rfl)
    rw [zero_add] at this
    rw [this]

/-- C25: the region list returned by a successful `GL_regnsearch` is sorted
ascending by `first`, its regions never overlap (each region's `last` is
below the `first` of every later region, so of the next one), and no region
spans more than `maxrgnwid` channels (`last - first + 1 <= maxrgnwid`), so
that `GL_exceeds_width` on that list with the same `maxrgnwid` answers false
when its JNI steps succeed. The engine is the region search of the spec, for
any numeric kernel that finds the padded spans, and its `exceedsWidth`. -/
theorem GL_regnsearch_regions_capped {F : Type} [LinearOrderedField F]
    (lookups : JRegnSearchLookups)
    (padded_spans : GLSpectrum → GLChanRange → GLWidthEqn F → F → Int → Int →
      List GLChanRange)
    (ret_code : GLRtnCode) (chanrange : GLChanRange) (wx : GLWidthEqn F) (threshold : F)
    (irw irch : Int) (spectrum : GLSpectrum) (peaks : GLPeakList F) (mode : GLRgnSrchMode)
    (maxrgnwid : Int) (regions found : GLRegions) (elookups : JExceedsWidthLookups)
    (answer : GLboolean)
    (hok : (GL_regnsearch lookups (search padded_spans) ret_code chanrange wx threshold irw
      irch spectrum peaks mode maxrgnwid regions).1 = GL_SUCCESS)
    (hfound : found = (GL_regnsearch lookups (search padded_spans) ret_code chanrange wx
      threshold irw irch spectrum peaks mode maxrgnwid regions).2) :
    (∀ i j : Int, 0 ≤ i → i < j → j < found.nregions →
      (found.chanrange i).first < (found.chanrange j).first) ∧
    (∀ i j : Int, 0 ≤ i → i < j → j < found.nregions →
      (found.chanrange i).last < (found.chanrange j).first) ∧
    (∀ i : Int, 0 ≤ i → i < found.nregions →
      (found.chanrange i).last - (found.chanrange i).first + 1 ≤ maxrgnwid) ∧
    (elookups.jvm_found = true → elookups.rgnTreeSet_built = true →
      elookups.class_found = true → elookups.exceedsWidth_found = true →
      GL_exceeds_width elookups exceedsWidth found maxrgnwid answer = (GL_SUCCESS, GL_FALSE)) := by
  -- the list decoded from the answer of the engine
  have hlist : ∃ returned : List GLChanRange,
      found.nregions = (returned.length : Int) ∧
      (∀ (k : Nat) (hk : k < returned.length), found.chanrange (k : Int) = returned[k]) ∧
      returned.Pairwise (fun a b => a.last < b.first) ∧
      ∀ x ∈ returned, x.first ≤ x.last ∧ x.last - x.first + 1 ≤ maxrgnwid := by
    unfold GL_regnsearch at hok hfound
    cases g1 : lookups.jvm_found with
    | false => simp [g1] at hok
    | true =>
      cases g2 : lookups.jspectrum_built with
      | false => simp [g1, g2] at hok
      | true =>
        cases g3 : lookups.jchanrange_built with
        | false => simp [g1, g2, g3] at hok
        | true =>
          cases g4 : lookups.jwx_built with
          | false => simp [g1, g2, g3, g4] at hok
          | true =>
            cases g5 : lookups.jpeaks_built with
            | false => simp [g1, g2, g3, g4, g5] at hok
            | true =>
              cases g6 : lookups.jparms_built with
              | false => simp [g1, g2, g3, g4, g5, g6] at hok
              | true =>
                cases g7 : lookups.class_found with
                | false => simp [g1, g2, g3, g4, g5, g6, g7] at hok
                | true =>
                  cases g8 : lookups.search_found with
                  | false => simp [g1, g2, g3, g4, g5, g6, g7, g8] at hok
                  | true =>
                    simp only [g1, g2, g3, g4, g5, g6, g7, g8, Bool.not_true,
                      Bool.false_eq_true, if_false] at hok hfound
                    obtain ⟨hthrow, hret⟩ := search_outcome padded_spans spectrum chanrange wx
                      peaks.toList
                      { mode := mode
                        threshold := threshold
                        irw := irw
                        irch := irch
                        maxrgnwid := maxrgnwid
                        maxNumReturned := regions.listlength }
                    by_cases hcap : maxrgnwid < 1
                    · have := hthrow hcap
                      rw [this] at hok
                      simp at hok
                    · obtain ⟨returned, hs, hpair, hall⟩ := hret (by
                        show 1 ≤ maxrgnwid
                        omega)
                      rw [hs] at hok hfound
                      simp only [Bool.false_eq_true, if_false] at hok hfound
                      obtain ⟨hn, hk⟩ := set_regions_of_regions returned ret_code regions
                      rw [← hfound] at hn hk
                      exact ⟨returned, hn, hk, hpair, hall⟩
  obtain ⟨returned, hn, hk, hpair, hall⟩ := hlist
  have hat : ∀ i : Int, 0 ≤ i → i < found.nregions →
      ∃ h : i.toNat < returned.length, found.chanrange i = returned[i.toNat] := by
    intro i h0 h1
    have hlt : i.toNat < returned.length := by omega
    refine ⟨hlt, ?_⟩
    have := hk i.toNat hlt
    have hcast : ((i.toNat : Nat) : Int) = i := by omega
    rw [hcast] at this
    exact this
  have hover : ∀ i j : Int, 0 ≤ i → i < j → j < found.nregions →
      (found.chanrange i).last < (found.chanrange j).first := by
    intro i j h0 hij hj
    obtain ⟨hi2, ei⟩ := hat i h0 (by omega)
    obtain ⟨hj2, ej⟩ := hat j (by omega) hj
    rw [ei, ej]
    exact List.pairwise_iff_getElem.mp hpair i.toNat j.toNat hi2 hj2 (by omega)
  have hwf : ∀ i : Int, 0 ≤ i → i < found.nregions →
      (found.chanrange i).first ≤ (found.chanrange i).last ∧
      (found.chanrange i).last - (found.chanrange i).first + 1 ≤ maxrgnwid := by
    intro i h0 h1
    obtain ⟨hi2, ei⟩ := hat i h0 h1
    rw [ei]
    exact hall _ (List.getElem_mem hi2)
  refine ⟨fun i j h0 hij hj => ?_, hover, fun i h0 h1 => (hwf i h0 h1).2,
    fun e1 e2 e3 e4 => ?_⟩
  · have h1 := hover i j h0 hij hj
    have h2 := (hwf i h0 (by omega)).1
    omega
  · unfold GL_exceeds_width
    simp only [e1, e2, e3, e4, Bool.not_true, Bool.false_eq_true, if_false]
    have hfalse : exceedsWidth found.toList maxrgnwid = false := by
      unfold exceedsWidth
      rw [List.any_eq_false]
      intro r hr
      unfold GLRegions.toList at hr
      obtain ⟨k, hkr, hr2⟩ := List.mem_map.mp hr
      have hk2 := List.mem_range.mp hkr
      have := (hwf (k : Int) (by omega) (by omega)).2
      rw [hr2] at this
      simp only [decide_eq_true_eq, gt_iff_lt, not_lt]
      exact this
    rw [hfalse]
    rfl

/-- C25 at a search with the cap 8 whose kernel finds the padded spans
105..110, 100..106 and 120..122, into a list of ten regions: the call
succeeds with five regions (the coalesced span 100..110 is cut three times),
which are sorted, do not overlap and are at most 8 channels wide, and
`GL_exceeds_width` answers false for them. -/
theorem GL_regnsearch_regions_capped_witness :
    (GL_regnsearch regnsearch_lookups_found (search (spans_three ℚ)) GL_FAILURE ⟨20, 4076⟩
      (test_width ℚ) 2 3 2 test_spectrum (fit_peaks ℚ) GL_RGNSRCH_ALL 8 regions_ten).1
      = GL_SUCCESS ∧
    (GL_regnsearch regnsearch_lookups_found (search (spans_three ℚ)) GL_FAILURE ⟨20, 4076⟩
      (test_width ℚ) 2 3 2 test_spectrum (fit_peaks ℚ) GL_RGNSRCH_ALL 8 regions_ten).2.nregions
      = 5 ∧
    (∀ i j : Int, 0 ≤ i → i < j →
      j < (GL_regnsearch regnsearch_lookups_found (search (spans_three ℚ)) GL_FAILURE ⟨20, 4076⟩
        (test_width ℚ) 2 3 2 test_spectrum (fit_peaks ℚ) GL_RGNSRCH_ALL 8
        regions_ten).2.nregions →
      ((GL_regnsearch regnsearch_lookups_found (search (spans_three ℚ)) GL_FAILURE ⟨20, 4076⟩
        (test_width ℚ) 2 3 2 test_spectrum (fit_peaks ℚ) GL_RGNSRCH_ALL 8
        regions_ten).2.chanrange i).last
        < ((GL_regnsearch regnsearch_lookups_found (search (spans_three ℚ)) GL_FAILURE
          ⟨20, 4076⟩ (test_width ℚ) 2 3 2 test_spectrum (fit_peaks ℚ) GL_RGNSRCH_ALL 8
          regions_ten).2.chanrange j).first) ∧
    GL_exceeds_width exceeds_lookups_found exceedsWidth
      (GL_regnsearch regnsearch_lookups_found (search (spans_three ℚ)) GL_FAILURE ⟨20, 4076⟩
        (test_width ℚ) 2 3 2 test_spectrum (fit_peaks ℚ) GL_RGNSRCH_ALL 8 regions_ten).2
      8 GL_TRUE = (GL_SUCCESS, GL_FALSE) :=
  ⟨by decide, by decide,
    (GL_regnsearch_regions_capped regnsearch_lookups_found (spans_three ℚ) GL_FAILURE ⟨20, 4076⟩
      (test_width ℚ) 2 3 2 test_spectrum (fit_peaks ℚ) GL_RGNSRCH_ALL 8 regions_ten _
      exceeds_lookups_found GL_TRUE (by decide) rfl).2.1,
    (GL_regnsearch_regions_capped regnsearch_lookups_found (spans_three ℚ) GL_FAILURE ⟨20, 4076⟩
      (test_width ℚ) 2 3 2 test_spectrum (fit_peaks ℚ) GL_RGNSRCH_ALL 8 regions_ten _
      exceeds_lookups_found GL_TRUE (by decide) rfl).2.2.2 rfl rfl rfl rfl⟩

/-! ## Region search: the capacity of the region list -/

/-- The code of `set_regions` and what it leaves of the list: `listlength` is
kept, and the code is `GL_SUCCESS` or `GL_JNIERROR`, or, when the set holds no
region, whatever the unset local holds, with `nregions = 0`. -/
theorem set_regions_codes (regionsTreeObject : JTreeSet JChannelRange) (ret_code : GLRtnCode)
    (regions : GLRegions) :
    (set_regions regionsTreeObject ret_code regions).2.listlength = regions.listlength ∧
    ((set_regions regionsTreeObject ret_code regions).1 = GL_SUCCESS ∨
      (set_regions regionsTreeObject ret_code regions).1 = GL_JNIERROR ∨
      ((set_regions regionsTreeObject ret_code regions).1 = ret_code ∧
        (set_regions regionsTreeObject ret_code regions).2.nregions = 0)) := by
  unfold set_regions GAP_get_array_from_jtreeset
  cases harr : regionsTreeObject.array with
  | none => exact ⟨rfl, Or.inr (Or.inl rfl)⟩
  | some js =>
    simp only
    obtain ⟨hA, _, _, hD, _⟩ := set_regions_loop_spec js 0 ret_code { regions with nregions := 0 }
    refine ⟨hA, ?_⟩
    cases js with
    | nil => exact Or.inr (Or.inr ⟨rfl, rfl⟩)
    | cons a b =>
      rcases hD (List.cons_ne_nil _ _) with h | h
      · exact Or.inl h
      · exact Or.inr (Or.inl h)

/-- `set_regions` on the Java regions made from the C regions `returned`:
with at least one region the code is `GL_SUCCESS`, with none it is what the
unset local holds, and no entry at a negative index or at an index at or
above their number is written. -/
theorem set_regions_of_regions_frame (returned : List GLChanRange) (ret_code : GLRtnCode)
    (regions : GLRegions) :
    (returned ≠ [] →
      (set_regions
        { array := some (returned.map
            (fun r =>
              { lookups_found := true, m_firstChannel := r.first, m_lastChannel := r.last })) }
        ret_code regions).1 = GL_SUCCESS) ∧
    (returned = [] →
      (set_regions
        { array := some (returned.map
            (fun r =>
              { lookups_found := true, m_firstChannel := r.first, m_lastChannel := r.last })) }
        ret_code regions).1 = ret_code) ∧
    (set_regions
        { array := some (returned.map
            (fun r =>
              { lookups_found := true, m_firstChannel := r.first, m_lastChannel := r.last })) }
        ret_code regions).2.listlength = regions.listlength ∧
    ∀ j : Int, (j < 0 ∨ (returned.length : Int) ≤ j) →
      (set_regions
          { array := some (returned.map
              (fun r =>
                { lookups_found := true, m_firstChannel := r.first, m_lastChannel := r.last })) }
          ret_code regions).2.chanrange j = regions.chanrange j := by
  unfold set_regions GAP_get_array_from_jtreeset
  simp only
  obtain ⟨hA, _, hC, _, hE⟩ := set_regions_loop_spec
    (returned.map (fun r =>
      ({ lookups_found := true, m_firstChannel := r.first, m_lastChannel := r.last } :
        JChannelRange))) 0 ret_code { regions with nregions := 0 }
  obtain ⟨h1, _, _⟩ := hE (fun jr hjr => by
    obtain ⟨r, _, hr⟩ := List.mem_map.mp hjr
    rw [← hr])
  refine ⟨fun hne => h1 (by simpa using hne), fun hnil => ?_, hA, fun j hj => ?_⟩
  · subst hnil
    rfl
  · rw [List.length_map] at hC
    rw [hC j (by omega)]

/-- The model of `search` returns the first `maxNumReturned` of the regions
it keeps, and which regions it keeps does not depend on `maxNumReturned`. -/
theorem search_returns_prefix {F : Type} [LinearOrderedField F]
    (padded_spans : GLSpectrum → GLChanRange → GLWidthEqn F → F → Int → Int →
      List GLChanRange)
    (spectrum : GLSpectrum) (chanrange : GLChanRange) (wx : GLWidthEqn F)
    (peaks : List (GLPeak F)) (mode : GLRgnSrchMode) (threshold : F) (irw irch maxrgnwid : Int)
    (hcap : 1 ≤ maxrgnwid) :
    ∃ kept : List GLChanRange, ∀ maxNumReturned : Int,
      search padded_spans spectrum chanrange wx peaks
          { mode := mode
            threshold := threshold
            irw := irw
            irch := irch
            maxrgnwid := maxrgnwid
            maxNumReturned := maxNumReturned }
        = { exception_thrown := false
            jregions := some
              { array := some ((kept.take maxNumReturned.toNat).map
                  (fun r =>
                    { lookups_found := true
                      m_firstChannel := r.first
                      m_lastChannel := r.last })) } } := by
  have hnot : ¬ maxrgnwid < 1 := by omega
  refine ⟨match mode with
    | GL_RGNSRCH_ALL =>
      ((coalesce (((padded_spans spectrum chanrange wx threshold irw irch).filter
        (fun r => decide (r.first ≤ r.last))).insertionSort
          (fun a b => a.first ≤ b.first))).map
        (fun r => split_region spectrum maxrgnwid (r.last - r.first).toNat r)).flatten
    | GL_RGNSRCH_FORPKS =>
      (((coalesce (((padded_spans spectrum chanrange wx threshold irw irch).filter
        (fun r => decide (r.first ≤ r.last))).insertionSort
          (fun a b => a.first ≤ b.first))).map
        (fun r => split_region spectrum maxrgnwid (r.last - r.first).toNat r)).flatten).filter
          (fun r => peaks.any (fun p => in_region r p)), fun m => ?_⟩
  unfold search
  simp only [if_neg hnot]

/-- The paths of `GL_regnsearch`, whatever the engine: either a step before
the decoding fails, with `GL_NOJVM`, `GL_JNIERROR` or `GL_JEXCEPTION` and the
list untouched, or the engine has answered without throwing and its set of
regions is decoded by `set_regions`. -/
theorem GL_regnsearch_paths {F : Type} [LinearOrderedField F] (lookups : JRegnSearchLookups)
    (engine : GLSpectrum → GLChanRange → GLWidthEqn F → List (GLPeak F) →
      JRegionSearchParameters F → JRegionSearchOutcome)
    (ret_code : GLRtnCode) (chanrange : GLChanRange) (wx : GLWidthEqn F) (threshold : F)
    (irw irch : Int) (spectrum : GLSpectrum) (peaks : GLPeakList F) (mode : GLRgnSrchMode)
    (maxrgnwid : Int) (regions : GLRegions) :
    (∃ c : GLRtnCode, (c = GL_NOJVM ∨ c = GL_JNIERROR ∨ c = GL_JEXCEPTION) ∧
      GL_regnsearch lookups engine ret_code chanrange wx threshold irw irch spectrum peaks mode
        maxrgnwid regions = (c, regions)) ∨
    (∃ jregions : JTreeSet JChannelRange,
      (engine spectrum chanrange wx peaks.toList
        { mode := mode
          threshold := threshold
          irw := irw
          irch := irch
          maxrgnwid := maxrgnwid
          maxNumReturned := regions.listlength }).exception_thrown = false ∧
      (engine spectrum chanrange wx peaks.toList
        { mode := mode
          threshold := threshold
          irw := irw
          irch := irch
          maxrgnwid := maxrgnwid
          maxNumReturned := regions.listlength }).jregions = some jregions ∧
      GL_regnsearch lookups engine ret_code chanrange wx threshold irw irch spectrum peaks mode
        maxrgnwid regions = set_regions jregions ret_code regions) := by
  unfold GL_regnsearch
  cases g1 : lookups.jvm_found with
  | false => exact Or.inl ⟨GL_NOJVM, Or.inl rfl, by simp⟩
  | true =>
  cases g2 : lookups.jspectrum_built with
  | false => exact Or.inl ⟨GL_JNIERROR, Or.inr (Or.inl rfl), by simp⟩
  | true =>
  cases g3 : lookups.jchanrange_built with
  | false => exact Or.inl ⟨GL_JNIERROR, Or.inr (Or.inl rfl), by simp⟩
  | true =>
  cases g4 : lookups.jwx_built with
  | false => exact Or.inl ⟨GL_JNIERROR, Or.inr (Or.inl rfl), by simp⟩
  | true =>
  cases g5 : lookups.jpeaks_built with
  | false => exact Or.inl ⟨GL_JNIERROR, Or.inr (Or.inl rfl), by simp⟩
  | true =>
  cases g6 : lookups.jparms_built with
  | false => exact Or.inl ⟨GL_JNIERROR, Or.inr (Or.inl rfl), by simp⟩
  | true =>
  cases g7 : lookups.class_found with
  | false => exact Or.inl ⟨GL_JNIERROR, Or.inr (Or.inl rfl), by simp⟩
  | true =>
  cases g8 : lookups.search_found with
  | false => exact Or.inl ⟨GL_JNIERROR, Or.inr (Or.inl rfl), by simp⟩
  | true =>
    simp only [Bool.not_true, Bool.false_eq_true, if_false]
    cases hthrow : (engine spectrum chanrange wx peaks.toList
        { mode := mode
          threshold := threshold
          irw := irw
          irch := irch
          maxrgnwid := maxrgnwid
          maxNumReturned := regions.listlength }).exception_thrown with
    | true => exact Or.inl ⟨GL_JEXCEPTION, Or.inr (Or.inr rfl), by simp⟩
    | false =>
      cases hj : (engine spectrum chanrange wx peaks.toList
          { mode := mode
            threshold := threshold
            irw := irw
            irch := irch
            maxrgnwid := maxrgnwid
            maxNumReturned := regions.listlength }).jregions with
      | none => exact Or.inl ⟨GL_JNIERROR, Or.inr (Or.inl rfl), by simp⟩
      | some jregions => exact Or.inr ⟨jregions, rfl, rfl, by simp⟩

/-- With the engine of the spec, every path of `GL_regnsearch` leaves the
list untouched or decodes the first `listlength` of the regions the engine
keeps, which do not depend on `listlength`; the decoding is reached when the
JNI steps succeed and the cap is at least one channel. -/
theorem GL_regnsearch_decodes_prefix {F : Type} [LinearOrderedField F]
    (lookups : JRegnSearchLookups)
    (padded_spans : GLSpectrum → GLChanRange → GLWidthEqn F → F → Int → Int →
      List GLChanRange)
    (chanrange : GLChanRange) (wx : GLWidthEqn F) (threshold : F)
    (irw irch : Int) (spectrum : GLSpectrum) (peaks : GLPeakList F) (mode : GLRgnSrchMode)
    (maxrgnwid : Int) :
    ∃ kept : List GLChanRange, ∀ (ret_code : GLRtnCode) (regions : GLRegions),
      ((∃ c : GLRtnCode, (c = GL_NOJVM ∨ c = GL_JNIERROR ∨ c = GL_JEXCEPTION) ∧
        GL_regnsearch lookups (search padded_spans) ret_code chanrange wx threshold irw irch
          spectrum peaks mode maxrgnwid regions = (c, regions)) ∨
        GL_regnsearch lookups (search padded_spans) ret_code chanrange wx threshold irw irch
          spectrum peaks mode maxrgnwid regions
          = set_regions
              { array := some ((kept.take regions.listlength.toNat).map
                  (fun r =>
                    { lookups_found := true
                      m_firstChannel := r.first
                      m_lastChannel := r.last })) }
              ret_code regions) ∧
      (lookups.jvm_found = true → lookups.jspectrum_built = true →
        lookups.jchanrange_built = true → lookups.jwx_built = true →
        lookups.jpeaks_built = true → lookups.jparms_built = true →
        lookups.class_found = true → lookups.search_found = true → 1 ≤ maxrgnwid →
        GL_regnsearch lookups (search padded_spans) ret_code chanrange wx threshold irw irch
          spectrum peaks mode maxrgnwid regions
          = set_regions
              { array := some ((kept.take regions.listlength.toNat).map
                  (fun r =>
                    { lookups_found := true
                      m_firstChannel := r.first
                      m_lastChannel := r.last })) }
              ret_code regions) := by
  by_cases hcap : 1 ≤ maxrgnwid
  · obtain ⟨kept, hkept⟩ := search_returns_prefix padded_spans spectrum chanrange wx
      peaks.toList mode threshold irw irch maxrgnwid hcap
    refine ⟨kept, fun ret_code regions => ⟨?_, fun g1 g2 g3 g4 g5 g6 g7 g8 _ => ?_⟩⟩
    · rcases GL_regnsearch_paths lookups (search padded_spans) ret_code chanrange wx threshold
        irw irch spectrum peaks mode maxrgnwid regions with h | ⟨jregions, _, hj, hr⟩
      · exact Or.inl h
      · right
        rw [hkept regions.listlength] at hj
        simp only [Option.some.injEq] at hj
        rw [hr, ← hj]
    · unfold GL_regnsearch
      simp only [g1, g2, g3, g4, g5, g6, g7, g8, Bool.not_true, Bool.false_eq_true, if_false]
      rw [hkept regions.listlength]
      simp only [Bool.false_eq_true, if_false]
  · refine ⟨[], fun ret_code regions => ⟨?_, fun _ _ _ _ _ _ _ _ h => absurd h hcap⟩⟩
    rcases GL_regnsearch_paths lookups (search padded_spans) ret_code chanrange wx threshold irw
      irch spectrum peaks mode maxrgnwid regions with h | ⟨jregions, hthrow, _, _⟩
    · exact Or.inl h
    · have := (search_outcome padded_spans spectrum chanrange wx peaks.toList
        { mode := mode
          threshold := threshold
          irw := irw
          irch := irch
          maxrgnwid := maxrgnwid
          maxNumReturned := regions.listlength }).1 (by
            show maxrgnwid < 1
            omega)
      rw [this] at hthrow
      exact absurd hthrow (by decide)

/-- What `set_regions` makes of the first `cap` of the regions `kept`: the
code is `GL_SUCCESS` when a region is stored, `listlength` is kept, `nregions`
is the smaller of `cap` and the number kept, the regions stored are the first
of `kept` in order, and no entry at a negative index or at an index at or
above `cap` is written. -/
theorem set_regions_of_prefix (kept : List GLChanRange) (cap : Nat) (ret_code : GLRtnCode)
    (regions : GLRegions) :
    (set_regions
        { array := some ((kept.take cap).map
            (fun r =>
              { lookups_found := true, m_firstChannel := r.first, m_lastChannel := r.last })) }
        ret_code regions).2.listlength = regions.listlength ∧
    (set_regions
        { array := some ((kept.take cap).map
            (fun r =>
              { lookups_found := true, m_firstChannel := r.first, m_lastChannel := r.last })) }
        ret_code regions).2.nregions = ((min cap kept.length : Nat) : Int) ∧
    (0 < min cap kept.length →
      (set_regions
        { array := some ((kept.take cap).map
            (fun r =>
              { lookups_found := true, m_firstChannel := r.first, m_lastChannel := r.last })) }
        ret_code regions).1 = GL_SUCCESS) ∧
    (∀ (k : Nat) (hk : k < kept.length), k < cap →
      (set_regions
          { array := some ((kept.take cap).map
              (fun r =>
                { lookups_found := true, m_firstChannel := r.first, m_lastChannel := r.last })) }
          ret_code regions).2.chanrange (k : Int) = kept[k]) ∧
    ∀ j : Int, (j < 0 ∨ (cap : Int) ≤ j) →
      (set_regions
          { array := some ((kept.take cap).map
              (fun r =>
                { lookups_found := true, m_firstChannel := r.first, m_lastChannel := r.last })) }
          ret_code regions).2.chanrange j = regions.chanrange j := by
  obtain ⟨hn, hk⟩ := set_regions_of_regions (kept.take cap) ret_code regions
  obtain ⟨hs, _, hl, hf⟩ := set_regions_of_regions_frame (kept.take cap) ret_code regions
  have hlen : (kept.take cap).length = min cap kept.length := List.length_take _ _
  refine ⟨hl, ?_, fun hpos => hs (fun hnil => ?_), fun k hk1 hk2 => ?_, fun j hj => hf j ?_⟩
  · rw [hn, hlen]
  · rw [hnil] at hlen
    simp only [List.length_nil] at hlen
    omega
  · have hk3 : k < (kept.take cap).length := by
      rw [hlen]
      omega
    rw [hk k hk3]
    simp
  · rw [hlen]
    omega

/-- C19, the claim refuted: a search with the cap 8 whose kernel finds the
padded spans 105..110, 100..106 and 120..122 finds five regions, as the call
with room for ten shows. With room for two, `GL_regnsearch` stores the first
two of them (`nregions = listlength = 2`, nothing written at index 2) and
returns `GL_SUCCESS`: the overflow is not signalled with `GL_OVRLMT`. -/
theorem GL_regnsearch_overflow_returns_success :
    (GL_regnsearch regnsearch_lookups_found (search (spans_three ℚ)) GL_FAILURE ⟨20, 4076⟩
      (test_width ℚ) 2 3 2 test_spectrum (fit_peaks ℚ) GL_RGNSRCH_ALL 8 regions_ten).2.nregions
      = 5 ∧
    regions_two.listlength = 2 ∧
    (GL_regnsearch regnsearch_lookups_found (search (spans_three ℚ)) GL_FAILURE ⟨20, 4076⟩
      (test_width ℚ) 2 3 2 test_spectrum (fit_peaks ℚ) GL_RGNSRCH_ALL 8 regions_two).2.nregions
      = 2 ∧
    (GL_regnsearch regnsearch_lookups_found (search (spans_three ℚ)) GL_FAILURE ⟨20, 4076⟩
      (test_width ℚ) 2 3 2 test_spectrum (fit_peaks ℚ) GL_RGNSRCH_ALL 8 regions_two).2.chanrange 2
      = regions_two.chanrange 2 ∧
    (GL_regnsearch regnsearch_lookups_found (search (spans_three ℚ)) GL_FAILURE ⟨20, 4076⟩
      (test_width ℚ) 2 3 2 test_spectrum (fit_peaks ℚ) GL_RGNSRCH_ALL 8 regions_two).1
      = GL_SUCCESS ∧
    (GL_regnsearch regnsearch_lookups_found (search (spans_three ℚ)) GL_FAILURE ⟨20, 4076⟩
      (test_width ℚ) 2 3 2 test_spectrum (fit_peaks ℚ) GL_RGNSRCH_ALL 8 regions_two).1
      ≠ GL_OVRLMT := by
  decide

/-- C19 as amended: `GL_regnsearch` does not signal a capacity overflow.
Whatever the engine answers, its code is `GL_NOJVM`, `GL_JNIERROR`,
`GL_JEXCEPTION` or `GL_SUCCESS`, or, when the set of regions decoded by
`set_regions` is empty, the value of the local that `set_regions` leaves
unset; no path produces `GL_OVRLMT`. With the region search of the spec as the
engine, which gets `listlength` as the maximum number of regions to return:
`listlength` is kept, no entry at an index at or above `listlength` is
written, and `nregions <= listlength` is kept on a list with
`0 <= listlength`; when the JNI steps succeed and `maxrgnwid >= 1`, then for
every number of regions found `0 <= nregions <= listlength`, the code is
`GL_SUCCESS` when a region is stored, and the regions stored are the first
`listlength` of those the same search stores in any list at least as long:
`nregions` is the smaller of that number and `listlength`, and the entries
below `nregions` agree. -/
theorem GL_regnsearch_within_capacity {F : Type} [LinearOrderedField F]
    (lookups : JRegnSearchLookups)
    (engine : GLSpectrum → GLChanRange → GLWidthEqn F → List (GLPeak F) →
      JRegionSearchParameters F → JRegionSearchOutcome)
    (ret_code : GLRtnCode) (chanrange : GLChanRange) (wx : GLWidthEqn F) (threshold : F)
    (irw irch : Int) (spectrum : GLSpectrum) (peaks : GLPeakList F) (mode : GLRgnSrchMode)
    (maxrgnwid : Int) (regions : GLRegions) (found : GLRtnCode × GLRegions)
    (hfound : found = GL_regnsearch lookups engine ret_code chanrange wx threshold irw irch
      spectrum peaks mode maxrgnwid regions) :
    (found.1 = GL_NOJVM ∨ found.1 = GL_JNIERROR ∨ found.1 = GL_JEXCEPTION ∨
      found.1 = GL_SUCCESS ∨ (found.1 = ret_code ∧ found.2.nregions = 0)) ∧
    ∀ padded_spans : GLSpectrum → GLChanRange → GLWidthEqn F → F → Int → Int →
        List GLChanRange,
      engine = search padded_spans →
      found.2.listlength = regions.listlength ∧
      (∀ j : Int, regions.listlength ≤ j → found.2.chanrange j = regions.chanrange j) ∧
      (0 ≤ regions.listlength → regions.nregions ≤ regions.listlength →
        found.2.nregions ≤ found.2.listlength) ∧
      (lookups.jvm_found = true → lookups.jspectrum_built = true →
        lookups.jchanrange_built = true → lookups.jwx_built = true →
        lookups.jpeaks_built = true → lookups.jparms_built = true →
        lookups.class_found = true → lookups.search_found = true →
        1 ≤ maxrgnwid → 0 ≤ regions.listlength →
        0 ≤ found.2.nregions ∧ found.2.nregions ≤ found.2.listlength ∧
        (0 < found.2.nregions → found.1 = GL_SUCCESS) ∧
        ∀ larger : GLRegions, regions.listlength ≤ larger.listlength →
          found.2.nregions
            = min (GL_regnsearch lookups engine ret_code chanrange wx threshold irw irch
                spectrum peaks mode maxrgnwid larger).2.nregions regions.listlength ∧
          ∀ k : Int, 0 ≤ k → k < found.2.nregions →
            found.2.chanrange k
              = (GL_regnsearch lookups engine ret_code chanrange wx threshold irw irch
                  spectrum peaks mode maxrgnwid larger).2.chanrange k) := by
  refine ⟨?_, fun padded_spans hengine => ?_⟩
  · rcases GL_regnsearch_paths lookups engine ret_code chanrange wx threshold irw irch
      spectrum peaks mode maxrgnwid regions with ⟨c, hc, hr⟩ | ⟨jregions, _, _, hr⟩
    · rw [hfound, hr]
      rcases hc with h | h | h
      · exact Or.inl h
      · exact Or.inr (Or.inl h)
      · exact Or.inr (Or.inr (Or.inl h))
    · rw [hfound, hr]
      rcases (set_regions_codes jregions ret_code regions).2 with h | h | h
      · exact Or.inr (Or.inr (Or.inr (Or.inl h)))
      · exact Or.inr (Or.inl h)
      · exact Or.inr (Or.inr (Or.inr (Or.inr h)))
  · subst hengine
    obtain ⟨kept, hkept⟩ := GL_regnsearch_decodes_prefix lookups padded_spans chanrange wx
      threshold irw irch spectrum peaks mode maxrgnwid
    obtain ⟨hl, hn, hs, hk, hf⟩ := set_regions_of_prefix kept regions.listlength.toNat ret_code
      regions
    refine ⟨?_, fun j hj => ?_, fun h0 hinv => ?_,
      fun g1 g2 g3 g4 g5 g6 g7 g8 hcap h0 => ?_⟩
    · rcases (hkept ret_code regions).1 with ⟨c, _, hr⟩ | hr
      · rw [hfound, hr]
      · rw [hfound, hr]
        exact hl
    · rcases (hkept ret_code regions).1 with ⟨c, _, hr⟩ | hr
      · rw [hfound, hr]
      · rw [hfound, hr]
        exact hf j (by omega)
    · rcases (hkept ret_code regions).1 with ⟨c, _, hr⟩ | hr
      · rw [hfound, hr]
        exact hinv
      · rw [hfound, hr, hl, hn]
        omega
    · have hr := (hkept ret_code regions).2 g1 g2 g3 g4 g5 g6 g7 g8 hcap
      rw [hfound, hr]
      refine ⟨by omega, by omega, fun hpos => hs (by omega), fun larger hlarger => ?_⟩
      have hr2 := (hkept ret_code larger).2 g1 g2 g3 g4 g5 g6 g7 g8 hcap
      obtain ⟨_, hn2, _, hk2, _⟩ := set_regions_of_prefix kept larger.listlength.toNat ret_code
        larger
      rw [hr2]
      refine ⟨by omega, fun k hk0 hk1 => ?_⟩
      have hcast : ((k.toNat : Nat) : Int) = k := by omega
      have hb1 : k.toNat < kept.length := by omega
      have hb2 : k.toNat < regions.listlength.toNat := by omega
      have hb3 : k.toNat < larger.listlength.toNat := by omega
      have e1 := hk k.toNat hb1 hb2
      have e2 := hk2 k.toNat hb1 hb3
      rw [hcast] at e1 e2
      rw [e1, e2]

/-- C19 as amended, at the search with the cap 8 that finds five regions and
a list with room for three: `nregions = 3 = listlength`, nothing is written at
index 3, the code is `GL_SUCCESS`, and the three regions stored are the first
three of the five stored in the list with room for ten. -/
theorem GL_regnsearch_within_capacity_witness :
    (GL_regnsearch regnsearch_lookups_found (search (spans_three ℚ)) GL_FAILURE ⟨20, 4076⟩
      (test_width ℚ) 2 3 2 test_spectrum (fit_peaks ℚ) GL_RGNSRCH_ALL 8 regions_three).2.nregions
      ≤ (GL_regnsearch regnsearch_lookups_found (search (spans_three ℚ)) GL_FAILURE ⟨20, 4076⟩
        (test_width ℚ) 2 3 2 test_spectrum (fit_peaks ℚ) GL_RGNSRCH_ALL 8
        regions_three).2.listlength ∧
    (GL_regnsearch regnsearch_lookups_found (search (spans_three ℚ)) GL_FAILURE ⟨20, 4076⟩
      (test_width ℚ) 2 3 2 test_spectrum (fit_peaks ℚ) GL_RGNSRCH_ALL 8 regions_three).2.nregions
      = 3 ∧
    (GL_regnsearch regnsearch_lookups_found (search (spans_three ℚ)) GL_FAILURE ⟨20, 4076⟩
      (test_width ℚ) 2 3 2 test_spectrum (fit_peaks ℚ) GL_RGNSRCH_ALL 8
      regions_three).2.chanrange 3 = regions_three.chanrange 3 ∧
    (GL_regnsearch regnsearch_lookups_found (search (spans_three ℚ)) GL_FAILURE ⟨20, 4076⟩
      (test_width ℚ) 2 3 2 test_spectrum (fit_peaks ℚ) GL_RGNSRCH_ALL 8 regions_three).1
      = GL_SUCCESS ∧
    (GL_regnsearch regnsearch_lookups_found (search (spans_three ℚ)) GL_FAILURE ⟨20, 4076⟩
      (test_width ℚ) 2 3 2 test_spectrum (fit_peaks ℚ) GL_RGNSRCH_ALL 8 regions_three).2.nregions
      = min (GL_regnsearch regnsearch_lookups_found (search (spans_three ℚ)) GL_FAILURE
          ⟨20, 4076⟩ (test_width ℚ) 2 3 2 test_spectrum (fit_peaks ℚ) GL_RGNSRCH_ALL 8
          regions_ten).2.nregions regions_three.listlength ∧
    (GL_regnsearch regnsearch_lookups_found (search (spans_three ℚ)) GL_FAILURE ⟨20, 4076⟩
      (test_width ℚ) 2 3 2 test_spectrum (fit_peaks ℚ) GL_RGNSRCH_ALL 8
      regions_three).2.chanrange 2
      = (GL_regnsearch regnsearch_lookups_found (search (spans_three ℚ)) GL_FAILURE ⟨20, 4076⟩
        (test_width ℚ) 2 3 2 test_spectrum (fit_peaks ℚ) GL_RGNSRCH_ALL 8
        regions_ten).2.chanrange 2 :=
  have h := (GL_regnsearch_within_capacity regnsearch_lookups_found (search (spans_three ℚ))
    GL_FAILURE ⟨20, 4076⟩ (test_width ℚ) 2 3 2 test_spectrum (fit_peaks ℚ) GL_RGNSRCH_ALL 8
    regions_three _ rfl).2 (spans_three ℚ) rfl
  have hd := h.2.2.2 rfl rfl rfl rfl rfl rfl rfl rfl (by decide) (by decide)
  ⟨h.2.2.1 (by decide) (by decide), by decide, h.2.1 3 (by decide), hd.2.2.1 (by decide),
    (hd.2.2.2 regions_ten (by decide)).1,
    (hd.2.2.2 regions_ten (by decide)).2 2 (by decide) (by decide)⟩

end GaussAlgs
